import Mathlib

/-!
# Time-advance core of WarpX / ARTEMIS: a shallow embedding

The development follows the source files

* `Source/FieldSolver/SpectralSolver/SpectralAlgorithms/PsatdAlgorithmRZ.cpp`
  (the constructor, `InitializeSpectralCoefficients`, `pushSpectralFields`,
  `CurrentCorrection`),
* `Source/Evolve/WarpXEvolve.cpp` (`Evolve`, `OneStep_sub1`, `OneStep_multiJ`),
* `Source/Particles/WarpXParticleContainer.cpp` (`AddNParticles`, the per-tile
  `DepositCurrent` and `DepositCharge`, `DepositCurrent` over the levels,
  `sumParticleCharge`, `maxParticleVelocity`),
* `Source/FieldSolver/FiniteDifferenceSolver/MacroscopicProperties/MacroscopicProperties.H`
  (`face_avg_to_face`, `updateM_field`, `LaxWendroffAlgo`, `BackwardEulerAlgo`).

Conventions of the embedding.

* `amrex::Real` is an arbitrary linearly ordered field `R` (exact arithmetic); the
  definitions are computable and can be run on the rationals, the theorems hold for
  every such field and in particular for the real numbers.
* Where the code compares a computed `amrex::Real` with a constant by `!=` (the relative
  time handed to the per-tile `DepositCurrent`), the rounding of each operation is a
  parameter `fl`, with `fl x` the number stored for the exact result `x`: the identity is
  exact arithmetic, `roundDouble` is IEEE 754 binary64 with rounding to nearest.
* `Complex` (an `amrex::GpuComplex<Real>`) is the structure `Cx R`, with the mixed
  real/complex operators of the C++ type.
* C++ `int` and `long` are unbounded integers; the level counts `max_level` and
  `finest_level`, which are never negative, are natural numbers.
* `amrex::Abort` and a failed `AMREX_ALWAYS_ASSERT` end the call: they are the
  `Outcome.abort` result.
* A kernel that is run over every point of a box (`amrex::ParallelFor`) is embedded as
  the function of one point; the points are independent of each other.
-/

/-! ## Complex numbers over the field of reals of the code -/

/-- Complex number with real and imaginary part in `R`, the `Complex` of the source. -/
structure Cx (R : Type) where
  re : R
  im : R
deriving DecidableEq, Repr

namespace Cx

variable {R : Type} [LinearOrderedField R]

instance : Zero (Cx R) := ⟨⟨0, 0⟩⟩

instance : Neg (Cx R) := ⟨fun z => ⟨-z.re, -z.im⟩⟩

instance : Add (Cx R) := ⟨fun z w => ⟨z.re + w.re, z.im + w.im⟩⟩

instance : Sub (Cx R) := ⟨fun z w => ⟨z.re - w.re, z.im - w.im⟩⟩

instance : Mul (Cx R) :=
  ⟨fun z w => ⟨z.re * w.re - z.im * w.im, z.re * w.im + z.im * w.re⟩⟩

/-- Product real times complex, componentwise as in the C++ operator. -/
instance : HMul R (Cx R) (Cx R) := ⟨fun a z => ⟨a * z.re, a * z.im⟩⟩

/-- Product complex times real, componentwise as in the C++ operator. -/
instance : HMul (Cx R) R (Cx R) := ⟨fun z a => ⟨z.re * a, z.im * a⟩⟩

/-- Quotient complex by real, componentwise as in the C++ operator. -/
instance : HDiv (Cx R) R (Cx R) := ⟨fun z a => ⟨z.re / a, z.im / a⟩⟩

/-- The imaginary unit, `Complex{0,1}` in the source. -/
def I : Cx R := ⟨0, 1⟩

end Cx

/-! ## PsatdAlgorithmRZ -/

/-- Spectral fields stored at one point `(i,j,k)` of spectral space for one azimuthal
mode, one component per entry of `SpectralFieldIndex`.  In RZ geometry the slots `Ex`,
`Ey` hold the `+` and `-` components (`Ep`, `Em` in the source), likewise for `B`, `J`. -/
structure SpectralFields (R : Type) where
  Ex : Cx R
  Ey : Cx R
  Ez : Cx R
  Bx : Cx R
  By : Cx R
  Bz : Cx R
  Jx : Cx R
  Jy : Cx R
  Jz : Cx R
  rho_old : Cx R
  rho_new : Cx R
  F : Cx R
  G : Cx R
  Jx_new : Cx R
  Jy_new : Cx R
  Jz_new : Cx R
deriving DecidableEq, Repr

/-- The five real coefficients `C_coef`, `S_ck_coef`, `X1_coef`, `X2_coef`, `X3_coef`
at one spectral point and mode. -/
structure SpectralCoefficients (R : Type) where
  C : R
  S_ck : R
  X1 : R
  X2 : R
  X3 : R
deriving DecidableEq, Repr

/-- Each of the five coefficients of `g` differs from the coefficient of `z` by at most
`r` times the absolute value of the coefficient of `z` (relative distance `r`). -/
def SpectralCoefficients.relClose {R : Type} [LinearOrderedField R]
    (g z : SpectralCoefficients R) (r : R) : Prop :=
  |g.C - z.C| ≤ r * |z.C| ∧ |g.S_ck - z.S_ck| ≤ r * |z.S_ck| ∧
  |g.X1 - z.X1| ≤ r * |z.X1| ∧ |g.X2 - z.X2| ≤ r * |z.X2| ∧ |g.X3 - z.X3| ≤ r * |z.X3|

/-- Each of the five coefficients of `g` differs from the coefficient of `z` by less
than `ε`. -/
def SpectralCoefficients.absClose {R : Type} [LinearOrderedField R]
    (g z : SpectralCoefficients R) (ε : R) : Prop :=
  |g.C - z.C| < ε ∧ |g.S_ck - z.S_ck| < ε ∧
  |g.X1 - z.X1| < ε ∧ |g.X2 - z.X2| < ε ∧ |g.X3 - z.X3| < ε

namespace PsatdAlgorithmRZ

variable {R : Type} [LinearOrderedField R]

/-- Division that reports a zero divisor instead of producing a value. -/
def checkedDiv (a b : R) : Option R :=
  if b = 0 then none else some (a / b)

/-- Kernel of `PsatdAlgorithmRZ::InitializeSpectralCoefficients` at one spectral point.
`c` and `ep0` are `PhysConst::c` and `PhysConst::ep0`; `sqrt`, `cos`, `sin` are the
functions of `<cmath>`.  Every division of the source is a `checkedDiv`: the result is
`none` exactly when some division of the executed branch has a zero divisor. -/
def InitializeSpectralCoefficients (sqrt cos sin : R → R) (c ep0 dt kr kz : R) :
    Option (SpectralCoefficients R) :=
  let k_norm := sqrt (kr*kr + kz*kz)
  if k_norm ≠ 0 then do
    let C := cos (c*k_norm*dt)
    let S_ck ← checkedDiv (sin (c*k_norm*dt)) (c*k_norm)
    let X1 ← checkedDiv (1 - C) (ep0 * c*c * k_norm*k_norm)
    let q2 ← checkedDiv S_ck dt
    let X2 ← checkedDiv (1 - q2) (ep0 * k_norm*k_norm)
    let q3 ← checkedDiv S_ck dt
    let X3 ← checkedDiv (C - q3) (ep0 * k_norm*k_norm)
    pure { C := C, S_ck := S_ck, X1 := X1, X2 := X2, X3 := X3 }
  else do
    let X1 ← checkedDiv ((1/2 : R) * dt*dt) ep0
    let X2 ← checkedDiv (c*c * dt*dt) (6*ep0)
    let X3 ← checkedDiv (- c*c * dt*dt) (3*ep0)
    pure { C := 1, S_ck := dt, X1 := X1, X2 := X2, X3 := X3 }

/-- The local `rho_diff` of the kernel of `PsatdAlgorithmRZ::pushSpectralFields`: the
charge term of the update of E, computed from `rho_old`, `rho_new` when
`update_with_rho` is set and from the divergences of E and J otherwise. -/
def rho_diff (update_with_rho : Bool) (ep0 dt kr kz : R) (coef : SpectralCoefficients R)
    (fields : SpectralFields R) : Cx R :=
  let Ep_old := fields.Ex
  let Em_old := fields.Ey
  let Ez_old := fields.Ez
  let Jp := fields.Jx
  let Jm := fields.Jy
  let Jz := fields.Jz
  let rho_old := fields.rho_old
  let rho_new := fields.rho_new
  let I : Cx R := ⟨0, 1⟩
  let X2 := coef.X2
  let X3 := coef.X3
  if update_with_rho then
    X2*rho_new - X3*rho_old
  else
    let divE : Cx R := kr*(Ep_old - Em_old) + I*kz*Ez_old
    let divJ : Cx R := kr*(Jp - Jm) + I*kz*Jz
    (X2 - X3)*ep0*divE - X2*dt*divJ

/-- Kernel of `PsatdAlgorithmRZ::pushSpectralFields` at one spectral point and mode:
the fields after the push, from the fields before it, the stored coefficients, the
wave numbers `kr`, `kz`, the time step and the four flags of the algorithm. -/
def pushSpectralFields (update_with_rho J_linear_in_time dive_cleaning divb_cleaning : Bool)
    (c ep0 dt kr kz : R) (coef : SpectralCoefficients R) (fields : SpectralFields R) :
    SpectralFields R :=
  -- Record old values of the fields to be updated
  let Ep_old := fields.Ex
  let Em_old := fields.Ey
  let Ez_old := fields.Ez
  let Bp_old := fields.Bx
  let Bm_old := fields.By
  let Bz_old := fields.Bz
  -- Shortcut for the values of J and rho
  let Jp := fields.Jx
  let Jm := fields.Jy
  let Jz := fields.Jz
  let rho_old := fields.rho_old
  let rho_new := fields.rho_new
  let c2 : R := c*c
  let inv_ep0 : R := 1/ep0
  let I : Cx R := ⟨0, 1⟩
  let C := coef.C
  let S_ck := coef.S_ck
  let X1 := coef.X1
  let X2 := coef.X2
  let rho_diff : Cx R := rho_diff update_with_rho ep0 dt kr kz coef fields
  -- Update E
  let Ep1 : Cx R := C*Ep_old
            + S_ck*(-c2*I*kr/(2:R)*Bz_old + c2*kz*Bp_old - inv_ep0*Jp)
            + (1/2:R)*kr*rho_diff
  let Em1 : Cx R := C*Em_old
            + S_ck*(-c2*I*kr/(2:R)*Bz_old - c2*kz*Bm_old - inv_ep0*Jm)
            - (1/2:R)*kr*rho_diff
  let Ez1 : Cx R := C*Ez_old
            + S_ck*(c2*I*kr*Bp_old + c2*I*kr*Bm_old - inv_ep0*Jz)
            - I*kz*rho_diff
  -- Update B
  let Bp1 : Cx R := C*Bp_old
            - S_ck*(-I*kr/(2:R)*Ez_old + kz*Ep_old)
            + X1*(-I*kr/(2:R)*Jz + kz*Jp)
  let Bm1 : Cx R := C*Bm_old
            - S_ck*(-I*kr/(2:R)*Ez_old - kz*Em_old)
            + X1*(-I*kr/(2:R)*Jz - kz*Jm)
  let Bz1 : Cx R := C*Bz_old
            - S_ck*I*(kr*Ep_old + kr*Em_old)
            + X1*I*(kr*Jp + kr*Jm)
  let F_old := fields.F
  let G_old := fields.G
  if J_linear_in_time then
    let Jp_new := fields.Jx_new
    let Jm_new := fields.Jy_new
    let Jz_new := fields.Jz_new
    let Ep2 : Cx R := Ep1 + -X1 * (Jp_new - Jp) / dt
    let Em2 : Cx R := Em1 + -X1 * (Jm_new - Jm) / dt
    let Ez2 : Cx R := Ez1 + -X1 * (Jz_new - Jz) / dt
    let Bp2 : Cx R := Bp1 + X2/c2 * (kz * (Jp_new - Jp) - I * kr * (1/2:R) * (Jz_new - Jz))
    let Bm2 : Cx R := Bm1 + -X2/c2 * (kz * (Jm_new - Jm) + I * kr * (1/2:R) * (Jz_new - Jz))
    let Bz2 : Cx R := Bz1 + I * X2/c2 * (kr * (Jp_new - Jp) + kr * (Jm_new - Jm))
    let k_dot_J : Cx R := -I * (kr * (Jp - Jm) + I * kz * Jz)
    let k_dot_dJ : Cx R := -I * (kr * ((Jp_new - Jp) - (Jm_new - Jm))
        + I * kz * (Jz_new - Jz))
    let k_dot_E : Cx R := -I * (kr * (Ep_old - Em_old) + I * kz * Ez_old)
    let Ep3 : Cx R := if dive_cleaning then Ep2 + -c2 * kr * (1/2:R) * S_ck * F_old else Ep2
    let Em3 : Cx R := if dive_cleaning then Em2 + c2 * kr * (1/2:R) * S_ck * F_old else Em2
    let Ez3 : Cx R := if dive_cleaning then Ez2 + I * c2 * kz * S_ck * F_old else Ez2
    let F3 : Cx R :=
      if dive_cleaning then
        C * F_old + S_ck * (I * k_dot_E - inv_ep0 * rho_old)
          - X1 * ((rho_new - rho_old) / dt + I * k_dot_J) - I * X2/c2 * k_dot_dJ
      else F_old
    let k_dot_B : Cx R := -I * (kr * (Bp_old - Bm_old) + I * kz * Bz_old)
    let Bp3 : Cx R := if divb_cleaning then Bp2 + -c2 * kr * (1/2:R) * S_ck * G_old else Bp2
    let Bm3 : Cx R := if divb_cleaning then Bm2 + c2 * kr * (1/2:R) * S_ck * G_old else Bm2
    let Bz3 : Cx R := if divb_cleaning then Bz2 + I * c2 * kz * S_ck * G_old else Bz2
    let G3 : Cx R := if divb_cleaning then C * G_old + I * S_ck * k_dot_B else G_old
    { fields with
      Ex := Ep3, Ey := Em3, Ez := Ez3, Bx := Bp3, By := Bm3, Bz := Bz3, F := F3, G := G3 }
  else
    { fields with Ex := Ep1, Ey := Em1, Ez := Ez1, Bx := Bp1, By := Bm1, Bz := Bz1 }

/-- Kernel of `PsatdAlgorithmRZ::CurrentCorrection` at one spectral point and mode,
between the forward and the backward transforms: the fields with `Jx`, `Jy`, `Jz`
(the components `Jp`, `Jm`, `Jz`) corrected. -/
def CurrentCorrection (dt kr kz : R) (fields : SpectralFields R) : SpectralFields R :=
  -- Shortcuts for the values of J and rho
  let Jp := fields.Jx
  let Jm := fields.Jy
  let Jz := fields.Jz
  let rho_old := fields.rho_old
  let rho_new := fields.rho_new
  let k_norm2 : R := kr*kr + kz*kz
  let I : Cx R := ⟨0, 1⟩
  -- Correct J
  if k_norm2 ≠ 0 then
    let F : Cx R := - ((rho_new - rho_old)/dt + I*kz*Jz + kr*(Jp - Jm))/k_norm2
    { fields with
      Jx := Jp + (1/2:R)*kr*F,
      Jy := Jm + -(1/2:R)*kr*F,
      Jz := Jz + -I*kz*F }
  else fields

/-- Sample spectral fields on the rationals, used to run the kernels. -/
def sampleFields : SpectralFields ℚ :=
  { Ex := ⟨1, 0⟩, Ey := ⟨0, 0⟩, Ez := ⟨0, 0⟩, Bx := ⟨0, 1⟩, By := ⟨2, 0⟩, Bz := ⟨1, 1⟩,
    Jx := ⟨1, 2⟩, Jy := ⟨1, 0⟩, Jz := ⟨1, 0⟩, rho_old := ⟨3, 0⟩, rho_new := ⟨3, -2⟩,
    F := ⟨0, 0⟩, G := ⟨0, 0⟩, Jx_new := ⟨1, 0⟩, Jy_new := ⟨0, 1⟩, Jz_new := ⟨2, 2⟩ }

end PsatdAlgorithmRZ

/-! ## Calls that can end in a fatal error -/

/-- Result of a call: a normal return with a value, or the fatal end of the process by
`amrex::Abort` or a failed `AMREX_ALWAYS_ASSERT`, with the message printed. -/
inductive Outcome (α : Type) where
  | ok (a : α)
  | abort (msg : String)
deriving DecidableEq, Repr

/-- The call ended in a fatal error. -/
def Outcome.isAbort {α : Type} : Outcome α → Bool
  | Outcome.ok _ => false
  | Outcome.abort _ => true

/-! ## WarpX::Evolve and the one-step routines -/

/-- Modelled from the spec: the enumeration `ElectrostaticSolverAlgo` of
`Utils/WarpXAlgorithmSelection.H` (solver selection electrostatic / none); the source
only compares it with `None`. -/
inductive ElectrostaticSolverAlgo where
  | None
  | Relativistic
  | LabFrame
deriving DecidableEq, Repr

/-- Modelled from the spec: the enumeration `PatchType` (fine or coarse patch of a
level). -/
inductive PatchType where
  | fine
  | coarse
deriving DecidableEq, Repr

/-- Modelled from the spec: the enumeration `DtType` of `Evolve/WarpXDtType.H`. -/
inductive DtType where
  | Full
  | FirstHalf
  | SecondHalf
deriving DecidableEq, Repr

/-- The guard-cell widths of `guard_cells` that the one-step routines pass on, by name
(their values are computed outside of the files embedded here). -/
inductive GuardWidth where
  | ng_alloc_EB
  | ng_alloc_F
  | ng_alloc_G
  | ng_FieldSolver
  | ng_FieldSolverF
  | ng_FieldGather
  | ng_UpdateAux
  | TheZeroVector
deriving DecidableEq, Repr

/-- The members of the `WarpX` object read or written by `WarpX::Evolve` and by the
one-step routines.  Vectors indexed by the level (`dt`, `istep`, `t_new`) are functions
of the level; `moving_window_active` is the member function of that name. -/
structure WarpX (R : Type) where
  max_step : Int
  stop_time : R
  dt : Nat → R
  istep : Nat → Int
  t_new : Nat → R
  is_synchronized : Bool
  max_level : Nat
  finest_level : Nat
  do_electrostatic : ElectrostaticSolverAlgo
  do_multi_J : Bool
  do_subcycling : Int
  do_pml : Bool
  safe_guard_cells : Bool
  ncomps : Int
  moving_window_active : Int → Bool

/-- The routine to which one iteration of `WarpX::Evolve` hands the main PIC step. -/
inductive MainStep where
  | PushParticlesandDepose (skip_deposition : Bool)
  | OneStep_multiJ
  | OneStep_nosub
  | OneStep_sub1
deriving DecidableEq, Repr

/-- A call made by a one-step routine, with its arguments. -/
inductive Op (R : Type) where
  | PushParticlesandDepose (lev : Nat) (cur_time : R) (a_dt_type : DtType)
  | RestrictCurrentFromFineToCoarsePatch (lev : Nat)
  | RestrictRhoFromFineToCoarsePatch (lev : Nat)
  | ApplyFilterandSumBoundaryJ (lev : Nat) (patch_type : PatchType)
  | NodalSyncJ (lev : Nat) (patch_type : PatchType)
  | ApplyFilterandSumBoundaryRho (lev : Nat) (patch_type : PatchType) (icomp ncomp : Int)
  | NodalSyncRho (lev : Nat) (patch_type : PatchType) (icomp ncomp : Int)
  | EvolveB (lev : Nat) (patch_type : PatchType) (a_dt : R) (a_dt_type : DtType)
  | EvolveF (lev : Nat) (patch_type : PatchType) (a_dt : R) (a_dt_type : DtType)
  | EvolveE (lev : Nat) (patch_type : PatchType) (a_dt : R)
  | FillBoundaryB (lev : Nat) (patch_type : PatchType) (ng : GuardWidth)
  | FillBoundaryF (lev : Nat) (patch_type : PatchType) (ng : GuardWidth)
  | FillBoundaryE (lev : Nat) (patch_type : PatchType) (ng : GuardWidth)
  | DampPML (lev : Nat) (patch_type : PatchType)
  | StoreCurrent (lev : Nat)
  | RestoreCurrent (lev : Nat)
  | AddCurrentFromFineLevelandSumBoundary (lev : Nat)
  | AddRhoFromFineLevelandSumBoundary (lev : Nat) (icomp ncomp : Int)
  | FillBoundaryAux (ng : GuardWidth)
  | UpdateAuxilaryData
deriving DecidableEq, Repr

/-- What a routine did: the calls it made, in order, and the message of the fatal error
that ended it, if one did. -/
structure Run (R : Type) where
  ops : List (Op R)
  abort : Option String
deriving DecidableEq, Repr

namespace WarpX

variable {R : Type} [LinearOrderedField R]

/-- The dispatch of the main PIC operation inside one iteration of `WarpX::Evolve`
(the chain of `if` / `else if` after `warpx_py_particleinjection`). -/
def Evolve_mainStep (w : WarpX R) : Outcome MainStep :=
  -- Electrostatic case: only gather fields and push particles
  if w.do_electrostatic ≠ ElectrostaticSolverAlgo.None then
    Outcome.ok (MainStep.PushParticlesandDepose true)
  -- Electromagnetic case: multi-J algorithm
  else if w.do_multi_J then
    Outcome.ok MainStep.OneStep_multiJ
  -- Electromagnetic case: no subcycling or no mesh refinement
  else if w.do_subcycling = 0 ∨ w.finest_level = 0 then
    Outcome.ok MainStep.OneStep_nosub
  -- Electromagnetic case: subcycling with one level of mesh refinement
  else if w.do_subcycling = 1 ∧ w.finest_level = 1 then
    Outcome.ok MainStep.OneStep_sub1
  else
    Outcome.abort "Unsupported do_subcycling type"

/-- `WarpX::OneStep_sub1`: the calls of one PIC iteration with subcycling, or the fatal
error that ends it. -/
def OneStep_sub1 (w : WarpX R) (curtime : R) : Run R :=
  if w.do_electrostatic ≠ ElectrostaticSolverAlgo.None then
    { ops := [], abort := some "Electrostatic solver cannot be used with sub-cycling." }
  else if w.finest_level ≠ 1 then
    { ops := [], abort := some "Must have exactly two levels" }
  else
    let fine_lev : Nat := 1
    let coarse_lev : Nat := 0
    let dt := w.dt
    let ncomps := w.ncomps
    { abort := none,
      ops :=
        -- i) Push particles and fields on the fine patch (first fine step)
        [ Op.PushParticlesandDepose fine_lev curtime DtType.FirstHalf,
          Op.RestrictCurrentFromFineToCoarsePatch fine_lev,
          Op.RestrictRhoFromFineToCoarsePatch fine_lev,
          Op.ApplyFilterandSumBoundaryJ fine_lev PatchType.fine,
          Op.NodalSyncJ fine_lev PatchType.fine,
          Op.ApplyFilterandSumBoundaryRho fine_lev PatchType.fine 0 (2*ncomps),
          Op.NodalSyncRho fine_lev PatchType.fine 0 2,
          Op.EvolveB fine_lev PatchType.fine ((1/2:R)*dt fine_lev) DtType.FirstHalf,
          Op.EvolveF fine_lev PatchType.fine ((1/2:R)*dt fine_lev) DtType.FirstHalf,
          Op.FillBoundaryB fine_lev PatchType.fine GuardWidth.ng_FieldSolver,
          Op.FillBoundaryF fine_lev PatchType.fine GuardWidth.ng_alloc_F,
          Op.EvolveE fine_lev PatchType.fine (dt fine_lev),
          Op.FillBoundaryE fine_lev PatchType.fine GuardWidth.ng_FieldGather,
          Op.EvolveB fine_lev PatchType.fine ((1/2:R)*dt fine_lev) DtType.SecondHalf,
          Op.EvolveF fine_lev PatchType.fine ((1/2:R)*dt fine_lev) DtType.SecondHalf ]
        ++ (if w.do_pml then
          [ Op.FillBoundaryF fine_lev PatchType.fine GuardWidth.ng_alloc_F,
            Op.DampPML fine_lev PatchType.fine,
            Op.FillBoundaryE fine_lev PatchType.fine GuardWidth.ng_FieldGather ]
          else [])
        ++ [ Op.FillBoundaryB fine_lev PatchType.fine GuardWidth.ng_FieldGather,
          -- ii) Push particles on the coarse patch and mother grid.
          -- Push the fields on the coarse patch and mother grid
          -- by only half a coarse step (first half)
          Op.PushParticlesandDepose coarse_lev curtime DtType.Full,
          Op.StoreCurrent coarse_lev,
          Op.AddCurrentFromFineLevelandSumBoundary coarse_lev,
          Op.AddRhoFromFineLevelandSumBoundary coarse_lev 0 ncomps,
          Op.EvolveB fine_lev PatchType.coarse (dt fine_lev) DtType.FirstHalf,
          Op.EvolveF fine_lev PatchType.coarse (dt fine_lev) DtType.FirstHalf,
          Op.FillBoundaryB fine_lev PatchType.coarse GuardWidth.ng_FieldGather,
          Op.FillBoundaryF fine_lev PatchType.coarse GuardWidth.ng_FieldSolverF,
          Op.EvolveE fine_lev PatchType.coarse (dt fine_lev),
          Op.FillBoundaryE fine_lev PatchType.coarse GuardWidth.ng_FieldGather,
          Op.EvolveB coarse_lev PatchType.fine ((1/2:R)*dt coarse_lev) DtType.FirstHalf,
          Op.EvolveF coarse_lev PatchType.fine ((1/2:R)*dt coarse_lev) DtType.FirstHalf,
          Op.FillBoundaryB coarse_lev PatchType.fine GuardWidth.ng_FieldGather,
          Op.FillBoundaryF coarse_lev PatchType.fine GuardWidth.ng_FieldSolverF,
          Op.EvolveE coarse_lev PatchType.fine ((1/2:R)*dt coarse_lev),
          Op.FillBoundaryE coarse_lev PatchType.fine GuardWidth.ng_FieldGather,
          Op.FillBoundaryAux GuardWidth.ng_UpdateAux,
          -- iii) Get auxiliary fields on the fine grid, at dt[fine_lev]
          Op.UpdateAuxilaryData,
          Op.FillBoundaryAux GuardWidth.ng_UpdateAux,
          -- iv) Push particles and fields on the fine patch (second fine step)
          Op.PushParticlesandDepose fine_lev (curtime + dt fine_lev) DtType.SecondHalf,
          Op.RestrictCurrentFromFineToCoarsePatch fine_lev,
          Op.RestrictRhoFromFineToCoarsePatch fine_lev,
          Op.ApplyFilterandSumBoundaryJ fine_lev PatchType.fine,
          Op.NodalSyncJ fine_lev PatchType.fine,
          Op.ApplyFilterandSumBoundaryRho fine_lev PatchType.fine 0 ncomps,
          Op.NodalSyncRho fine_lev PatchType.fine 0 2,
          Op.EvolveB fine_lev PatchType.fine ((1/2:R)*dt fine_lev) DtType.FirstHalf,
          Op.EvolveF fine_lev PatchType.fine ((1/2:R)*dt fine_lev) DtType.FirstHalf,
          Op.FillBoundaryB fine_lev PatchType.fine GuardWidth.ng_FieldSolver,
          Op.FillBoundaryF fine_lev PatchType.fine GuardWidth.ng_FieldSolverF,
          Op.EvolveE fine_lev PatchType.fine (dt fine_lev),
          Op.FillBoundaryE fine_lev PatchType.fine GuardWidth.ng_FieldSolver,
          Op.EvolveB fine_lev PatchType.fine ((1/2:R)*dt fine_lev) DtType.SecondHalf,
          Op.EvolveF fine_lev PatchType.fine ((1/2:R)*dt fine_lev) DtType.SecondHalf ]
        ++ (if w.do_pml then
          [ Op.DampPML fine_lev PatchType.fine,
            Op.FillBoundaryE fine_lev PatchType.fine GuardWidth.ng_FieldSolver ]
          else [])
        ++ (if w.safe_guard_cells then
          [ Op.FillBoundaryF fine_lev PatchType.fine GuardWidth.ng_FieldSolver ]
          else [])
        ++ [ Op.FillBoundaryB fine_lev PatchType.fine GuardWidth.ng_FieldSolver,
          -- v) Push the fields on the coarse patch and mother grid
          -- by only half a coarse step (second half)
          Op.RestoreCurrent coarse_lev,
          Op.AddCurrentFromFineLevelandSumBoundary coarse_lev,
          Op.AddRhoFromFineLevelandSumBoundary coarse_lev ncomps ncomps,
          Op.EvolveE fine_lev PatchType.coarse (dt fine_lev),
          Op.FillBoundaryE fine_lev PatchType.coarse GuardWidth.ng_FieldSolver,
          Op.EvolveB fine_lev PatchType.coarse (dt fine_lev) DtType.SecondHalf,
          Op.EvolveF fine_lev PatchType.coarse (dt fine_lev) DtType.SecondHalf ]
        ++ (if w.do_pml then
          [ Op.FillBoundaryF fine_lev PatchType.fine GuardWidth.ng_FieldSolverF,
            Op.DampPML fine_lev PatchType.coarse,
            Op.DampPML fine_lev PatchType.coarse,
            Op.FillBoundaryE fine_lev PatchType.coarse GuardWidth.ng_alloc_EB ]
          else [])
        ++ [ Op.FillBoundaryB fine_lev PatchType.coarse GuardWidth.ng_FieldSolver,
          Op.FillBoundaryF fine_lev PatchType.coarse GuardWidth.ng_FieldSolverF,
          Op.EvolveE coarse_lev PatchType.fine ((1/2:R)*dt coarse_lev),
          Op.FillBoundaryE coarse_lev PatchType.fine GuardWidth.ng_FieldSolver,
          Op.EvolveB coarse_lev PatchType.fine ((1/2:R)*dt coarse_lev) DtType.SecondHalf,
          Op.EvolveF coarse_lev PatchType.fine ((1/2:R)*dt coarse_lev) DtType.SecondHalf ]
        ++ (if w.do_pml then
          (if w.moving_window_active (w.istep 0 + 1) then
            [ Op.FillBoundaryB coarse_lev PatchType.fine GuardWidth.TheZeroVector,
              Op.FillBoundaryF coarse_lev PatchType.fine GuardWidth.TheZeroVector ]
            else [])
          ++ [ Op.DampPML coarse_lev PatchType.fine ]
          ++ (if w.safe_guard_cells then
            [ Op.FillBoundaryE coarse_lev PatchType.fine GuardWidth.ng_FieldSolver ]
            else [])
          else [])
        ++ (if w.safe_guard_cells then
          [ Op.FillBoundaryB coarse_lev PatchType.fine GuardWidth.ng_FieldSolver ]
          else []) }

/-- What one iteration of the loop of `WarpX::Evolve` leaves behind. -/
structure IterationRecord (R : Type) where
  /-- Value of the loop counter `step` during the iteration. -/
  step : Int
  /-- Value of the local `cur_time` when the iteration started. -/
  cur_time : R
  /-- Routine selected for the main PIC operation. -/
  main : MainStep
  /-- The object at the end of the iteration. -/
  after : WarpX R

/-- What a call of `WarpX::Evolve` that returns leaves behind. -/
structure EvolveResult (R : Type) where
  /-- The executed iterations, in order. -/
  iterations : List (IterationRecord R)
  /-- The object on return. -/
  final : WarpX R
  /-- Value of the local `cur_time` on return. -/
  cur_time : R

/-- The local `numsteps_max` of `WarpX::Evolve`, the step limit. -/
def Evolve_numsteps_max (w : WarpX R) (numsteps : Int) : Int :=
  if numsteps < 0 then  -- Note that the default argument is numsteps = -1
    w.max_step
  else
    min (w.istep 0 + numsteps) w.max_step

/-- Body of the loop of `WarpX::Evolve` for the loop counter `step` and the local
`cur_time`: the object and `cur_time` at the end of the body, the routine selected for
the main PIC operation, and whether the body ended in the `break` of the loop.  The
literal `1.e-3` is the fraction `1/1000`.  The calls to collaborators that do not touch
the members kept in `WarpX` are left out. -/
def Evolve_body (w : WarpX R) (numsteps_max step : Int) (cur_time : R) :
    Outcome (WarpX R × R × MainStep × Bool) :=
  -- At the beginning, we have B^{n} and E^{n}; is_synchronized is true.
  let is_synchronized1 : Bool := if w.is_synchronized then false else w.is_synchronized
  -- Main PIC operation
  match Evolve_mainStep w with
  | Outcome.abort msg => Outcome.abort msg
  | Outcome.ok main =>
    let is_synchronized2 : Bool :=
      if cur_time + w.dt 0 ≥ w.stop_time - (1/1000 : R)*w.dt 0 ∨ step = numsteps_max - 1 then
        -- At the end of last step, push p by 0.5*dt to synchronize
        true
      else is_synchronized1
    let istep1 : Nat → Int := fun lev => if lev ≤ w.max_level then w.istep lev + 1
                                          else w.istep lev
    let cur_time1 : R := cur_time + w.dt 0
    -- sync up time
    let t_new1 : Nat → R := fun i => if i ≤ w.max_level then cur_time1 else w.t_new i
    Outcome.ok
      ({ w with is_synchronized := is_synchronized2, istep := istep1, t_new := t_new1 },
        cur_time1, main, decide (cur_time1 ≥ w.stop_time - (1/1000 : R)*w.dt 0))

/-- The loop `for (step = istep[0]; step < numsteps_max && cur_time < stop_time; ++step)`
of `WarpX::Evolve`, from the loop counter `step` on. -/
def Evolve_loop (numsteps_max : Int) (step : Int) (cur_time : R) (w : WarpX R) :
    Outcome (EvolveResult R) :=
  if _hloop : step < numsteps_max ∧ cur_time < w.stop_time then
    match Evolve_body w numsteps_max step cur_time with
    | Outcome.abort msg => Outcome.abort msg
    | Outcome.ok (w1, cur_time1, main, brk) =>
      let r : IterationRecord R :=
        { step := step, cur_time := cur_time, main := main, after := w1 }
      if brk then
        Outcome.ok { iterations := [r], final := w1, cur_time := cur_time1 }
      else
        match Evolve_loop numsteps_max (step + 1) cur_time1 w1 with
        | Outcome.abort msg => Outcome.abort msg
        | Outcome.ok res => Outcome.ok { res with iterations := r :: res.iterations }
  else
    Outcome.ok { iterations := [], final := w, cur_time := cur_time }
termination_by (numsteps_max - step).toNat
decreasing_by omega

/-- `WarpX::Evolve (int numsteps)`. -/
def Evolve (w : WarpX R) (numsteps : Int) : Outcome (EvolveResult R) :=
  let cur_time := w.t_new 0
  let numsteps_max := Evolve_numsteps_max w numsteps
  Evolve_loop numsteps_max (w.istep 0) cur_time w

end WarpX

/-! ## WarpXParticleContainer -/

/-- Modelled from the spec: the enumeration `CurrentDepositionAlgo` of
`Utils/WarpXAlgorithmSelection.H` (direct shape-function deposition, Esirkepov
charge-conserving deposition, Vay deposition). -/
inductive CurrentDepositionAlgo where
  | Esirkepov
  | Direct
  | Vay
deriving DecidableEq, Repr

/-- An `amrex::IntVect` of a build with `AMREX_SPACEDIM == 3`. -/
structure IntVect where
  x : Int
  y : Int
  z : Int
deriving DecidableEq, Repr

instance : Sub IntVect := ⟨fun a b => ⟨a.x - b.x, a.y - b.y, a.z - b.z⟩⟩

/-- The deposition kernel called by `DepositCurrent`, with its template argument
`depos_order` and the time argument it is given. -/
inductive DepositionKernel (R : Type) where
  | doEsirkepovDepositionShapeN (depos_order : Nat) (dt : R)
  | doVayDepositionShapeN (depos_order : Nat) (dt : R)
  | doDepositionShapeN (depos_order : Nat) (relative_time : R)
deriving DecidableEq, Repr

/-- The arguments of the per-tile `WarpXParticleContainer::DepositCurrent` and the
members and globals it reads (build with `AMREX_SPACEDIM == 3`, without
`AMREX_USE_GPU`). -/
structure DepositCurrentCall (R : Type) where
  np_to_depose : Int
  lev : Int
  depos_lev : Int
  dt : R
  relative_time : R
  /-- Member `do_not_deposit` of the container. -/
  do_not_deposit : Bool
  /-- Value of `warpx.get_ng_depos_J()`. -/
  ng_J : IntVect
  nox : Int
  noy : Int
  noz : Int
  current_deposition_algo : CurrentDepositionAlgo
  do_nodal : Int
  m_v_galilean : Fin 3 → R
  /-- Value of `amrex::numParticlesOutOfRange(pti, range)` for the tile of the call, as
  a function of `range`. -/
  numParticlesOutOfRange : IntVect → Int

namespace WarpXParticleContainer

variable {R : Type} [LinearOrderedField R]

/-- The deposition kernel selected by the algorithm and by `WarpX::nox`; no kernel is
called when `nox` is not 1, 2 or 3. -/
def depositionKernel (a : DepositCurrentCall R) : Option (DepositionKernel R) :=
  if a.current_deposition_algo = CurrentDepositionAlgo.Esirkepov then
    if a.nox = 1 then some (DepositionKernel.doEsirkepovDepositionShapeN 1 a.dt)
    else if a.nox = 2 then some (DepositionKernel.doEsirkepovDepositionShapeN 2 a.dt)
    else if a.nox = 3 then some (DepositionKernel.doEsirkepovDepositionShapeN 3 a.dt)
    else none
  else if a.current_deposition_algo = CurrentDepositionAlgo.Vay then
    if a.nox = 1 then some (DepositionKernel.doVayDepositionShapeN 1 a.dt)
    else if a.nox = 2 then some (DepositionKernel.doVayDepositionShapeN 2 a.dt)
    else if a.nox = 3 then some (DepositionKernel.doVayDepositionShapeN 3 a.dt)
    else none
  else
    if a.nox = 1 then some (DepositionKernel.doDepositionShapeN 1 (a.dt*a.relative_time))
    else if a.nox = 2 then some (DepositionKernel.doDepositionShapeN 2 (a.dt*a.relative_time))
    else if a.nox = 3 then some (DepositionKernel.doDepositionShapeN 3 (a.dt*a.relative_time))
    else none

/-- The checks of the deposition algorithm made by the per-tile `DepositCurrent` before
it calls a kernel: the message of the `amrex::Abort` reached first, if one is reached. -/
def DepositCurrent_algorithmChecks (a : DepositCurrentCall R) : Option String :=
  let esirkepov : Option String :=
    if a.current_deposition_algo = CurrentDepositionAlgo.Esirkepov then
      if a.do_nodal = 1 then
        some "The Esirkepov algorithm cannot be used with a nodal grid."
      else if a.m_v_galilean 0 ≠ 0 ∨ a.m_v_galilean 1 ≠ 0 ∨ a.m_v_galilean 2 ≠ 0 then
        some "The Esirkepov algorithm cannot be used with the Galilean algorithm."
      else if a.relative_time ≠ -(1/2 : R) then
        some "The Esirkepov deposition cannot be performed at another time then -0.5 dt."
      else none
    else none
  let vay : Option String :=
    if a.current_deposition_algo = CurrentDepositionAlgo.Vay then
      if a.relative_time ≠ -(1/2 : R) then
        some "The Esirkepov deposition cannot be performed at another time then -0.5 dt."
      else none
    else none
  match esirkepov with
  | some msg => some msg
  | none => vay

/-- The per-tile `WarpXParticleContainer::DepositCurrent`: a fatal error, a normal return
without any deposition (`none`), or a normal return after the deposition kernel shown. -/
def DepositCurrent (a : DepositCurrentCall R) : Outcome (Option (DepositionKernel R)) :=
  if ¬ (a.depos_lev = a.lev - 1 ∨ a.depos_lev = a.lev) then
    Outcome.abort "Deposition buffers only work for lev-1"
  -- If no particles, do not do anything
  else if a.np_to_depose = 0 then Outcome.ok none
  -- If user decides not to deposit
  else if a.do_not_deposit then Outcome.ok none
  else
    -- Extract deposition order and check that particles shape fits within the guard cells
    let shape_extent : IntVect :=
      ⟨Int.tdiv a.nox 2, Int.tdiv a.noy 2, Int.tdiv a.noz 2⟩
    let range : IntVect := a.ng_J - shape_extent
    if ¬ (a.numParticlesOutOfRange range = 0) then
      Outcome.abort
        "Particles shape does not fit within tile (CPU) or guard cells (GPU) used for current deposition"
    else
      match DepositCurrent_algorithmChecks a with
      | some msg => Outcome.abort msg
      | none => Outcome.ok (depositionKernel a)

end WarpXParticleContainer

/-! ## Sample inputs on the rationals -/

/-- A run with `max_step = 100`, `stop_time = 1` and `dt[0] = 0.9995`, one level, the
electromagnetic solver without subcycling. -/
def sampleWarpX : WarpX ℚ :=
  { max_step := 100, stop_time := 1, dt := fun _ => 9995/10000, istep := fun _ => 0,
    t_new := fun _ => 0, is_synchronized := true, max_level := 0, finest_level := 0,
    do_electrostatic := ElectrostaticSolverAlgo.None, do_multi_J := false,
    do_subcycling := 0, do_pml := false, safe_guard_cells := false, ncomps := 1,
    moving_window_active := fun _ => false }

/-- A run of three steps of `dt[0] = 1/4` that stops at the step limit `max_step = 3`. -/
def sampleWarpXSteps : WarpX ℚ :=
  { sampleWarpX with max_step := 3, stop_time := 10, dt := fun _ => 1/4 }

/-- A configuration with subcycling on two levels and the electrostatic solver. -/
def sampleWarpXElectrostatic : WarpX ℚ :=
  { sampleWarpX with
    max_level := 1, finest_level := 1, do_subcycling := 1,
    do_electrostatic := ElectrostaticSolverAlgo.Relativistic }

/-- A call of the per-tile `DepositCurrent` for an empty tile, with the Esirkepov
algorithm and `relative_time = 0`. -/
def sampleDepositEmpty : DepositCurrentCall ℚ :=
  { np_to_depose := 0, lev := 0, depos_lev := 0, dt := 1, relative_time := 0,
    do_not_deposit := false, ng_J := ⟨2, 2, 2⟩, nox := 1, noy := 1, noz := 1,
    current_deposition_algo := CurrentDepositionAlgo.Esirkepov, do_nodal := 0,
    m_v_galilean := fun _ => 0, numParticlesOutOfRange := fun _ => 0 }

/-- A call of the per-tile `DepositCurrent` for a tile of 5 particles, all within range,
with the Esirkepov algorithm and `relative_time = 0`. -/
def sampleDepositEsirkepov : DepositCurrentCall ℚ :=
  { sampleDepositEmpty with np_to_depose := 5 }

/-- A call of the per-tile `DepositCurrent` for a tile of 5 particles, all within range,
with the Vay algorithm, `relative_time = -1/2` and the Galilean velocity `(0, 0, 1)`. -/
def sampleDepositVayGalilean : DepositCurrentCall ℚ :=
  { sampleDepositEmpty with
    np_to_depose := 5, relative_time := -(1/2),
    current_deposition_algo := CurrentDepositionAlgo.Vay,
    m_v_galilean := fun i => if i = 2 then 1 else 0 }

/-- The call `sampleDepositVayGalilean` with the Esirkepov algorithm. -/
def sampleDepositEsirkepovGalilean : DepositCurrentCall ℚ :=
  { sampleDepositVayGalilean with current_deposition_algo := CurrentDepositionAlgo.Esirkepov }

/-! ## Guard-cell allowance of the deposition, and DepositCharge -/

/-- Modelled from the spec: `amrex::numParticlesOutOfRange(pti, range)`, which is not
under the files embedded here.  A particle of the tile is given by its excursion from
the tile box, in cells, in each direction (0 where its cell is inside the box); the
function counts the particles whose excursion is more than `range` in some direction. -/
def numParticlesOutOfRange (excursions : List IntVect) (range : IntVect) : Int :=
  ((excursions.filter
    (fun e => decide (range.x < e.x ∨ range.y < e.y ∨ range.z < e.z))).length : Int)

/-- The charge deposition kernel called by `DepositCharge`, with its template argument. -/
inductive ChargeDepositionKernel where
  | doChargeDepositionShapeN (depos_order : Nat)
deriving DecidableEq, Repr

/-- The arguments of the per-tile `WarpXParticleContainer::DepositCharge` and the members
and globals it reads (build with `AMREX_SPACEDIM == 3`, without `AMREX_USE_GPU`). -/
structure DepositChargeCall where
  icomp : Int
  np_to_depose : Int
  lev : Int
  depos_lev : Int
  /-- Member `do_not_deposit` of the container. -/
  do_not_deposit : Bool
  /-- Value of `warpx.get_ng_depos_rho()`. -/
  ng_rho : IntVect
  nox : Int
  noy : Int
  noz : Int
  /-- Value of `amrex::numParticlesOutOfRange(pti, range)` for the tile of the call, as
  a function of `range`. -/
  numParticlesOutOfRange : IntVect → Int

namespace WarpXParticleContainer

/-- The per-tile `WarpXParticleContainer::DepositCharge`: a fatal error, a normal return
without any deposition (`none`), or a normal return after the deposition kernel shown
(no kernel is called when `nox` is not 1, 2 or 3). -/
def DepositCharge (a : DepositChargeCall) : Outcome (Option ChargeDepositionKernel) :=
  if ¬ (a.depos_lev = a.lev - 1 ∨ a.depos_lev = a.lev) then
    Outcome.abort "Deposition buffers only work for lev-1"
  -- If no particles, do not do anything
  else if a.np_to_depose = 0 then Outcome.ok none
  -- If user decides not to deposit
  else if a.do_not_deposit then Outcome.ok none
  else
    -- Extract deposition order and check that particles shape fits within the guard cells
    let shape_extent : IntVect :=
      ⟨Int.tdiv a.nox 2 + 1, Int.tdiv a.noy 2 + 1, Int.tdiv a.noz 2 + 1⟩
    let range : IntVect := a.ng_rho - shape_extent
    if ¬ (a.numParticlesOutOfRange range = 0) then
      Outcome.abort
        "Particles shape does not fit within tile (CPU) or guard cells (GPU) used for charge deposition"
    else if a.nox = 1 then
      Outcome.ok (some (ChargeDepositionKernel.doChargeDepositionShapeN 1))
    else if a.nox = 2 then
      Outcome.ok (some (ChargeDepositionKernel.doChargeDepositionShapeN 2))
    else if a.nox = 3 then
      Outcome.ok (some (ChargeDepositionKernel.doChargeDepositionShapeN 3))
    else Outcome.ok none

end WarpXParticleContainer

/-! ## Particle redistribution at the end of an iteration of WarpX::Evolve -/

/-- The redistribution of the particles called at the end of an iteration. -/
inductive Redistribution where
  | Redistribute
  | RedistributeLocal (num_ghost : Int)
deriving DecidableEq, Repr

namespace WarpX

variable {R : Type} [LinearOrderedField R]

/-- The redistribution at the end of an iteration of `WarpX::Evolve`; `m_v_galilean` is
the member of that name and `num_moved` the value returned by `MoveWindow(step+1, move_j)`
in the iteration. -/
def Evolve_redistribute (w : WarpX R) (m_v_galilean : Fin 3 → R) (num_moved : Int) :
    Redistribution :=
  -- Electrostatic solver: particles can move by an arbitrary number of cells
  if w.do_electrostatic ≠ ElectrostaticSolverAlgo.None then
    Redistribution.Redistribute
  else
    -- Electromagnetic solver: due to CFL condition, particles can
    -- only move by one or two cells per time step
    if w.max_level = 0 then
      let num_redistribute_ghost : Int := num_moved
      let num_redistribute_ghost : Int :=
        if m_v_galilean 0 ≠ 0 ∨ m_v_galilean 1 ≠ 0 ∨ m_v_galilean 2 ≠ 0 then
          -- Galilean algorithm ; particles can move by up to 2 cells
          num_redistribute_ghost + 2
        else
          -- Standard algorithm ; particles can move by up to 1 cell
          num_redistribute_ghost + 1
      Redistribution.RedistributeLocal num_redistribute_ghost
    else
      Redistribution.Redistribute

end WarpX

/-- A tile whose only particle is 2 cells outside of the tile box in the first direction,
deposited with shape order 1 and 2 guard cells, direct deposition. -/
def sampleDepositCurrentEdge : DepositCurrentCall ℚ :=
  { np_to_depose := 1, lev := 0, depos_lev := 0, dt := 1, relative_time := 0,
    do_not_deposit := false, ng_J := ⟨2, 2, 2⟩, nox := 1, noy := 1, noz := 1,
    current_deposition_algo := CurrentDepositionAlgo.Direct, do_nodal := 0,
    m_v_galilean := fun _ => 0,
    numParticlesOutOfRange := numParticlesOutOfRange [⟨2, 0, 0⟩] }

/-- The charge deposition for the tile of `sampleDepositCurrentEdge`, with the same guard
cells and shape order. -/
def sampleDepositChargeEdge : DepositChargeCall :=
  { icomp := 0, np_to_depose := 1, lev := 0, depos_lev := 0, do_not_deposit := false,
    ng_rho := ⟨2, 2, 2⟩, nox := 1, noy := 1, noz := 1,
    numParticlesOutOfRange := numParticlesOutOfRange [⟨2, 0, 0⟩] }

/-- The charge deposition for a tile whose only particle is 1 cell outside of the tile
box in the first direction. -/
def sampleDepositChargeInside : DepositChargeCall :=
  { sampleDepositChargeEdge with numParticlesOutOfRange := numParticlesOutOfRange [⟨1, 0, 0⟩] }

/-! ## The divergence-cleaning blocks of pushSpectralFields -/

namespace PsatdAlgorithmRZ

variable {R : Type} [LinearOrderedField R]

/-- The value that the `dive_cleaning` block of the kernel of `pushSpectralFields` assigns
to the `F` slot (`fields(i,j,k,F_m) = C * F_old + ...`). -/
def F_update (c ep0 dt kr kz : R) (coef : SpectralCoefficients R) (fields : SpectralFields R) :
    Cx R :=
  let Ep_old := fields.Ex
  let Em_old := fields.Ey
  let Ez_old := fields.Ez
  let Jp := fields.Jx
  let Jm := fields.Jy
  let Jz := fields.Jz
  let rho_old := fields.rho_old
  let rho_new := fields.rho_new
  let Jp_new := fields.Jx_new
  let Jm_new := fields.Jy_new
  let Jz_new := fields.Jz_new
  let F_old := fields.F
  let c2 : R := c*c
  let inv_ep0 : R := 1/ep0
  let I : Cx R := ⟨0, 1⟩
  let C := coef.C
  let S_ck := coef.S_ck
  let X1 := coef.X1
  let X2 := coef.X2
  let k_dot_J : Cx R := -I * (kr * (Jp - Jm) + I * kz * Jz)
  let k_dot_dJ : Cx R := -I * (kr * ((Jp_new - Jp) - (Jm_new - Jm))
      + I * kz * (Jz_new - Jz))
  let k_dot_E : Cx R := -I * (kr * (Ep_old - Em_old) + I * kz * Ez_old)
  C * F_old + S_ck * (I * k_dot_E - inv_ep0 * rho_old)
    - X1 * ((rho_new - rho_old) / dt + I * k_dot_J) - I * X2/c2 * k_dot_dJ

/-- The value that the `divb_cleaning` block of the kernel of `pushSpectralFields` assigns
to the `G` slot (`fields(i,j,k,G_m) = C * G_old + I * S_ck * k_dot_B`). -/
def G_update (kr kz : R) (coef : SpectralCoefficients R) (fields : SpectralFields R) : Cx R :=
  let Bp_old := fields.Bx
  let Bm_old := fields.By
  let Bz_old := fields.Bz
  let G_old := fields.G
  let I : Cx R := ⟨0, 1⟩
  let C := coef.C
  let S_ck := coef.S_ck
  let k_dot_B : Cx R := -I * (kr * (Bp_old - Bm_old) + I * kz * Bz_old)
  C * G_old + I * S_ck * k_dot_B

/-- Sample spectral fields on the rationals with nonzero `F` and `G`. -/
def sampleFieldsFG : SpectralFields ℚ :=
  { sampleFields with F := ⟨1, 0⟩, G := ⟨0, 1⟩ }

/-- Sample spectral fields on the rationals whose new current equals the old one. -/
def sampleFieldsSameJ : SpectralFields ℚ :=
  { sampleFields with Jx_new := ⟨1, 2⟩, Jy_new := ⟨1, 0⟩, Jz_new := ⟨1, 0⟩ }

end PsatdAlgorithmRZ

/-! ## WarpX::OneStep_multiJ -/

/-- Modelled from the spec: the enumeration `MaxwellSolverAlgo` of
`Utils/WarpXAlgorithmSelection.H` (finite-difference solvers and PSATD); the source only
compares it with `PSATD`. -/
inductive MaxwellSolverAlgo where
  | Yee
  | CKC
  | PSATD
deriving DecidableEq, Repr

/-- The static members of `WarpX` read by `WarpX::OneStep_multiJ`. -/
structure WarpXStatic where
  maxwell_solver_id : MaxwellSolverAlgo
  do_dive_cleaning : Bool
  do_divb_cleaning : Bool
  fft_do_time_averaging : Bool
  update_with_rho : Bool
  J_linear_in_time : Bool
  do_multi_J_n_depositions : Int
deriving DecidableEq, Repr

/-- A call made by `WarpX::OneStep_multiJ`, with its arguments. -/
inductive MultiJOp (R : Type) where
  | PushParticlesandDepose (cur_time : R) (skip_deposition : Bool)
  | PSATDForwardTransformEB
  | PSATDForwardTransformF
  | PSATDForwardTransformG
  | PSATDEraseAverageFields
  | DepositCharge (relative_t : R) (icomp : Int)
  | SyncRho
  | PSATDForwardTransformRho (icomp : Int)
  | DepositCurrent (dt : R) (relative_t : R)
  | SyncCurrent
  | PSATDForwardTransformJ
  | PSATDMoveRhoNewToRhoOld
  | PSATDMoveJNewToJOld
  | PSATDPushSpectralFields
  | PSATDBackwardTransformEB
  | PSATDBackwardTransformF
  | PSATDBackwardTransformG
  | PSATDScaleAverageFields (scale_factor : R)
  | PSATDBackwardTransformEBavg
  | FillBoundaryE (ng : GuardWidth)
  | FillBoundaryB (ng : GuardWidth)
  | FillBoundaryF (ng : GuardWidth)
  | FillBoundaryG (ng : GuardWidth)
deriving DecidableEq, Repr

/-- What `WarpX::OneStep_multiJ` did: the calls it made, in order, and the message of the
fatal error that ended it, if one did. -/
structure MultiJRun (R : Type) where
  ops : List (MultiJOp R)
  abort : Option String
deriving DecidableEq, Repr

/-- The relative times of the calls of `DepositCurrent` in a list of calls, in order. -/
def depositCurrentTimes {R : Type} (ops : List (MultiJOp R)) : List R :=
  ops.filterMap (fun op =>
    match op with
    | MultiJOp.DepositCurrent _ relative_t => some relative_t
    | _ => none)

/-- The relative times of the calls of `DepositCharge` in a list of calls, in order. -/
def depositChargeTimes {R : Type} (ops : List (MultiJOp R)) : List R :=
  ops.filterMap (fun op =>
    match op with
    | MultiJOp.DepositCharge relative_t _ => some relative_t
    | _ => none)

namespace WarpX

variable {R : Type} [LinearOrderedField R]

/-- The local `n_loop` of `WarpX::OneStep_multiJ`. -/
def OneStep_multiJ_n_loop (s : WarpXStatic) : Int :=
  if s.fft_do_time_averaging then 2*s.do_multi_J_n_depositions
  else s.do_multi_J_n_depositions

/-- The local `sub_dt` of `WarpX::OneStep_multiJ`. -/
def OneStep_multiJ_sub_dt (w : WarpX R) (s : WarpXStatic) : R :=
  w.dt 0 / (s.do_multi_J_n_depositions : R)

/-- The local `t_depose` of the loop of `WarpX::OneStep_multiJ` for the loop counter
`i_depose`. -/
def OneStep_multiJ_t_depose (w : WarpX R) (s : WarpXStatic) (i_depose : Int) : R :=
  let n_depose := s.do_multi_J_n_depositions
  let sub_dt := OneStep_multiJ_sub_dt w s
  if s.J_linear_in_time then
    ((i_depose - n_depose + 1 : Int) : R) * sub_dt
  else
    (((i_depose - n_depose : Int) : R) + (1/2 : R)) * sub_dt

/-- The calls of `WarpX::OneStep_multiJ` before its loop over the depositions. -/
def OneStep_multiJ_prologue (w : WarpX R) (s : WarpXStatic) (cur_time : R) :
    List (MultiJOp R) :=
  -- Push particle from x^{n} to x^{n+1}, from p^{n-1/2} to p^{n+1/2}
  [ MultiJOp.PushParticlesandDepose cur_time true,
    -- 1) Prepare E,B,F,G fields in spectral space
    MultiJOp.PSATDForwardTransformEB ]
  ++ (if s.do_dive_cleaning then [MultiJOp.PSATDForwardTransformF] else [])
  ++ (if s.do_divb_cleaning then [MultiJOp.PSATDForwardTransformG] else [])
  -- 2) Set the averaged fields to zero
  ++ (if s.fft_do_time_averaging then [MultiJOp.PSATDEraseAverageFields] else [])
  -- 3) Deposit rho (in rho_new, since it will be moved during the loop)
  ++ (if s.update_with_rho then
      [ MultiJOp.DepositCharge (-w.dt 0) 1,
        MultiJOp.SyncRho,
        MultiJOp.PSATDForwardTransformRho 1 ]
    else [])
  -- 4) Deposit J if needed
  ++ (if s.J_linear_in_time then
      [ MultiJOp.DepositCurrent (w.dt 0) (-w.dt 0),
        MultiJOp.SyncCurrent,
        MultiJOp.PSATDForwardTransformJ ]
    else [])

/-- The calls of one pass through the body of the loop over the depositions of
`WarpX::OneStep_multiJ`, for the loop counter `i_depose`. -/
def OneStep_multiJ_body (w : WarpX R) (s : WarpXStatic) (i_depose : Int) :
    List (MultiJOp R) :=
  let n_depose := s.do_multi_J_n_depositions
  let sub_dt := OneStep_multiJ_sub_dt w s
  -- Move rho deposited previously, from new to old
  [ MultiJOp.PSATDMoveRhoNewToRhoOld ]
  -- Move J deposited previously, from new to old
  ++ (if s.J_linear_in_time then [MultiJOp.PSATDMoveJNewToJOld] else [])
  -- Deposit new J at relative time t_depose with time step dt
  ++ [ MultiJOp.DepositCurrent (w.dt 0) (OneStep_multiJ_t_depose w s i_depose),
       MultiJOp.SyncCurrent,
       MultiJOp.PSATDForwardTransformJ ]
  -- Deposit new rho
  ++ (if s.update_with_rho then
      [ MultiJOp.DepositCharge (((i_depose - n_depose + 1 : Int) : R) * sub_dt) 1,
        MultiJOp.SyncRho,
        MultiJOp.PSATDForwardTransformRho 1 ]
    else [])
  -- Advance E,B,F,G fields in time and update the average fields
  ++ [ MultiJOp.PSATDPushSpectralFields ]
  -- Transform non-average fields E,B,F,G after n_depose pushes
  ++ (if i_depose = n_depose - 1 then
      [ MultiJOp.PSATDBackwardTransformEB ]
      ++ (if s.do_dive_cleaning then [MultiJOp.PSATDBackwardTransformF] else [])
      ++ (if s.do_divb_cleaning then [MultiJOp.PSATDBackwardTransformG] else [])
    else [])

/-- The calls of `WarpX::OneStep_multiJ` after its loop over the depositions. -/
def OneStep_multiJ_epilogue (w : WarpX R) (s : WarpXStatic) : List (MultiJOp R) :=
  -- Transform fields back to real space and exchange guard cells
  (if s.fft_do_time_averaging then
      -- We summed the integral of the field over 2*dt
      [ MultiJOp.PSATDScaleAverageFields (1 / (2 * w.dt 0)),
        MultiJOp.PSATDBackwardTransformEBavg ]
    else [])
  ++ [ MultiJOp.FillBoundaryE GuardWidth.ng_alloc_EB,
       MultiJOp.FillBoundaryB GuardWidth.ng_alloc_EB ]
  ++ (if s.do_dive_cleaning then [MultiJOp.FillBoundaryF GuardWidth.ng_alloc_F] else [])
  ++ (if s.do_divb_cleaning then [MultiJOp.FillBoundaryG GuardWidth.ng_alloc_G] else [])

/-- `WarpX::OneStep_multiJ` (build with `WARPX_USE_PSATD`): the calls it makes, the loop
`for (int i_depose = 0; i_depose < n_loop; i_depose++)` being the passes through the body
for `i_depose = 0, ..., n_loop - 1`, or the fatal error that ends it. -/
def OneStep_multiJ (w : WarpX R) (s : WarpXStatic) (cur_time : R) : MultiJRun R :=
  if s.maxwell_solver_id = MaxwellSolverAlgo.PSATD then
    let n_loop := OneStep_multiJ_n_loop s
    { abort := none,
      ops := OneStep_multiJ_prologue w s cur_time
        ++ (List.range n_loop.toNat).flatMap (fun i => OneStep_multiJ_body w s (i : Int))
        ++ OneStep_multiJ_epilogue w s }
  else
    { ops := [], abort := some "multi-J algorithm not implemented for FDTD" }

end WarpX

/-- Settings of a multi-J step with 3 depositions, time averaging and `update_with_rho`,
without the assumption of a current linear in time. -/
def sampleWarpXStatic : WarpXStatic :=
  { maxwell_solver_id := MaxwellSolverAlgo.PSATD, do_dive_cleaning := true,
    do_divb_cleaning := false, fft_do_time_averaging := true, update_with_rho := true,
    J_linear_in_time := false, do_multi_J_n_depositions := 3 }

/-- Settings of a multi-J step with 3 depositions and time averaging, without
`update_with_rho` and without the assumption of a current linear in time. -/
def sampleWarpXStaticNoRho : WarpXStatic :=
  { sampleWarpXStatic with update_with_rho := false }

/-- A run of three steps of `dt[0] = 1/4` on two levels, without subcycling. -/
def sampleWarpXTwoLevels : WarpX ℚ :=
  { sampleWarpXSteps with max_level := 1, finest_level := 1 }

/-! ## Costs at the start of an iteration of `WarpX::Evolve` -/

/-- Values of `WarpX::load_balance_costs_update_algo` that the source tells apart: the
update by timers, which keeps a running average of the costs, and the heuristic update,
which considers the instantaneous costs. -/
inductive LoadBalanceCostsUpdateAlgo
  | Timers
  | Heuristic
  deriving DecidableEq, Repr

/-- Calls to the load-balancing collaborators made at the start of an iteration. -/
inductive CostEvent
  | LoadBalance
  | ResetCosts
  deriving DecidableEq, Repr

/-- The costs after the block at the start of an iteration and the calls it made.
`costs lev` is `WarpX::getCosts(lev)`: `none` for a null pointer, otherwise the entries
over `cost->IndexArray()`. -/
structure CostsRun (R : Type) where
  costs : Nat → Option (List R)
  events : List CostEvent

namespace WarpX

variable {R : Type} [LinearOrderedField R]

/-- The statement `(*cost)[i] *= (1. - 2./load_balance_intervals.localPeriod(step+1))` on
one entry; `none` when the period is 0, a division by zero. -/
def Evolve_costs_entry (localPeriod : Int) (c : R) : Option R :=
  (PsatdAlgorithmRZ.checkedDiv 2 (localPeriod : R)).map (fun q => c * (1 - q))

/-- The loop `for (int i : cost->IndexArray())` of `WarpX::Evolve`. -/
def Evolve_costs_level (localPeriod : Int) : List R → Option (List R)
  | [] => some []
  | c :: cost =>
    match Evolve_costs_entry localPeriod c with
    | none => none
    | some c1 => (Evolve_costs_level localPeriod cost).map (fun cost1 => c1 :: cost1)

/-- The first `nlev` passes of the loop `for (int lev = 0; lev <= finest_level; ++lev)` on
the costs of `WarpX::Evolve`. -/
def Evolve_costs_levels (algo : LoadBalanceCostsUpdateAlgo) (localPeriod : Int)
    (costs : Nat → Option (List R)) : Nat → Option (Nat → Option (List R))
  | 0 => some costs
  | nlev + 1 =>
    match Evolve_costs_levels algo localPeriod costs nlev with
    | none => none
    | some costs1 =>
      match costs1 nlev with
      | some cost =>
        if algo = LoadBalanceCostsUpdateAlgo.Timers then
          -- Perform running average of the costs
          (Evolve_costs_level localPeriod cost).map
            (fun cost1 => fun lev => if lev = nlev then some cost1 else costs1 lev)
        else some costs1
      | none => some costs1

/-- The block on the costs at the start of the iteration `step` of `WarpX::Evolve`.
`contains` and `localPeriod` are the member functions of `load_balance_intervals`;
`LoadBalance` and `ResetCosts` are what these collaborators do to the costs. -/
def Evolve_costs (contains : Int → Bool) (localPeriod : Int → Int)
    (LoadBalance ResetCosts : (Nat → Option (List R)) → (Nat → Option (List R)))
    (algo : LoadBalanceCostsUpdateAlgo) (finest_level : Nat) (step : Int)
    (costs : Nat → Option (List R)) : Option (CostsRun R) :=
  match costs 0 with
  | some _ =>
    let balance : Bool := decide (step > 0) && contains (step + 1)
    let costs1 := if balance then ResetCosts (LoadBalance costs) else costs
    let events := if balance then [CostEvent.LoadBalance, CostEvent.ResetCosts] else []
    (Evolve_costs_levels algo (localPeriod (step + 1)) costs1 (finest_level + 1)).map
      (fun costs2 => { costs := costs2, events := events })
  | none => some { costs := costs, events := [] }

end WarpX

/-- Costs on two levels, two patches each. -/
def sampleCosts : Nat → Option (List ℚ) :=
  fun lev => if lev ≤ 1 then some [4, 6] else none

/-- A `ResetCosts` that sets every entry to 0. -/
def sampleResetCosts (costs : Nat → Option (List ℚ)) : Nat → Option (List ℚ) :=
  fun lev => (costs lev).map (List.map (fun _ => 0))

/-- Intervals that contain the multiples of 10. -/
def sampleContains (n : Int) : Bool := n % 10 == 0

/-- The period of the intervals of `sampleContains`. -/
def sampleLocalPeriod (_ : Int) : Int := 10

/-! ## PsatdAlgorithmRZ: the object and its calls -/

namespace PsatdAlgorithmRZ

variable {R : Type} [LinearOrderedField R]

/-- The argument `f` of the member functions, with the spectral points `(i,j,k,mode)` of
its boxes numbered `0, ..., npoints - 1`. -/
structure SpectralFieldDataRZ (R : Type) where
  /-- Number of spectral points. -/
  npoints : Nat
  /-- The value `kr_arr[ir]` at a point. -/
  kr : Nat → R
  /-- The fields `fields(i,j,k,·)` at a point. -/
  fields : Nat → SpectralFields R

/-- The members of a `PsatdAlgorithmRZ` that `pushSpectralFields` uses. -/
structure Members (R : Type) where
  m_dt : R
  m_update_with_rho : Bool
  m_J_linear_in_time : Bool
  m_dive_cleaning : Bool
  m_divb_cleaning : Bool
  /-- The value `modified_kz_vec[mfi][j]` at a point. -/
  modified_kz_vec : Nat → R
  /-- The arrays `C_coef`, `S_ck_coef`, `X1_coef`, `X2_coef`, `X3_coef` at a point. -/
  coef : Nat → SpectralCoefficients R
  coefficients_initialized : Bool

/-- What a member function does with the coefficients. -/
inductive Event
  | InitializeSpectralCoefficients
  | readCoefficients (point : Nat)
  deriving DecidableEq, Repr

/-- The constructor `PsatdAlgorithmRZ::PsatdAlgorithmRZ`; `alloc` is what the freshly
allocated arrays of coefficients hold. -/
def construct (alloc : Nat → SpectralCoefficients R) (modified_kz_vec : Nat → R) (dt : R)
    (update_with_rho J_linear_in_time dive_cleaning divb_cleaning : Bool) : Members R :=
  { m_dt := dt,
    m_update_with_rho := update_with_rho,
    m_J_linear_in_time := J_linear_in_time,
    m_dive_cleaning := dive_cleaning,
    m_divb_cleaning := divb_cleaning,
    modified_kz_vec := modified_kz_vec,
    -- Allocate the arrays of coefficients
    coef := alloc,
    coefficients_initialized := false }

/-- The loops of `PsatdAlgorithmRZ::InitializeSpectralCoefficients (f)` over the first
`n` spectral points: the arrays of coefficients after them, `none` if a division had a
zero divisor. -/
def InitializeSpectralCoefficients_points (sqrt cos sin : R → R) (c ep0 : R)
    (a : Members R) (f : SpectralFieldDataRZ R) : Nat → Option (Nat → SpectralCoefficients R)
  | 0 => some a.coef
  | n + 1 =>
    match InitializeSpectralCoefficients_points sqrt cos sin c ep0 a f n with
    | none => none
    | some coef =>
      match InitializeSpectralCoefficients sqrt cos sin c ep0 a.m_dt (f.kr n)
          (a.modified_kz_vec n) with
      | none => none
      | some v => some (fun p => if p = n then v else coef p)

/-- The member function `PsatdAlgorithmRZ::InitializeSpectralCoefficients (f)`. -/
def InitializeSpectralCoefficients_member (sqrt cos sin : R → R) (c ep0 : R)
    (a : Members R) (f : SpectralFieldDataRZ R) : Option (Members R) :=
  (InitializeSpectralCoefficients_points sqrt cos sin c ep0 a f f.npoints).map
    (fun coef => { a with coef := coef })

/-- The reads of the coefficients by the kernel of `pushSpectralFields` over `n` points. -/
def readEvents (n : Nat) : List Event :=
  (List.range n).map Event.readCoefficients

/-- The member function `PsatdAlgorithmRZ::pushSpectralFields (f)`: the object and `f`
after the call, and what the call did with the coefficients, in order. -/
def pushSpectralFields_member (sqrt cos sin : R → R) (c ep0 : R)
    (a : Members R) (f : SpectralFieldDataRZ R) :
    Option (Members R × SpectralFieldDataRZ R × List Event) :=
  let update_with_rho := a.m_update_with_rho
  let J_linear_in_time := a.m_J_linear_in_time
  let dive_cleaning := a.m_dive_cleaning
  let divb_cleaning := a.m_divb_cleaning
  let init : Option (Members R × List Event) :=
    if !a.coefficients_initialized then
      -- This is called from here since it needs the kr values
      -- which can be obtained from the SpectralFieldDataRZ
      (InitializeSpectralCoefficients_member sqrt cos sin c ep0 a f).map
        (fun a1 => ({ a1 with coefficients_initialized := true },
                    [Event.InitializeSpectralCoefficients]))
    else some (a, [])
  init.map (fun x =>
    (x.1,
     { f with
       fields := fun p =>
        if p < f.npoints then
          pushSpectralFields update_with_rho J_linear_in_time dive_cleaning divb_cleaning
            c ep0 x.1.m_dt (f.kr p) (x.1.modified_kz_vec p) (x.1.coef p) (f.fields p)
        else f.fields p },
     x.2 ++ readEvents f.npoints))

/-- Successive calls of `pushSpectralFields` on one object, one for each argument of the
list: the object after each call and what the call did with the coefficients. -/
def pushSpectralFields_calls (sqrt cos sin : R → R) (c ep0 : R) :
    Members R → List (SpectralFieldDataRZ R) → Option (List (Members R × List Event))
  | _, [] => some []
  | a, f :: fs =>
    match pushSpectralFields_member sqrt cos sin c ep0 a f with
    | none => none
    | some (a1, _, events) =>
      (pushSpectralFields_calls sqrt cos sin c ep0 a1 fs).map (fun rest => (a1, events) :: rest)

/-- Spectral data on two points, with `sampleFields` at each. -/
def sampleFieldData : SpectralFieldDataRZ ℚ :=
  { npoints := 2, kr := fun p => (p : ℚ), fields := fun _ => sampleFields }

/-- A freshly constructed object with `dt = 1/2`, `modified_kz = 0` everywhere and zeros
in the allocated arrays. -/
def sampleMembers : Members ℚ :=
  construct (fun _ => { C := 0, S_ck := 0, X1 := 0, X2 := 0, X3 := 0 }) (fun _ => 0) (1/2)
    true false false false

end PsatdAlgorithmRZ


/-! ## MacroscopicProperties -/

namespace MacroscopicProperties

variable {R : Type} [LinearOrderedField R]

/-- `MacroscopicProperties::face_avg_to_face`: the average of a face-centered field onto
a face of nodality `iv_out`.  The `amrex::Array4` `Fieldcomp` is the function of its four
indices; `iv[0]`, `iv[1]`, `iv[2]` are the components `x`, `y`, `z`; `0.125_rt` is `1/8`. -/
def face_avg_to_face (i j k n : Int) (iv_in iv_out : IntVect)
    (Fieldcomp : Int → Int → Int → Int → R) : R :=
  (1/8 : R) * ( Fieldcomp i                       j                       k                       n
              + Fieldcomp (i + iv_in.x - iv_out.x) j                       k                       n
              + Fieldcomp i                       (j + iv_in.y - iv_out.y) k                       n
              + Fieldcomp i                       j                       (k + iv_in.z - iv_out.z) n
              + Fieldcomp (i + iv_in.x - iv_out.x) (j + iv_in.y - iv_out.y) k                       n
              + Fieldcomp (i + iv_in.x - iv_out.x) j                       (k + iv_in.z - iv_out.z) n
              + Fieldcomp i                       (j + iv_in.y - iv_out.y) (k + iv_in.z - iv_out.z) n
              + Fieldcomp (i + iv_in.x - iv_out.x) (j + iv_in.y - iv_out.y) (k + iv_in.z - iv_out.z) n )

/-- `MacroscopicProperties::updateM_field` (build with `WARPX_MAG_LLG`): the component `n`
of the M field in the second-order time scheme, from the arrays `a` and `b` with
components x, y, z; `pow(x, 2.0)` is the square. -/
def updateM_field (i j k n : Int) (a b : Int → Int → Int → Int → R) : Outcome R :=
  let a_square : R := (a i j k 0)^2 + (a i j k 1)^2 + (a i j k 2)^2
  let a_dot_b : R := a i j k 0 * b i j k 0 +
                     a i j k 1 * b i j k 1 +
                     a i j k 2 * b i j k 2
  if n = 0 then
    let a_cross_b_x : R := a i j k 1 * b i j k 2 -
                           a i j k 2 * b i j k 1
    Outcome.ok (( b i j k 0 + a_dot_b * a i j k 0 - a_cross_b_x ) / ( 1 + a_square))
  else if n = 1 then
    let a_cross_b_y : R := a i j k 2 * b i j k 0 -
                           a i j k 0 * b i j k 2
    Outcome.ok (( b i j k 1 + a_dot_b * a i j k 1 - a_cross_b_y ) / ( 1 + a_square))
  else if n = 2 then
    let a_cross_b_z : R := a i j k 0 * b i j k 1 -
                           a i j k 1 * b i j k 0
    Outcome.ok (( b i j k 2 + a_dot_b * a i j k 2 - a_cross_b_z ) / ( 1 + a_square))
  else
    Outcome.abort "Wrong component n of the M_field"

/-- A field on the rationals with a different value at each index near the origin, used
to run the averages. -/
def sampleFieldcomp : Int → Int → Int → Int → ℚ :=
  fun i j k n => (i : ℚ) + 10 * (j : ℚ) + 100 * (k : ℚ) + 1000 * (n : ℚ)

/-- Arrays holding the vector `(1, 2, 3)` at every point. -/
def sampleVectorA : Int → Int → Int → Int → ℚ :=
  fun _ _ _ n => (n : ℚ) + 1

/-- Arrays holding the vector `(1, 0, -1)` at every point. -/
def sampleVectorB : Int → Int → Int → Int → ℚ :=
  fun _ _ _ n => 1 - (n : ℚ)

end MacroscopicProperties

namespace LaxWendroffAlgo

variable {R : Type} [LinearOrderedField R]

/-- `LaxWendroffAlgo::alpha`; `none` when a division has a zero divisor. -/
def alpha (sigma epsilon dt : R) : Option R := do
  let fac1 ← PsatdAlgorithmRZ.checkedDiv ((1/2 : R) * sigma * dt) epsilon
  let alpha ← PsatdAlgorithmRZ.checkedDiv (1 - fac1) (1 + fac1)
  pure alpha

/-- `LaxWendroffAlgo::beta`; `none` when a division has a zero divisor. -/
def beta (sigma epsilon dt : R) : Option R := do
  let fac1 ← PsatdAlgorithmRZ.checkedDiv ((1/2 : R) * sigma * dt) epsilon
  let beta ← PsatdAlgorithmRZ.checkedDiv dt ( epsilon * (1 + fac1) )
  pure beta

end LaxWendroffAlgo

namespace BackwardEulerAlgo

variable {R : Type} [LinearOrderedField R]

/-- `BackwardEulerAlgo::alpha`; `none` when a division has a zero divisor. -/
def alpha (sigma epsilon dt : R) : Option R := do
  let fac1 ← PsatdAlgorithmRZ.checkedDiv (sigma * dt) epsilon
  let alpha ← PsatdAlgorithmRZ.checkedDiv 1 (1 + fac1)
  pure alpha

/-- `BackwardEulerAlgo::beta`; `none` when a division has a zero divisor. -/
def beta (sigma epsilon dt : R) : Option R := do
  let fac1 ← PsatdAlgorithmRZ.checkedDiv (sigma * dt) epsilon
  let beta ← PsatdAlgorithmRZ.checkedDiv dt ( epsilon * (1 + fac1) )
  pure beta

end BackwardEulerAlgo

namespace PsatdAlgorithmRZ

/-- Sample spectral fields on the rationals that satisfy Gauss's law and the continuity
equation for `kr = 3`, `kz = 4`, `ep0 = 3`, `dt = 1/2`. -/
def sampleFieldsGauss : SpectralFields ℚ :=
  { sampleFields with
    rho_old := ⟨9, 0⟩, rho_new := ⟨9, -5⟩ }

end PsatdAlgorithmRZ

namespace WarpXParticleContainer

/-- The index range `[ibegin, iend)` of the input particles that
`WarpXParticleContainer::AddNParticles` adds on the process `myproc` of `nprocs`
(`ParallelDescriptor::MyProc()` and `ParallelDescriptor::NProcs()`); `n/nprocs` is the
integer division of C++. -/
def AddNParticles_range (n uniqueparticles myproc nprocs : Int) : Int × Int :=
  if uniqueparticles ≠ 0 then
    (0, n)
  else
    let navg := Int.tdiv n nprocs
    let nleft := n - navg * nprocs
    if myproc < nleft then
      let ibegin := myproc*(navg+1)
      (ibegin, ibegin + navg+1)
    else
      let ibegin := myproc*navg + nleft
      (ibegin, ibegin + navg)

end WarpXParticleContainer

/-! ## Durations of the advances made by a one-step routine -/

/-- The duration `a_dt` of a call of `EvolveE` on the patch `patch_type` of the level
`lev`, 0 for every other call. -/
def Op.durationE {R : Type} [Zero R] (lev : Nat) (patch_type : PatchType) : Op R → R
  | Op.EvolveE l p a_dt => if l = lev ∧ p = patch_type then a_dt else 0
  | _ => 0

/-- The duration `a_dt` of a call of `EvolveB` on the patch `patch_type` of the level
`lev`, 0 for every other call. -/
def Op.durationB {R : Type} [Zero R] (lev : Nat) (patch_type : PatchType) : Op R → R
  | Op.EvolveB l p a_dt _ => if l = lev ∧ p = patch_type then a_dt else 0
  | _ => 0

/-- The duration `a_dt` of a call of `EvolveF` on the patch `patch_type` of the level
`lev`, 0 for every other call. -/
def Op.durationF {R : Type} [Zero R] (lev : Nat) (patch_type : PatchType) : Op R → R
  | Op.EvolveF l p a_dt _ => if l = lev ∧ p = patch_type then a_dt else 0
  | _ => 0

/-- The start time `cur_time` of a call of `PushParticlesandDepose` on the level `lev`. -/
def Op.pushTime {R : Type} (lev : Nat) : Op R → Option R
  | Op.PushParticlesandDepose l cur_time _ => if l = lev then some cur_time else none
  | _ => none

/-- The call advances the fields or the particles in time: it is a call of `EvolveE`,
`EvolveB`, `EvolveF` or `PushParticlesandDepose`. -/
def Op.isAdvance {R : Type} : Op R → Bool
  | Op.EvolveE _ _ _ => true
  | Op.EvolveB _ _ _ _ => true
  | Op.EvolveF _ _ _ _ => true
  | Op.PushParticlesandDepose _ _ _ => true
  | _ => false

namespace WarpX

variable {R : Type} [LinearOrderedField R]

/-- Sum of the durations of the calls of `EvolveE` on a patch of a level. -/
def advanceE (ops : List (Op R)) (lev : Nat) (patch_type : PatchType) : R :=
  (ops.map (Op.durationE lev patch_type)).sum

/-- Sum of the durations of the calls of `EvolveB` on a patch of a level. -/
def advanceB (ops : List (Op R)) (lev : Nat) (patch_type : PatchType) : R :=
  (ops.map (Op.durationB lev patch_type)).sum

/-- Sum of the durations of the calls of `EvolveF` on a patch of a level. -/
def advanceF (ops : List (Op R)) (lev : Nat) (patch_type : PatchType) : R :=
  (ops.map (Op.durationF lev patch_type)).sum

/-- The start times of the pushes of the particles of a level, in order. -/
def pushTimes (ops : List (Op R)) (lev : Nat) : List R :=
  ops.filterMap (Op.pushTime lev)

/-- The time by which the particles of the level `lev` advance: every call
`PushParticlesandDepose(lev, cur_time, a_dt_type)` hands `dt[lev]` to the particle
containers. -/
def advanceParticles (w : WarpX R) (ops : List (Op R)) (lev : Nat) : R :=
  ((pushTimes ops lev).length : R) * w.dt lev

end WarpX

/-- A configuration with subcycling on two levels, `dt[0] = 1/2` and `dt[1] = 1/4`. -/
def sampleWarpXSubcycling : WarpX ℚ :=
  { sampleWarpX with
    max_level := 1, finest_level := 1, do_subcycling := 1,
    dt := fun lev => if lev = 0 then 1/2 else 1/4 }

/-! ## Rounding of `amrex::Real` in double precision -/

/-- Rounding to the nearest multiple of `2^(e - 52)`, a tie going to the even multiple:
the rounding of IEEE 754 binary64 for a number `q` with `2^e ≤ |q| < 2^(e+1)`. -/
def roundAt (e : Int) (q : ℚ) : ℚ :=
  let ulp : ℚ := (2 : ℚ) ^ (e - 52)
  let m : ℚ := q / ulp
  let f : Int := ⌊m⌋
  let r : Int :=
    if m - f < 1/2 then f
    else if 1/2 < m - f then f + 1
    else if f % 2 = 0 then f else f + 1
  (r : ℚ) * ulp

/-- The `double` stored for the exact result `q` of an arithmetic operation: rounding to
nearest, ties to even, with 53 significant bits (the default rounding of IEEE 754
binary64, the `amrex::Real` of a build in double precision), overflow and subnormal
numbers left aside. -/
def roundDouble (q : ℚ) : ℚ :=
  if q = 0 then 0 else roundAt (Int.log 2 |q|) q

namespace WarpX

variable {R : Type} [LinearOrderedField R]

/-- The local `sub_dt` of `WarpX::OneStep_multiJ` as computed in `amrex::Real` with the
rounding `fl`. -/
def OneStep_multiJ_sub_dt_fl (fl : R → R) (w : WarpX R) (s : WarpXStatic) : R :=
  fl (w.dt 0 / (s.do_multi_J_n_depositions : R))

/-- The local `t_depose` of the loop of `WarpX::OneStep_multiJ` for the loop counter
`i_depose`, as computed in `amrex::Real` with the rounding `fl`: the factor of `sub_dt` is
an integer or an integer plus one half, which the conversion to `amrex::Real` does not
round. -/
def OneStep_multiJ_t_depose_fl (fl : R → R) (w : WarpX R) (s : WarpXStatic)
    (i_depose : Int) : R :=
  let n_depose := s.do_multi_J_n_depositions
  let sub_dt := OneStep_multiJ_sub_dt_fl fl w s
  if s.J_linear_in_time then
    fl (((i_depose - n_depose + 1 : Int) : R) * sub_dt)
  else
    fl ((((i_depose - n_depose : Int) : R) + (1/2 : R)) * sub_dt)

end WarpX

/-- The run `sampleWarpX` with `dt[0] = 0.9`, that is, the `double` nearest to `9/10`. -/
def sampleWarpXDouble : WarpX ℚ :=
  { sampleWarpX with dt := fun _ => 8106479329266893 / 9007199254740992 }

/-! ## WarpXParticleContainer: the loops over the levels -/

/-- The attributes `PIdx::w`, `PIdx::ux`, `PIdx::uy`, `PIdx::uz` of one particle. -/
structure ParticleAttribs (R : Type) where
  w : R
  ux : R
  uy : R
  uz : R

/-- What the reductions of a `WarpXParticleContainer` read: `finestLevel()`, the member
`charge`, and for every level the particle tiles that a `WarpXParIter` visits, each with
its particles. -/
structure ParticleLevels (R : Type) where
  finestLevel : Nat
  charge : R
  tiles : Nat → List (List (ParticleAttribs R))

namespace WarpXParticleContainer

variable {R : Type} [LinearOrderedField R]

/-- The arguments of the per-tile call made by
`WarpXParticleContainer::DepositCurrent (J, dt, relative_t)`, the loop over the levels and
the particle tiles, for a tile of the level `lev` that holds `np` particles: `tile` is
what the per-tile call reads from the container and from the globals.  The argument
`relative_t/dt` is a division of `amrex::Real`: `fl` is the rounding of that arithmetic,
`fl x` being the number stored for the exact result `x` of an operation (the identity in
exact arithmetic, `roundDouble` in double precision). -/
def DepositCurrent_tileCall (fl : R → R) (tile : DepositCurrentCall R) (lev np : Int)
    (dt relative_t : R) : DepositCurrentCall R :=
  { tile with
    np_to_depose := np, lev := lev, depos_lev := lev, dt := dt,
    relative_time := fl (relative_t/dt) }

/-- `WarpXParticleContainer::DepositCurrent (J, dt, relative_t)` on the tiles visited, in
order, each given with its level and its number of particles: the fatal error of the first
per-tile call that has one, otherwise what the per-tile calls returned. -/
def DepositCurrent_levels (fl : R → R) (dt relative_t : R) :
    List (DepositCurrentCall R × Int × Int) → Outcome (List (Option (DepositionKernel R)))
  | [] => Outcome.ok []
  | (tile, lev, np) :: rest =>
    match DepositCurrent (DepositCurrent_tileCall fl tile lev np dt relative_t) with
    | Outcome.abort msg => Outcome.abort msg
    | Outcome.ok k =>
      match DepositCurrent_levels fl dt relative_t rest with
      | Outcome.abort msg => Outcome.abort msg
      | Outcome.ok ks => Outcome.ok (k :: ks)

/-- `WarpXParticleContainer::sumParticleCharge (local)`, with `local_` for the argument
`local`; `ReduceRealSum` is the sum over the processes made by
`ParallelDescriptor::ReduceRealSum`. -/
def sumParticleCharge (pc : ParticleLevels R) (ReduceRealSum : R → R) (local_ : Bool) : R :=
  let nLevels := pc.finestLevel
  -- for (int lev = 0; lev < nLevels; ++lev)
  let total_charge : R :=
    (List.range nLevels).foldl (fun total lev =>
      (pc.tiles lev).foldl (fun total wp =>
        wp.foldl (fun total p => total + p.w) total) total) 0
  let total_charge1 : R := if local_ = false then ReduceRealSum total_charge else total_charge
  total_charge1 * pc.charge

/-- `WarpXParticleContainer::maxParticleVelocity (local)`, with `local_` for the argument
`local`; `sqrt` is `std::sqrt` and `Max` the maximum over the processes made by
`ParallelAllReduce::Max`. -/
def maxParticleVelocity (sqrt : R → R) (pc : ParticleLevels R) (Max : R → R)
    (local_ : Bool) : R :=
  let nLevels := pc.finestLevel
  -- for (int lev = 0; lev <= nLevels; ++lev)
  let max_v : R :=
    (List.range (nLevels + 1)).foldl (fun max_v lev =>
      (pc.tiles lev).foldl (fun max_v tile =>
        tile.foldl (fun max_v p => max max_v (sqrt (p.ux*p.ux + p.uy*p.uy + p.uz*p.uz)))
          max_v) max_v) 0
  if local_ = false then Max max_v else max_v

end WarpXParticleContainer

/-- A single-level container (`finestLevel() = 0`) of charge 7 with one tile holding two
particles of weights 2 and 3. -/
def sampleParticleLevels : ParticleLevels ℚ :=
  { finestLevel := 0, charge := 7,
    tiles := fun lev =>
      if lev = 0 then [[⟨2, 1, 0, 0⟩, ⟨3, 0, 2, 0⟩]] else [] }

/-- What a per-tile call reads for a tile whose particles are all within range, with the
Esirkepov algorithm, order 1 and no Galilean velocity. -/
def sampleTile : DepositCurrentCall ℚ :=
  { sampleDepositEmpty with np_to_depose := 0 }

/-- What a per-tile call reads for a tile of a species with `do_not_deposit` set, with the
Esirkepov algorithm, order 1 and no Galilean velocity. -/
def sampleTileNoDeposit : DepositCurrentCall ℚ :=
  { sampleDepositEmpty with np_to_depose := 0, do_not_deposit := true }

/-! # Theorems -/

/-! ## Algebra of `Cx` -/

theorem Cx.eq_iff {R : Type} (z w : Cx R) : z = w ↔ z.re = w.re ∧ z.im = w.im := by
  cases z; cases w; simp

namespace Cx

variable {R : Type} [LinearOrderedField R]

@[simp]
theorem I_re : (I : Cx R).re = 0 := rfl

@[simp]
theorem I_im : (I : Cx R).im = 1 := rfl

@[simp]
theorem zero_re : (0 : Cx R).re = 0 := rfl

@[simp]
theorem zero_im : (0 : Cx R).im = 0 := rfl

@[simp]
theorem neg_re (z : Cx R) : (-z).re = -z.re := rfl

@[simp]
theorem neg_im (z : Cx R) : (-z).im = -z.im := rfl

@[simp]
theorem add_re (z w : Cx R) : (z + w).re = z.re + w.re := rfl

@[simp]
theorem add_im (z w : Cx R) : (z + w).im = z.im + w.im := rfl

@[simp]
theorem sub_re (z w : Cx R) : (z - w).re = z.re - w.re := rfl

@[simp]
theorem sub_im (z w : Cx R) : (z - w).im = z.im - w.im := rfl

@[simp]
theorem mul_re (z w : Cx R) : (z * w).re = z.re * w.re - z.im * w.im := rfl

@[simp]
theorem mul_im (z w : Cx R) : (z * w).im = z.re * w.im + z.im * w.re := rfl

@[simp]
theorem rmul_re (a : R) (z : Cx R) : (a * z).re = a * z.re := rfl

@[simp]
theorem rmul_im (a : R) (z : Cx R) : (a * z).im = a * z.im := rfl

@[simp]
theorem mulr_re (z : Cx R) (a : R) : (z * a).re = z.re * a := rfl

@[simp]
theorem mulr_im (z : Cx R) (a : R) : (z * a).im = z.im * a := rfl

@[simp]
theorem divr_re (z : Cx R) (a : R) : (z / a).re = z.re / a := rfl

@[simp]
theorem divr_im (z : Cx R) (a : R) : (z / a).im = z.im / a := rfl

end Cx

namespace PsatdAlgorithmRZ

variable {R : Type} [LinearOrderedField R]

/-- C5. After the kernel of `CurrentCorrection`, at every spectral point with
`kr^2 + kz^2 ≠ 0` and for `dt ≠ 0`, the corrected currents satisfy the discrete
continuity equation `(rho_new - rho_old)/dt + i kz Jz + kr (Jp - Jm) = 0`, whatever
the complex values of `Jp`, `Jm`, `Jz`, `rho_old`, `rho_new` were. -/
theorem CurrentCorrection_continuity (dt kr kz : R) (fields : SpectralFields R)
    (hk : kr*kr + kz*kz ≠ 0) (hdt : dt ≠ 0) :
    (fields.rho_new - fields.rho_old)/dt
      + (Cx.I : Cx R)*kz*(CurrentCorrection dt kr kz fields).Jz
      + kr*((CurrentCorrection dt kr kz fields).Jx - (CurrentCorrection dt kr kz fields).Jy)
      = 0 := by
  have hk2 : kr^2 + kz^2 ≠ 0 := by simpa [pow_two] using hk
  simp only [CurrentCorrection, hk, ne_eq, not_false_eq_true, if_true]
  rw [Cx.eq_iff]
  constructor
  · simp
    field_simp
    ring
  · simp
    field_simp
    ring

/-- Witness of C5 on the rationals: `kr = 1`, `kz = 2`, `dt = 1/2`. -/
theorem CurrentCorrection_continuity_witness :
    ((1:ℚ)*1 + 2*2 ≠ 0 ∧ (1/2 : ℚ) ≠ 0) ∧
    (sampleFields.rho_new - sampleFields.rho_old)/(1/2 : ℚ)
      + (Cx.I : Cx ℚ)*(2:ℚ)*(CurrentCorrection (1/2 : ℚ) 1 2 sampleFields).Jz
      + (1:ℚ)*((CurrentCorrection (1/2 : ℚ) 1 2 sampleFields).Jx
          - (CurrentCorrection (1/2 : ℚ) 1 2 sampleFields).Jy)
      = 0 :=
  ⟨⟨by norm_num, by norm_num⟩,
    CurrentCorrection_continuity (1/2 : ℚ) 1 2 sampleFields (by norm_num) (by norm_num)⟩

/-- Under the two relations of the claim the two formulas of `rho_diff` agree. -/
theorem rho_diff_eq (ep0 dt kr kz : R) (coef : SpectralCoefficients R)
    (fields : SpectralFields R)
    (hold : fields.rho_old
      = ep0 * (kr*(fields.Ex - fields.Ey) + (Cx.I : Cx R)*kz*fields.Ez))
    (hnew : fields.rho_new
      = fields.rho_old - dt * (kr*(fields.Jx - fields.Jy) + (Cx.I : Cx R)*kz*fields.Jz)) :
    rho_diff true ep0 dt kr kz coef fields = rho_diff false ep0 dt kr kz coef fields := by
  rw [Cx.eq_iff] at hold hnew
  obtain ⟨ho1, ho2⟩ := hold
  obtain ⟨hn1, hn2⟩ := hnew
  simp at ho1 ho2 hn1 hn2
  rw [Cx.eq_iff]
  simp [rho_diff, hn1, hn2, ho1, ho2]
  constructor <;> ring

/-- C6. The two charge-correction formulations of `pushSpectralFields` agree: when
`rho_old = ep0 * divE` and `rho_new = rho_old - dt * divJ`, the `rho_diff` of
`update_with_rho = true` equals the one of `update_with_rho = false`, and the whole
push (in particular the updated `Ep`, `Em`, `Ez`) is the same under both settings,
for every value of the other flags, coefficients and fields. -/
theorem pushSpectralFields_update_with_rho_equiv
    (J_linear_in_time dive_cleaning divb_cleaning : Bool)
    (c ep0 dt kr kz : R) (coef : SpectralCoefficients R) (fields : SpectralFields R)
    (hold : fields.rho_old
      = ep0 * (kr*(fields.Ex - fields.Ey) + (Cx.I : Cx R)*kz*fields.Ez))
    (hnew : fields.rho_new
      = fields.rho_old - dt * (kr*(fields.Jx - fields.Jy) + (Cx.I : Cx R)*kz*fields.Jz)) :
    rho_diff true ep0 dt kr kz coef fields = rho_diff false ep0 dt kr kz coef fields ∧
    pushSpectralFields true J_linear_in_time dive_cleaning divb_cleaning
        c ep0 dt kr kz coef fields
      = pushSpectralFields false J_linear_in_time dive_cleaning divb_cleaning
        c ep0 dt kr kz coef fields := by
  have h := rho_diff_eq ep0 dt kr kz coef fields hold hnew
  refine ⟨h, ?_⟩
  unfold pushSpectralFields
  rw [h]

/-- Witness of C6 on the rationals: `ep0 = 3`, `kr = 1`, `kz = 2`, `dt = 1/2`. -/
theorem pushSpectralFields_update_with_rho_equiv_witness :
    (sampleFields.rho_old
      = (3:ℚ) * ((1:ℚ)*(sampleFields.Ex - sampleFields.Ey)
          + (Cx.I : Cx ℚ)*(2:ℚ)*sampleFields.Ez) ∧
     sampleFields.rho_new
      = sampleFields.rho_old - (1/2 : ℚ) * ((1:ℚ)*(sampleFields.Jx - sampleFields.Jy)
          + (Cx.I : Cx ℚ)*(2:ℚ)*sampleFields.Jz)) ∧
    (rho_diff true 3 (1/2) 1 2 ⟨1, 2, 3, 4, 5⟩ sampleFields
      = rho_diff false 3 (1/2) 1 2 ⟨1, 2, 3, 4, 5⟩ sampleFields ∧
    pushSpectralFields true true true true 7 3 (1/2) 1 2 ⟨1, 2, 3, 4, 5⟩ sampleFields
      = pushSpectralFields false true true true 7 3 (1/2) 1 2 ⟨1, 2, 3, 4, 5⟩ sampleFields) :=
  ⟨⟨by norm_num [Cx.eq_iff, sampleFields], by norm_num [Cx.eq_iff, sampleFields]⟩,
    pushSpectralFields_update_with_rho_equiv true true true 7 3 (1/2) 1 2 ⟨1, 2, 3, 4, 5⟩
      sampleFields (by norm_num [Cx.eq_iff, sampleFields])
      (by norm_num [Cx.eq_iff, sampleFields])⟩

end PsatdAlgorithmRZ

namespace PsatdAlgorithmRZ

variable {R : Type} [LinearOrderedField R]

theorem checkedDiv_of_ne (a : R) {b : R} (hb : b ≠ 0) : checkedDiv a b = some (a / b) := by
  simp [checkedDiv, hb]

/-- Value stored by the `k_norm = 0` branch of `InitializeSpectralCoefficients`. -/
theorem InitializeSpectralCoefficients_zero (sqrt cos sin : R → R) (c ep0 dt kr kz : R)
    (hep0 : ep0 ≠ 0) (hk : sqrt (kr*kr + kz*kz) = 0) :
    InitializeSpectralCoefficients sqrt cos sin c ep0 dt kr kz
      = some { C := 1, S_ck := dt, X1 := dt^2/(2*ep0), X2 := c^2*dt^2/(6*ep0),
               X3 := -(c^2*dt^2/(3*ep0)) } := by
  have h6 : (6:R) * ep0 ≠ 0 := mul_ne_zero (by norm_num) hep0
  have h3 : (3:R) * ep0 ≠ 0 := mul_ne_zero (by norm_num) hep0
  simp only [InitializeSpectralCoefficients, hk, ne_eq, not_true_eq_false, if_false,
    checkedDiv_of_ne _ hep0, checkedDiv_of_ne _ h6, checkedDiv_of_ne _ h3,
    Option.bind_eq_bind, Option.some_bind, Option.pure_def]
  congr 2
  · field_simp
    ring
  · ring
  · field_simp
    ring

/-- Value stored by the `k_norm ≠ 0` branch of `InitializeSpectralCoefficients`. -/
theorem InitializeSpectralCoefficients_general (sqrt cos sin : R → R) (c ep0 dt kr kz : R)
    (hc : c ≠ 0) (hep0 : ep0 ≠ 0) (hdt : dt ≠ 0) (hk : sqrt (kr*kr + kz*kz) ≠ 0) :
    InitializeSpectralCoefficients sqrt cos sin c ep0 dt kr kz
      = some { C := cos (c * sqrt (kr*kr + kz*kz) * dt),
               S_ck := sin (c * sqrt (kr*kr + kz*kz) * dt) / (c * sqrt (kr*kr + kz*kz)),
               X1 := (1 - cos (c * sqrt (kr*kr + kz*kz) * dt))
                      / (ep0 * c^2 * (sqrt (kr*kr + kz*kz))^2),
               X2 := (1 - sin (c * sqrt (kr*kr + kz*kz) * dt)
                            / (c * sqrt (kr*kr + kz*kz)) / dt)
                      / (ep0 * (sqrt (kr*kr + kz*kz))^2),
               X3 := (cos (c * sqrt (kr*kr + kz*kz) * dt)
                        - sin (c * sqrt (kr*kr + kz*kz) * dt)
                            / (c * sqrt (kr*kr + kz*kz)) / dt)
                      / (ep0 * (sqrt (kr*kr + kz*kz))^2) } := by
  have h1 : c * sqrt (kr*kr + kz*kz) ≠ 0 := mul_ne_zero hc hk
  have h2 : ep0 * c * c * sqrt (kr*kr + kz*kz) * sqrt (kr*kr + kz*kz) ≠ 0 :=
    mul_ne_zero (mul_ne_zero (mul_ne_zero (mul_ne_zero hep0 hc) hc) hk) hk
  have h3 : ep0 * sqrt (kr*kr + kz*kz) * sqrt (kr*kr + kz*kz) ≠ 0 :=
    mul_ne_zero (mul_ne_zero hep0 hk) hk
  simp only [InitializeSpectralCoefficients, hk, ne_eq, not_false_eq_true, if_true,
    checkedDiv_of_ne _ h1, checkedDiv_of_ne _ h2, checkedDiv_of_ne _ h3,
    checkedDiv_of_ne _ hdt, Option.bind_eq_bind, Option.some_bind, Option.pure_def]
  congr 2
  · congr 1
    ring
  · congr 1
    ring
  · congr 1
    ring

/-- C7. At a spectral point whose `k_norm = sqrt (kr^2 + kz^2)` is zero the kernel of
`InitializeSpectralCoefficients` stores `C = 1`, `S_ck = dt`, `X1 = dt^2/(2 ep0)`,
`X2 = c^2 dt^2/(6 ep0)`, `X3 = -c^2 dt^2/(3 ep0)`; at a point with `k_norm ≠ 0` it
stores `C = cos (c k dt)`, `S_ck = sin (c k dt)/(c k)`, `X1 = (1 - C)/(ep0 c^2 k^2)`,
`X2 = (1 - S_ck/dt)/(ep0 k^2)`, `X3 = (C - S_ck/dt)/(ep0 k^2)`; and with `dt ≠ 0` (and
the physical constants `c`, `ep0` nonzero) no division of either branch has a zero
divisor: the checked kernel returns a value in both branches. -/
theorem InitializeSpectralCoefficients_values (sqrt cos sin : R → R) (c ep0 dt kr kz : R)
    (hc : c ≠ 0) (hep0 : ep0 ≠ 0) (hdt : dt ≠ 0) :
    (sqrt (kr*kr + kz*kz) = 0 →
      InitializeSpectralCoefficients sqrt cos sin c ep0 dt kr kz
        = some { C := 1, S_ck := dt, X1 := dt^2/(2*ep0), X2 := c^2*dt^2/(6*ep0),
                 X3 := -(c^2*dt^2/(3*ep0)) }) ∧
    (sqrt (kr*kr + kz*kz) ≠ 0 →
      InitializeSpectralCoefficients sqrt cos sin c ep0 dt kr kz
        = some { C := cos (c * sqrt (kr*kr + kz*kz) * dt),
                 S_ck := sin (c * sqrt (kr*kr + kz*kz) * dt) / (c * sqrt (kr*kr + kz*kz)),
                 X1 := (1 - cos (c * sqrt (kr*kr + kz*kz) * dt))
                        / (ep0 * c^2 * (sqrt (kr*kr + kz*kz))^2),
                 X2 := (1 - sin (c * sqrt (kr*kr + kz*kz) * dt)
                              / (c * sqrt (kr*kr + kz*kz)) / dt)
                        / (ep0 * (sqrt (kr*kr + kz*kz))^2),
                 X3 := (cos (c * sqrt (kr*kr + kz*kz) * dt)
                          - sin (c * sqrt (kr*kr + kz*kz) * dt)
                              / (c * sqrt (kr*kr + kz*kz)) / dt)
                        / (ep0 * (sqrt (kr*kr + kz*kz))^2) }) :=
  ⟨InitializeSpectralCoefficients_zero sqrt cos sin c ep0 dt kr kz hep0,
   InitializeSpectralCoefficients_general sqrt cos sin c ep0 dt kr kz hc hep0 hdt⟩

/-- Witness of C7 on the rationals, with the identity in place of `sqrt` and of `sin` and
the constant 1 in place of `cos`: `c = 2`, `ep0 = 3`, `dt = 1/2`, `kr = 1`, `kz = 2`. -/
theorem InitializeSpectralCoefficients_values_witness :
    ((2:ℚ) ≠ 0 ∧ (3:ℚ) ≠ 0 ∧ (1/2:ℚ) ≠ 0) ∧
    (((fun x : ℚ => x) (1*1 + 2*2) = 0 →
      InitializeSpectralCoefficients (fun x : ℚ => x) (fun _ => 1) (fun x => x) 2 3 (1/2) 1 2
        = some { C := 1, S_ck := 1/2, X1 := (1/2)^2/(2*3), X2 := 2^2*(1/2)^2/(6*3),
                 X3 := -(2^2*(1/2)^2/(3*3)) }) ∧
    ((fun x : ℚ => x) (1*1 + 2*2) ≠ 0 →
      InitializeSpectralCoefficients (fun x : ℚ => x) (fun _ => 1) (fun x => x) 2 3 (1/2) 1 2
        = some { C := (fun _ : ℚ => (1:ℚ)) (2 * (fun x : ℚ => x) (1*1 + 2*2) * (1/2)),
                 S_ck := (fun x : ℚ => x) (2 * (fun x : ℚ => x) (1*1 + 2*2) * (1/2))
                          / (2 * (fun x : ℚ => x) (1*1 + 2*2)),
                 X1 := (1 - (fun _ : ℚ => (1:ℚ)) (2 * (fun x : ℚ => x) (1*1 + 2*2) * (1/2)))
                        / (3 * 2^2 * ((fun x : ℚ => x) (1*1 + 2*2))^2),
                 X2 := (1 - (fun x : ℚ => x) (2 * (fun x : ℚ => x) (1*1 + 2*2) * (1/2))
                              / (2 * (fun x : ℚ => x) (1*1 + 2*2)) / (1/2))
                        / (3 * ((fun x : ℚ => x) (1*1 + 2*2))^2),
                 X3 := ((fun _ : ℚ => (1:ℚ)) (2 * (fun x : ℚ => x) (1*1 + 2*2) * (1/2))
                          - (fun x : ℚ => x) (2 * (fun x : ℚ => x) (1*1 + 2*2) * (1/2))
                              / (2 * (fun x : ℚ => x) (1*1 + 2*2)) / (1/2))
                        / (3 * ((fun x : ℚ => x) (1*1 + 2*2))^2) })) :=
  ⟨⟨by norm_num, by norm_num, by norm_num⟩,
    InitializeSpectralCoefficients_values (fun x : ℚ => x) (fun _ => 1) (fun x => x)
      2 3 (1/2) 1 2 (by norm_num) (by norm_num) (by norm_num)⟩

end PsatdAlgorithmRZ

namespace PsatdAlgorithmRZ

/-! ### The `k_norm = 0` branch as the limit of the general branch (real numbers) -/

theorem sin_sub_cubic_bound {x : ℝ} (hx : |x| ≤ 1) :
    |Real.sin x - (x - x^3/6)| ≤ |x|^5 / 100 := by
  have habs : Complex.abs ((x : ℂ) * Complex.I) = |x| := by simp
  have h := Complex.exp_bound (x := (x : ℂ) * Complex.I) (by rw [habs]; exact hx)
    (n := 5) (by norm_num)
  have hI3 : Complex.I ^ 3 = -Complex.I := by
    rw [pow_succ, Complex.I_sq]; ring
  have hI4 : Complex.I ^ 4 = 1 := Complex.I_pow_four
  have him : (Complex.exp ((x : ℂ) * Complex.I)
      - ∑ m in Finset.range 5, ((x : ℂ) * Complex.I)^m / (m.factorial : ℂ)).im
      = Real.sin x - (x - x^3/6) := by
    have hs : ∑ m in Finset.range 5, ((x : ℂ) * Complex.I)^m / (m.factorial : ℂ)
        = ((1 - x^2/2 + x^4/24 : ℝ) : ℂ) + ((x - x^3/6 : ℝ) : ℂ) * Complex.I := by
      simp only [Finset.sum_range_succ, Finset.sum_range_zero, mul_pow, Complex.I_sq, hI3, hI4,
        Nat.factorial]
      push_cast
      ring
    rw [hs, Complex.sub_im, Complex.exp_ofReal_mul_I_im, Complex.add_im, Complex.ofReal_im,
      Complex.mul_I_im, Complex.ofReal_re]
    ring
  calc |Real.sin x - (x - x^3/6)|
      = |(Complex.exp ((x : ℂ) * Complex.I)
          - ∑ m in Finset.range 5, ((x : ℂ) * Complex.I)^m / (m.factorial : ℂ)).im| := by
        rw [him]
    _ ≤ Complex.abs (Complex.exp ((x : ℂ) * Complex.I)
          - ∑ m in Finset.range 5, ((x : ℂ) * Complex.I)^m / (m.factorial : ℂ)) :=
        Complex.abs_im_le_abs _
    _ ≤ Complex.abs ((x : ℂ) * Complex.I) ^ 5
          * (((Nat.succ 5 : ℕ) : ℝ) * (((Nat.factorial 5 : ℕ) : ℝ) * ((5 : ℕ) : ℝ))⁻¹) := h
    _ = |x|^5 / 100 := by
        rw [habs]
        norm_num [Nat.factorial]
        ring

theorem coef_bounds_aux (c ep0 dt k co s x : ℝ) (hc : 0 < c) (hep0 : 0 < ep0) (hdt : 0 < dt)
    (hk : 0 < k) (hx : x = c*k*dt) (hx1 : x ≤ 1)
    (hco : |co - (1 - x^2/2)| ≤ x^4 * (5/96))
    (hs : |s - (x - x^3/6)| ≤ x^5 / 100) :
    |co - 1| ≤ x^2 * |(1:ℝ)| ∧
    |s/(c*k) - dt| ≤ x^2 * |dt| ∧
    |(1 - co)/(ep0*c^2*k^2) - dt^2/(2*ep0)| ≤ x^2 * |dt^2/(2*ep0)| ∧
    |(1 - s/(c*k)/dt)/(ep0*k^2) - c^2*dt^2/(6*ep0)| ≤ x^2 * |c^2*dt^2/(6*ep0)| ∧
    |(co - s/(c*k)/dt)/(ep0*k^2) - (-(c^2*dt^2/(3*ep0)))|
      ≤ x^2 * |(-(c^2*dt^2/(3*ep0)))| := by
  have hx0 : 0 < x := by rw [hx]; positivity
  have hx2 : x^2 ≤ 1 := by nlinarith
  have hx3 : x^3 ≤ x^2 := by nlinarith
  have hx4 : x^4 ≤ x^2 := by nlinarith [sq_nonneg x]
  have hx5 : x^5 ≤ x^4 := by nlinarith [sq_nonneg (x^2)]
  have hx43 : x^4 ≤ x^3 := by nlinarith [sq_nonneg x, pow_pos hx0 3]
  obtain ⟨hco1, hco2⟩ := abs_le.mp hco
  obtain ⟨hs1, hs2⟩ := abs_le.mp hs
  have hck : 0 < c*k := by positivity
  have hD1 : 0 < ep0*c^2*k^2 := by positivity
  have hD2 : 0 < ep0*k^2 := by positivity
  have hD : 0 < x*(ep0*k^2) := by positivity
  have p3 := pow_pos hx0 3
  have p4 := pow_pos hx0 4
  have p5 := pow_pos hx0 5
  refine ⟨?_, ?_, ?_, ?_, ?_⟩
  · rw [abs_one, mul_one, abs_le]
    constructor <;> linarith
  · have e : s/(c*k) - dt = (s - x)/(c*k) := by
      rw [hx]; field_simp
    rw [e, abs_div, abs_of_pos hck, abs_of_pos hdt, div_le_iff₀ hck]
    have e2 : x^2 * dt * (c*k) = x^3 := by rw [hx]; ring
    rw [e2, abs_le]
    constructor <;> linarith
  · have e : (1 - co)/(ep0*c^2*k^2) - dt^2/(2*ep0) = (1 - co - x^2/2)/(ep0*c^2*k^2) := by
      rw [hx]; field_simp; ring
    have hz : 0 < dt^2/(2*ep0) := by positivity
    rw [e, abs_div, abs_of_pos hD1, abs_of_pos hz, div_le_iff₀ hD1]
    have e2 : x^2 * (dt^2/(2*ep0)) * (ep0*c^2*k^2) = x^4/2 := by
      rw [hx]; field_simp; ring
    rw [e2, abs_le]
    constructor <;> linarith
  · have e : (1 - s/(c*k)/dt)/(ep0*k^2) - c^2*dt^2/(6*ep0)
        = (x - s - x^3/6)/(x*(ep0*k^2)) := by
      rw [hx]; field_simp; ring
    have hz : 0 < c^2*dt^2/(6*ep0) := by positivity
    rw [e, abs_div, abs_of_pos hD, abs_of_pos hz, div_le_iff₀ hD]
    have e2 : x^2 * (c^2*dt^2/(6*ep0)) * (x*(ep0*k^2)) = x^5/6 := by
      rw [hx]; field_simp; ring
    rw [e2, abs_le]
    constructor <;> linarith
  · have e : (co - s/(c*k)/dt)/(ep0*k^2) - (-(c^2*dt^2/(3*ep0)))
        = (x*(co - (1 - x^2/2)) - (s - (x - x^3/6)))/(x*(ep0*k^2)) := by
      rw [hx]; field_simp; ring
    have hz : 0 < c^2*dt^2/(3*ep0) := by positivity
    rw [e, abs_div, abs_of_pos hD, abs_neg, abs_of_pos hz, div_le_iff₀ hD]
    have e2 : x^2 * (c^2*dt^2/(3*ep0)) * (x*(ep0*k^2)) = x^5/3 := by
      rw [hx]; field_simp; ring
    have h1 : x * (co - (1 - x^2/2)) ≤ x^5 * (5/96) := by
      have := mul_le_mul_of_nonneg_left hco2 hx0.le
      linarith
    have h2 : -(x^5 * (5/96)) ≤ x * (co - (1 - x^2/2)) := by
      have := mul_le_mul_of_nonneg_left hco1 hx0.le
      linarith
    rw [e2, abs_le]
    constructor <;> linarith

theorem lt_of_le_mul_sq (A k ε t b : ℝ) (hk0 : 0 < k) (hk1 : k < 1)
    (hkε : k < ε/(A+1)) (hb : 0 ≤ b) (hbA : b ≤ A) (h : t ≤ b * k^2) : t < ε := by
  have hA : 0 ≤ A := le_trans hb hbA
  have hA1 : 0 < A + 1 := by linarith
  have h1 : k * (A + 1) < ε := (lt_div_iff₀ hA1).mp hkε
  have h2 : b * k^2 ≤ A * k^2 := mul_le_mul_of_nonneg_right hbA (sq_nonneg k)
  have h3 : A * k^2 ≤ A * k := by
    apply mul_le_mul_of_nonneg_left _ hA
    nlinarith
  nlinarith

/-- Quantitative form: below `k_norm = 1/(c dt)` the general branch is within relative
distance `c^2 (k_norm dt)^2` of the `k_norm = 0` values. -/
theorem general_relClose_zero (c ep0 dt kr kz : ℝ) (hc : 0 < c) (hep0 : 0 < ep0)
    (hdt : 0 < dt) (hk : Real.sqrt (kr*kr + kz*kz) ≠ 0)
    (hkδ : Real.sqrt (kr*kr + kz*kz) < 1/(c*dt)) :
    ∃ g, InitializeSpectralCoefficients Real.sqrt Real.cos Real.sin c ep0 dt kr kz = some g ∧
      g.relClose { C := 1, S_ck := dt, X1 := dt^2/(2*ep0), X2 := c^2*dt^2/(6*ep0),
                   X3 := -(c^2*dt^2/(3*ep0)) }
        (c^2 * (Real.sqrt (kr*kr + kz*kz) * dt)^2) := by
  refine ⟨_, InitializeSpectralCoefficients_general Real.sqrt Real.cos Real.sin c ep0 dt kr kz
    hc.ne' hep0.ne' hdt.ne' hk, ?_⟩
  obtain ⟨k, hkdef⟩ : ∃ k, k = Real.sqrt (kr*kr + kz*kz) := ⟨_, rfl⟩
  rw [← hkdef] at hk hkδ ⊢
  have hk0 : 0 < k := lt_of_le_of_ne (hkdef ▸ Real.sqrt_nonneg _) (Ne.symm hk)
  have hcdt : 0 < c*dt := mul_pos hc hdt
  have hx1 : c*k*dt ≤ 1 := by
    have := (lt_div_iff₀ hcdt).mp hkδ
    nlinarith
  have hx0 : 0 < c*k*dt := by positivity
  have habs : |c*k*dt| = c*k*dt := abs_of_pos hx0
  have hco := Real.cos_bound (x := c*k*dt) (by rw [habs]; exact hx1)
  have hs := sin_sub_cubic_bound (x := c*k*dt) (by rw [habs]; exact hx1)
  rw [habs] at hco hs
  have hxx : c^2 * (k*dt)^2 = (c*k*dt)^2 := by ring
  rw [hxx]
  exact coef_bounds_aux c ep0 dt k (Real.cos (c*k*dt)) (Real.sin (c*k*dt)) (c*k*dt)
    hc hep0 hdt hk0 rfl hx1 hco hs

/-- C8. On the real numbers, with `dt > 0`, `c > 0`, `ep0 > 0` fixed, the coefficients
`C`, `S_ck`, `X1`, `X2`, `X3` stored by the general branch of
`InitializeSpectralCoefficients` converge, as `k_norm → 0` with `k_norm ≠ 0`, to the
closed-form values `z` stored by the `k_norm = 0` branch, and the difference of each
from its limit value is at most `M (k_norm dt)^2` times the absolute value of that limit
value, for a constant `M` and all small enough `k_norm ≠ 0`. -/
theorem InitializeSpectralCoefficients_zero_branch_is_limit (c ep0 dt : ℝ)
    (hc : 0 < c) (hep0 : 0 < ep0) (hdt : 0 < dt) :
    ∃ z : SpectralCoefficients ℝ,
      InitializeSpectralCoefficients Real.sqrt Real.cos Real.sin c ep0 dt 0 0 = some z ∧
      (∃ M δ : ℝ, 0 < δ ∧ ∀ kr kz : ℝ,
        Real.sqrt (kr*kr + kz*kz) ≠ 0 → Real.sqrt (kr*kr + kz*kz) < δ →
        ∃ g, InitializeSpectralCoefficients Real.sqrt Real.cos Real.sin c ep0 dt kr kz
              = some g ∧
          g.relClose z (M * (Real.sqrt (kr*kr + kz*kz) * dt)^2)) ∧
      (∀ ε : ℝ, 0 < ε → ∃ δ : ℝ, 0 < δ ∧ ∀ kr kz : ℝ,
        Real.sqrt (kr*kr + kz*kz) ≠ 0 → Real.sqrt (kr*kr + kz*kz) < δ →
        ∃ g, InitializeSpectralCoefficients Real.sqrt Real.cos Real.sin c ep0 dt kr kz
              = some g ∧
          g.absClose z ε) := by
  have hcdt : 0 < c*dt := mul_pos hc hdt
  refine ⟨{ C := 1, S_ck := dt, X1 := dt^2/(2*ep0), X2 := c^2*dt^2/(6*ep0),
            X3 := -(c^2*dt^2/(3*ep0)) },
    InitializeSpectralCoefficients_zero Real.sqrt Real.cos Real.sin c ep0 dt 0 0 hep0.ne'
      (by simp), ⟨c^2, 1/(c*dt), by positivity, ?_⟩, ?_⟩
  · intro kr kz hk hkδ
    exact general_relClose_zero c ep0 dt kr kz hc hep0 hdt hk hkδ
  · intro ε hε
    obtain ⟨A, hA⟩ : ∃ A, A = c^2*dt^2*(|(1:ℝ)| + |dt| + |dt^2/(2*ep0)|
        + |c^2*dt^2/(6*ep0)| + |(-(c^2*dt^2/(3*ep0)))|) := ⟨_, rfl⟩
    have hcd : 0 ≤ c^2*dt^2 := by positivity
    have hA0 : 0 ≤ A := by rw [hA]; positivity
    have hA1 : 0 < A + 1 := by linarith
    refine ⟨min (1/(c*dt)) (min 1 (ε/(A+1))), by positivity, ?_⟩
    intro kr kz hk hkδ
    have hk1 : Real.sqrt (kr*kr + kz*kz) < 1/(c*dt) := lt_of_lt_of_le hkδ (min_le_left _ _)
    have hk2 : Real.sqrt (kr*kr + kz*kz) < 1 :=
      lt_of_lt_of_le hkδ (le_trans (min_le_right _ _) (min_le_left _ _))
    have hk3 : Real.sqrt (kr*kr + kz*kz) < ε/(A+1) :=
      lt_of_lt_of_le hkδ (le_trans (min_le_right _ _) (min_le_right _ _))
    obtain ⟨g, hg, hrel⟩ := general_relClose_zero c ep0 dt kr kz hc hep0 hdt hk hk1
    refine ⟨g, hg, ?_⟩
    obtain ⟨k, hkdef⟩ : ∃ k, k = Real.sqrt (kr*kr + kz*kz) := ⟨_, rfl⟩
    rw [← hkdef] at hk hk2 hk3 hrel
    have hk0 : 0 < k := lt_of_le_of_ne (hkdef ▸ Real.sqrt_nonneg _) (Ne.symm hk)
    have key : ∀ t zi : ℝ, c^2*dt^2*|zi| ≤ A → t ≤ c^2 * (k*dt)^2 * |zi| → t < ε := by
      intro t zi hzi ht
      refine lt_of_le_mul_sq A k ε t (c^2*dt^2*|zi|) hk0 hk2 hk3 (by positivity) hzi ?_
      calc t ≤ c^2 * (k*dt)^2 * |zi| := ht
        _ = c^2*dt^2*|zi| * k^2 := by ring
    have n1 := abs_nonneg (1:ℝ)
    have n2 := abs_nonneg dt
    have n3 := abs_nonneg (dt^2/(2*ep0))
    have n4 := abs_nonneg (c^2*dt^2/(6*ep0))
    have n5 := abs_nonneg (-(c^2*dt^2/(3*ep0)))
    obtain ⟨h1, h2, h3, h4, h5⟩ := hrel
    refine ⟨key _ _ ?_ h1, key _ _ ?_ h2, key _ _ ?_ h3, key _ _ ?_ h4, key _ _ ?_ h5⟩
    all_goals
      rw [hA]
      apply mul_le_mul_of_nonneg_left _ hcd
      linarith

/-- Witness of C8: `c = 1`, `ep0 = 1`, `dt = 1`. -/
theorem InitializeSpectralCoefficients_zero_branch_is_limit_witness :
    ((0:ℝ) < 1 ∧ (0:ℝ) < 1 ∧ (0:ℝ) < 1) ∧
    ∃ z : SpectralCoefficients ℝ,
      InitializeSpectralCoefficients Real.sqrt Real.cos Real.sin 1 1 1 0 0 = some z ∧
      (∃ M δ : ℝ, 0 < δ ∧ ∀ kr kz : ℝ,
        Real.sqrt (kr*kr + kz*kz) ≠ 0 → Real.sqrt (kr*kr + kz*kz) < δ →
        ∃ g, InitializeSpectralCoefficients Real.sqrt Real.cos Real.sin 1 1 1 kr kz
              = some g ∧
          g.relClose z (M * (Real.sqrt (kr*kr + kz*kz) * 1)^2)) ∧
      (∀ ε : ℝ, 0 < ε → ∃ δ : ℝ, 0 < δ ∧ ∀ kr kz : ℝ,
        Real.sqrt (kr*kr + kz*kz) ≠ 0 → Real.sqrt (kr*kr + kz*kz) < δ →
        ∃ g, InitializeSpectralCoefficients Real.sqrt Real.cos Real.sin 1 1 1 kr kz
              = some g ∧
          g.absClose z ε) :=
  ⟨⟨one_pos, one_pos, one_pos⟩,
    InitializeSpectralCoefficients_zero_branch_is_limit 1 1 1 one_pos one_pos one_pos⟩

end PsatdAlgorithmRZ

namespace WarpX

variable {R : Type} [LinearOrderedField R]

/-- The body of the loop, when the dispatch of the main PIC operation selects a routine:
what it returns and what it leaves unchanged. -/
theorem Evolve_body_spec (w : WarpX R) (numsteps_max step : Int) (cur_time : R)
    (m : MainStep) (hm : Evolve_mainStep w = Outcome.ok m) :
    ∃ w1 : WarpX R,
      Evolve_body w numsteps_max step cur_time
        = Outcome.ok (w1, cur_time + w.dt 0, m,
            decide (cur_time + w.dt 0 ≥ w.stop_time - (1/1000 : R)*w.dt 0)) ∧
      w1.is_synchronized
        = decide (cur_time + w.dt 0 ≥ w.stop_time - (1/1000 : R)*w.dt 0
                    ∨ step = numsteps_max - 1) ∧
      w1.istep 0 = w.istep 0 + 1 ∧
      w1.stop_time = w.stop_time ∧ w1.dt = w.dt ∧ Evolve_mainStep w1 = Outcome.ok m := by
  have hdisp : ∀ (b : Bool) (f : Nat → Int) (g : Nat → R),
      Evolve_mainStep { w with is_synchronized := b, istep := f, t_new := g }
        = Evolve_mainStep w := fun _ _ _ => rfl
  unfold Evolve_body
  simp only [hm]
  refine ⟨_, rfl, ?_, ?_, rfl, rfl, ?_⟩
  · by_cases hs : cur_time + w.dt 0 ≥ w.stop_time - (1/1000 : R)*w.dt 0
        ∨ step = numsteps_max - 1
    · simp [hs]
    · cases h : w.is_synchronized <;> simp [hs]
  · simp
  · rw [hdisp, hm]

/-- The loop of `WarpX::Evolve` returns whenever the dispatch of the main PIC operation
selects a routine and `dt[0] > 0`; the iterations it executed and the state it leaves. -/
theorem Evolve_loop_spec (numsteps_max : Int) (m : MainStep) :
    ∀ (n : Nat) (step : Int) (cur_time : R) (w : WarpX R),
      (numsteps_max - step).toNat = n → 0 < w.dt 0 → Evolve_mainStep w = Outcome.ok m →
      ∃ res : EvolveResult R, Evolve_loop numsteps_max step cur_time w = Outcome.ok res ∧
        (∀ r ∈ res.iterations,
          step ≤ r.step ∧ r.step < numsteps_max ∧ r.cur_time < w.stop_time) ∧
        ((step < numsteps_max ∧ cur_time < w.stop_time) → res.iterations ≠ []) ∧
        (∀ r ∈ res.iterations.dropLast, r.after.is_synchronized = false) ∧
        (∀ r, res.iterations.getLast? = some r →
          r.after.is_synchronized = true ∧ res.final = r.after) ∧
        (res.iterations = [] → res.final = w ∧ res.cur_time = cur_time) ∧
        (w.istep 0 = step → step ≤ numsteps_max →
          res.final.istep 0 = numsteps_max
            ∨ res.cur_time ≥ w.stop_time - (1/1000 : R) * w.dt 0) := by
  intro n
  induction n with
  | zero =>
    intro step cur_time w hn hdt hm
    have hge : numsteps_max ≤ step := by omega
    have hcond : ¬ (step < numsteps_max ∧ cur_time < w.stop_time) := fun h => by omega
    rw [Evolve_loop, dif_neg hcond]
    refine ⟨_, rfl, ?_, ?_, ?_, ?_, ?_, ?_⟩
    · intro r hr
      simp at hr
    · intro h
      exact absurd h hcond
    · intro r hr
      simp at hr
    · intro r hr
      simp at hr
    · intro _
      exact ⟨rfl, rfl⟩
    · intro h1 h2
      left
      show w.istep 0 = numsteps_max
      omega
  | succ n ih =>
    intro step cur_time w hn hdt hm
    by_cases hcond : step < numsteps_max ∧ cur_time < w.stop_time
    · obtain ⟨w1, hbody, hsync, histep, hstop, hdt1, hm1⟩ :=
        Evolve_body_spec w numsteps_max step cur_time m hm
      rw [Evolve_loop, dif_pos hcond]
      simp only [hbody]
      by_cases hbrk : cur_time + w.dt 0 ≥ w.stop_time - (1/1000 : R) * w.dt 0
      · simp only [hbrk, decide_True, if_true]
        refine ⟨_, rfl, ?_, ?_, ?_, ?_, ?_, ?_⟩
        · intro r hr
          simp only [List.mem_singleton] at hr
          subst hr
          exact ⟨le_refl _, hcond.1, hcond.2⟩
        · intro _
          simp
        · intro r hr
          simp at hr
        · intro r hr
          simp only [List.getLast?_singleton, Option.some.injEq] at hr
          subst hr
          refine ⟨?_, rfl⟩
          show w1.is_synchronized = true
          rw [hsync]
          exact decide_eq_true (Or.inl hbrk)
        · intro h
          simp at h
        · intro _ _
          right
          exact hbrk
      · simp only [hbrk, decide_False, Bool.false_eq_true, if_false]
        have hn1 : (numsteps_max - (step + 1)).toNat = n := by omega
        have hdt1' : 0 < w1.dt 0 := by rw [hdt1]; exact hdt
        obtain ⟨res, hres, hA, hB, hC, hD, hE, hF⟩ :=
          ih (step + 1) (cur_time + w.dt 0) w1 hn1 hdt1' hm1
        rw [hres]
        have ht1 : cur_time + w.dt 0 < w1.stop_time := by
          rw [hstop]
          have := not_le.mp hbrk
          have h2 : 0 < (1/1000 : R) * w.dt 0 := by positivity
          linarith
        have hsync1 : w1.is_synchronized = decide (step = numsteps_max - 1) := by
          rw [hsync, decide_eq_decide]
          exact ⟨fun h => h.resolve_left hbrk, Or.inr⟩
        refine ⟨_, rfl, ?_, ?_, ?_, ?_, ?_, ?_⟩
        · intro r hr
          simp only [List.mem_cons] at hr
          rcases hr with hr | hr
          · subst hr
            exact ⟨le_refl _, hcond.1, hcond.2⟩
          · obtain ⟨h1, h2, h3⟩ := hA r hr
            exact ⟨by omega, h2, hstop ▸ h3⟩
        · intro _
          simp
        · intro r hr
          cases hl : res.iterations with
          | nil =>
            simp [hl] at hr
          | cons a l =>
            simp only [hl, List.dropLast_cons₂, List.mem_cons] at hr
            rcases hr with hr | hr
            · subst hr
              show w1.is_synchronized = false
              have ha := hA a (by rw [hl]; simp)
              rw [hsync1]
              simp only [decide_eq_false_iff_not]
              omega
            · apply hC
              rw [hl]
              exact hr
        · intro r hr
          cases hl : res.iterations with
          | nil =>
            simp only [hl, List.getLast?_singleton, Option.some.injEq] at hr
            subst hr
            have hnil := hE hl
            refine ⟨?_, hnil.1⟩
            show w1.is_synchronized = true
            have hnot : ¬ (step + 1 < numsteps_max ∧ cur_time + w.dt 0 < w1.stop_time) :=
              fun h => hB h hl
            have : ¬ (step + 1 < numsteps_max) := fun h => hnot ⟨h, ht1⟩
            rw [hsync1]
            simp only [decide_eq_true_eq]
            omega
          | cons a l =>
            simp only [hl, List.getLast?_cons_cons] at hr
            exact hD r (by rw [hl]; exact hr)
        · intro h
          simp at h
        · intro h1 h2
          have := hF (by rw [histep, h1]) (by omega)
          rw [hstop, hdt1] at this
          exact this
    · rw [Evolve_loop, dif_neg hcond]
      refine ⟨_, rfl, ?_, ?_, ?_, ?_, ?_, ?_⟩
      · intro r hr
        simp at hr
      · intro h
        exact absurd h hcond
      · intro r hr
        simp at hr
      · intro r hr
        simp at hr
      · intro _
        exact ⟨rfl, rfl⟩
      · intro h1 h2
        by_cases hs : step < numsteps_max
        · right
          have : ¬ cur_time < w.stop_time := fun h => hcond ⟨hs, h⟩
          have h3 := not_lt.mp this
          have h4 : 0 < (1/1000 : R) * w.dt 0 := by positivity
          show cur_time ≥ w.stop_time - (1/1000 : R) * w.dt 0
          linarith
        · left
          show w.istep 0 = numsteps_max
          omega

end WarpX

namespace WarpX

variable {R : Type} [LinearOrderedField R]

/-- C1. In `WarpX::Evolve`, with `dt[0] > 0`, `is_synchronized = true` on entry and at
least one iteration executed (the loop condition holds on entry and the dispatch of the
main PIC operation selects a routine), the call returns, `is_synchronized` is false at the
end of every executed iteration except the last, it is true at the end of the last one, so
it is true at the end of exactly one iteration, and `Evolve` returns with
`is_synchronized = true`. -/
theorem Evolve_is_synchronized_protocol (w : WarpX R) (numsteps : Int) (m : MainStep)
    (hdt : 0 < w.dt 0) (_hsync : w.is_synchronized = true)
    (hiter : w.istep 0 < Evolve_numsteps_max w numsteps ∧ w.t_new 0 < w.stop_time)
    (hm : Evolve_mainStep w = Outcome.ok m) :
    ∃ res : EvolveResult R, Evolve w numsteps = Outcome.ok res ∧
      res.iterations ≠ [] ∧
      (∀ r ∈ res.iterations.dropLast, r.after.is_synchronized = false) ∧
      (∀ r, res.iterations.getLast? = some r → r.after.is_synchronized = true) ∧
      (res.iterations.map (fun r => r.after.is_synchronized)).count true = 1 ∧
      res.final.is_synchronized = true := by
  obtain ⟨res, hres, _, hB, hC, hD, _, _⟩ :=
    Evolve_loop_spec (Evolve_numsteps_max w numsteps) m _ (w.istep 0) (w.t_new 0) w rfl hdt hm
  have hne := hB hiter
  obtain ⟨r, hr⟩ : ∃ r, res.iterations.getLast? = some r := by
    cases hl : res.iterations with
    | nil => exact absurd hl hne
    | cons a l => exact ⟨_, List.getLast?_eq_getLast _ (by simp)⟩
  have hsplit : res.iterations.dropLast ++ [r] = res.iterations :=
    List.dropLast_append_getLast? r (by rw [hr]; simp)
  refine ⟨res, hres, hne, hC, fun r hr => (hD r hr).1, ?_, ?_⟩
  · rw [← hsplit, List.map_append, List.count_append]
    have h0 : (res.iterations.dropLast.map (fun r => r.after.is_synchronized)).count true
        = 0 := by
      rw [List.count_eq_zero]
      intro hmem
      obtain ⟨a, ha, hat⟩ := List.mem_map.mp hmem
      rw [hC a ha] at hat
      exact Bool.false_ne_true hat
    rw [h0]
    simp [(hD r hr).1]
  · rw [(hD r hr).2]
    exact (hD r hr).1

/-- Witness of C1: three steps of `dt[0] = 1/4` up to the step limit. -/
theorem Evolve_is_synchronized_protocol_witness :
    ((0:ℚ) < sampleWarpXSteps.dt 0 ∧ sampleWarpXSteps.is_synchronized = true ∧
      (sampleWarpXSteps.istep 0 < Evolve_numsteps_max sampleWarpXSteps (-1)
        ∧ sampleWarpXSteps.t_new 0 < sampleWarpXSteps.stop_time) ∧
      Evolve_mainStep sampleWarpXSteps = Outcome.ok MainStep.OneStep_nosub) ∧
    ∃ res : EvolveResult ℚ, Evolve sampleWarpXSteps (-1) = Outcome.ok res ∧
      res.iterations ≠ [] ∧
      (∀ r ∈ res.iterations.dropLast, r.after.is_synchronized = false) ∧
      (∀ r, res.iterations.getLast? = some r → r.after.is_synchronized = true) ∧
      (res.iterations.map (fun r => r.after.is_synchronized)).count true = 1 ∧
      res.final.is_synchronized = true :=
  ⟨⟨by norm_num [sampleWarpXSteps], rfl,
      by norm_num [sampleWarpXSteps, sampleWarpX, Evolve_numsteps_max], rfl⟩,
    Evolve_is_synchronized_protocol sampleWarpXSteps (-1) MainStep.OneStep_nosub
      (by norm_num [sampleWarpXSteps]) rfl
      (by norm_num [sampleWarpXSteps, sampleWarpX, Evolve_numsteps_max]) rfl⟩

end WarpX

namespace WarpX

variable {R : Type} [LinearOrderedField R]

/-- C2, counterexample. With `max_step = 100`, `stop_time = 1`, `dt[0] = 0.9995` and
`istep[0] = 0`, `t_new[0] = 0`, the call `Evolve(-1)` returns after one iteration, taken
out of the loop by the `break`, with `istep[0] = 1`, different from the step limit 100, and
`cur_time = 0.9995 < stop_time`. -/
theorem Evolve_return_counterexample :
    ∃ res : EvolveResult ℚ, Evolve sampleWarpX (-1) = Outcome.ok res ∧
      sampleWarpX.istep 0 ≤ Evolve_numsteps_max sampleWarpX (-1) ∧
      0 < sampleWarpX.dt 0 ∧
      ¬ (res.final.istep 0 = Evolve_numsteps_max sampleWarpX (-1)
          ∨ res.cur_time ≥ sampleWarpX.stop_time) := by
  have hcond : (sampleWarpX.istep 0 < 100 ∧ sampleWarpX.t_new 0 < sampleWarpX.stop_time) := by
    norm_num [sampleWarpX]
  have hns : Evolve_numsteps_max sampleWarpX (-1) = 100 := by
    simp [Evolve_numsteps_max, sampleWarpX]
  have hE : ∃ res : EvolveResult ℚ, Evolve sampleWarpX (-1) = Outcome.ok res ∧
      res.final.istep 0 = 1 ∧ res.cur_time = 1999/2000 := by
    rw [Evolve]
    simp only [hns]
    rw [Evolve_loop, dif_pos hcond]
    simp [Evolve_body, Evolve_mainStep, sampleWarpX]
    norm_num
  obtain ⟨res, hres, h1, h2⟩ := hE
  refine ⟨res, hres, ?_, ?_, ?_⟩
  · rw [hns]
    norm_num [sampleWarpX]
  · norm_num [sampleWarpX]
  · rw [hns, h1, h2]
    norm_num [sampleWarpX]

/-- C2, amended. With the step limit `numsteps_max` (`max_step` when `numsteps < 0`,
`min (istep[0] + numsteps) max_step` otherwise), `istep[0] ≤ numsteps_max` and `dt[0] > 0`
on entry, and a dispatch of the main PIC operation that selects a routine,
`WarpX::Evolve` returns; no iteration is started with `step ≥ numsteps_max` or
`cur_time ≥ stop_time`; and on return either `istep[0] = numsteps_max` or
`cur_time ≥ stop_time - 1e-3 * dt[0]`. -/
theorem Evolve_runs_until_limit_or_stop (w : WarpX R) (numsteps : Int) (m : MainStep)
    (hle : w.istep 0 ≤ Evolve_numsteps_max w numsteps) (hdt : 0 < w.dt 0)
    (hm : Evolve_mainStep w = Outcome.ok m) :
    ∃ res : EvolveResult R, Evolve w numsteps = Outcome.ok res ∧
      (∀ r ∈ res.iterations,
        r.step < Evolve_numsteps_max w numsteps ∧ r.cur_time < w.stop_time) ∧
      (res.final.istep 0 = Evolve_numsteps_max w numsteps
        ∨ res.cur_time ≥ w.stop_time - (1/1000 : R) * w.dt 0) := by
  obtain ⟨res, hres, hA, _, _, _, _, hF⟩ :=
    Evolve_loop_spec (Evolve_numsteps_max w numsteps) m _ (w.istep 0) (w.t_new 0) w rfl hdt hm
  exact ⟨res, hres, fun r hr => (hA r hr).2, hF rfl hle⟩

/-- Witness of C2, amended: the run of `sampleWarpX`. -/
theorem Evolve_runs_until_limit_or_stop_witness :
    (sampleWarpX.istep 0 ≤ Evolve_numsteps_max sampleWarpX (-1) ∧ 0 < sampleWarpX.dt 0 ∧
      Evolve_mainStep sampleWarpX = Outcome.ok MainStep.OneStep_nosub) ∧
    ∃ res : EvolveResult ℚ, Evolve sampleWarpX (-1) = Outcome.ok res ∧
      (∀ r ∈ res.iterations,
        r.step < Evolve_numsteps_max sampleWarpX (-1) ∧ r.cur_time < sampleWarpX.stop_time) ∧
      (res.final.istep 0 = Evolve_numsteps_max sampleWarpX (-1)
        ∨ res.cur_time ≥ sampleWarpX.stop_time - (1/1000 : ℚ) * sampleWarpX.dt 0) :=
  ⟨⟨by norm_num [sampleWarpX, Evolve_numsteps_max], by norm_num [sampleWarpX], rfl⟩,
    Evolve_runs_until_limit_or_stop sampleWarpX (-1) MainStep.OneStep_nosub
      (by norm_num [sampleWarpX, Evolve_numsteps_max]) (by norm_num [sampleWarpX]) rfl⟩

/-- C3, counterexample. With subcycling on two levels (`do_subcycling = 1`,
`finest_level = 1`) and the electrostatic solver, the dispatch of the main PIC operation
does not abort: it selects `PushParticlesandDepose` with `skip_deposition = true`. -/
theorem Evolve_mainStep_electrostatic_subcycling_counterexample :
    sampleWarpXElectrostatic.do_subcycling = 1 ∧
    sampleWarpXElectrostatic.finest_level = 1 ∧
    sampleWarpXElectrostatic.do_electrostatic ≠ ElectrostaticSolverAlgo.None ∧
    Evolve_mainStep sampleWarpXElectrostatic
      = Outcome.ok (MainStep.PushParticlesandDepose true) ∧
    (Evolve_mainStep sampleWarpXElectrostatic).isAbort = false := by
  refine ⟨rfl, rfl, by decide, rfl, rfl⟩

/-- C3, amended. For every configuration with subcycling on two levels
(`do_subcycling = 1`, `finest_level = 1`) and the electrostatic solver
(`do_electrostatic ≠ None`), the dispatch of the main PIC operation selects the
electrostatic path `PushParticlesandDepose` with `skip_deposition = true` and does not
abort; the fatal error for this combination is raised by `OneStep_sub1` itself, which
aborts before making any call (so before any particle push) whenever it is called with
`do_electrostatic ≠ None`. -/
theorem Evolve_mainStep_electrostatic_subcycling (w : WarpX R) (curtime : R)
    (_hsub : w.do_subcycling = 1) (_hfl : w.finest_level = 1)
    (hes : w.do_electrostatic ≠ ElectrostaticSolverAlgo.None) :
    Evolve_mainStep w = Outcome.ok (MainStep.PushParticlesandDepose true) ∧
    OneStep_sub1 w curtime
      = { ops := [], abort := some "Electrostatic solver cannot be used with sub-cycling." } := by
  constructor
  · simp [Evolve_mainStep, hes]
  · simp [OneStep_sub1, hes]

/-- Witness of C3, amended. -/
theorem Evolve_mainStep_electrostatic_subcycling_witness :
    (sampleWarpXElectrostatic.do_subcycling = 1 ∧
      sampleWarpXElectrostatic.finest_level = 1 ∧
      sampleWarpXElectrostatic.do_electrostatic ≠ ElectrostaticSolverAlgo.None) ∧
    (Evolve_mainStep sampleWarpXElectrostatic
        = Outcome.ok (MainStep.PushParticlesandDepose true) ∧
      OneStep_sub1 sampleWarpXElectrostatic 0
        = { ops := [],
            abort := some "Electrostatic solver cannot be used with sub-cycling." }) :=
  ⟨⟨rfl, rfl, by decide⟩,
    Evolve_mainStep_electrostatic_subcycling sampleWarpXElectrostatic 0 rfl rfl (by decide)⟩

end WarpX

namespace WarpX

variable {R : Type}

/-- C4. The dispatch of the main PIC operation in an iteration of `WarpX::Evolve` has
exactly five outcomes, decided in this order of priority: electrostatic solver on gives
`PushParticlesandDepose` with `skip_deposition = true`; else `do_multi_J` gives
`OneStep_multiJ`; else `do_subcycling = 0` or `finest_level = 0` gives `OneStep_nosub`;
else `do_subcycling = 1` and `finest_level = 1` gives `OneStep_sub1`; else the fatal
abort.  In particular with the electrostatic solver off and multi-J off, subcycling with
`finest_level ≥ 2` aborts. -/
theorem Evolve_mainStep_dispatch (w : WarpX R) :
    (Evolve_mainStep w = Outcome.ok (MainStep.PushParticlesandDepose true)
      ∨ Evolve_mainStep w = Outcome.ok MainStep.OneStep_multiJ
      ∨ Evolve_mainStep w = Outcome.ok MainStep.OneStep_nosub
      ∨ Evolve_mainStep w = Outcome.ok MainStep.OneStep_sub1
      ∨ Evolve_mainStep w = Outcome.abort "Unsupported do_subcycling type") ∧
    (Evolve_mainStep w = Outcome.ok (MainStep.PushParticlesandDepose true)
      ↔ w.do_electrostatic ≠ ElectrostaticSolverAlgo.None) ∧
    (Evolve_mainStep w = Outcome.ok MainStep.OneStep_multiJ
      ↔ w.do_electrostatic = ElectrostaticSolverAlgo.None ∧ w.do_multi_J = true) ∧
    (Evolve_mainStep w = Outcome.ok MainStep.OneStep_nosub
      ↔ w.do_electrostatic = ElectrostaticSolverAlgo.None ∧ w.do_multi_J = false
        ∧ (w.do_subcycling = 0 ∨ w.finest_level = 0)) ∧
    (Evolve_mainStep w = Outcome.ok MainStep.OneStep_sub1
      ↔ w.do_electrostatic = ElectrostaticSolverAlgo.None ∧ w.do_multi_J = false
        ∧ ¬ (w.do_subcycling = 0 ∨ w.finest_level = 0)
        ∧ (w.do_subcycling = 1 ∧ w.finest_level = 1)) ∧
    (Evolve_mainStep w = Outcome.abort "Unsupported do_subcycling type"
      ↔ w.do_electrostatic = ElectrostaticSolverAlgo.None ∧ w.do_multi_J = false
        ∧ ¬ (w.do_subcycling = 0 ∨ w.finest_level = 0)
        ∧ ¬ (w.do_subcycling = 1 ∧ w.finest_level = 1)) ∧
    (w.do_electrostatic = ElectrostaticSolverAlgo.None ∧ w.do_multi_J = false
        ∧ w.do_subcycling ≠ 0 ∧ 2 ≤ w.finest_level →
      Evolve_mainStep w = Outcome.abort "Unsupported do_subcycling type") := by
  unfold Evolve_mainStep
  by_cases hes : w.do_electrostatic = ElectrostaticSolverAlgo.None
  · cases hmj : w.do_multi_J
    · by_cases h0 : w.do_subcycling = 0 ∨ w.finest_level = 0
      · simp [hes, hmj, h0]
        rcases h0 with h0 | h0
        · simp [h0]
        · simp [h0]
      · by_cases h1 : w.do_subcycling = 1 ∧ w.finest_level = 1
        · simp [hes, hmj, h0, h1]
        · simp only [hes, hmj, h0, h1]
          simp
    · simp [hes, hmj]
  · simp [hes]

end WarpX

namespace WarpXParticleContainer

variable {R : Type} [LinearOrderedField R]

/-- With the Esirkepov or the Vay algorithm and `relative_time ≠ -0.5` the checks of the
algorithm reach an abort. -/
theorem algorithmChecks_relative_time (a : DepositCurrentCall R)
    (halgo : a.current_deposition_algo = CurrentDepositionAlgo.Esirkepov
      ∨ a.current_deposition_algo = CurrentDepositionAlgo.Vay)
    (hrel : a.relative_time ≠ -(1/2 : R)) :
    ∃ msg, DepositCurrent_algorithmChecks a = some msg := by
  unfold DepositCurrent_algorithmChecks
  rcases halgo with h | h
  · simp only [h, if_true, hrel, ne_eq, not_false_eq_true]
    split_ifs <;> exact ⟨_, rfl⟩
  · have hne : CurrentDepositionAlgo.Vay ≠ CurrentDepositionAlgo.Esirkepov := by decide
    simp only [h, hne, if_true, if_false, hrel, ne_eq, not_false_eq_true]
    exact ⟨_, rfl⟩

/-- With the Esirkepov algorithm and a nonzero Galilean velocity the checks of the
algorithm reach an abort. -/
theorem algorithmChecks_esirkepov_galilean (a : DepositCurrentCall R)
    (halgo : a.current_deposition_algo = CurrentDepositionAlgo.Esirkepov)
    (hgal : a.m_v_galilean 0 ≠ 0 ∨ a.m_v_galilean 1 ≠ 0 ∨ a.m_v_galilean 2 ≠ 0) :
    ∃ msg, DepositCurrent_algorithmChecks a = some msg := by
  unfold DepositCurrent_algorithmChecks
  simp only [halgo, if_true, hgal]
  split_ifs <;> exact ⟨_, rfl⟩

/-- With the Vay algorithm the only check is the one of `relative_time`. -/
theorem algorithmChecks_vay (a : DepositCurrentCall R)
    (halgo : a.current_deposition_algo = CurrentDepositionAlgo.Vay) :
    DepositCurrent_algorithmChecks a
      = if a.relative_time ≠ -(1/2 : R) then
          some "The Esirkepov deposition cannot be performed at another time then -0.5 dt."
        else none := by
  unfold DepositCurrent_algorithmChecks
  simp [halgo]

/-- A call that has particles to deposit and reaches the checks of the algorithm, when
these reach an abort, is a fatal error. -/
theorem DepositCurrent_isAbort_of_checks (a : DepositCurrentCall R)
    (h : ∃ msg, DepositCurrent_algorithmChecks a = some msg) (hnp : a.np_to_depose ≠ 0)
    (hdnd : a.do_not_deposit = false) : (DepositCurrent a).isAbort = true := by
  obtain ⟨msg, hmsg⟩ := h
  unfold DepositCurrent
  simp only [hnp, hdnd, hmsg, if_false, Bool.false_eq_true]
  split_ifs <;> rfl

/-- C9, counterexample. A call of the per-tile `DepositCurrent` with the Esirkepov
algorithm and `relative_time = 0 ≠ -0.5` for an empty tile (`np_to_depose = 0`) is not a
fatal error: it returns normally, without depositing. -/
theorem DepositCurrent_relative_time_counterexample :
    sampleDepositEmpty.current_deposition_algo = CurrentDepositionAlgo.Esirkepov ∧
    sampleDepositEmpty.relative_time ≠ -(1/2 : ℚ) ∧
    DepositCurrent sampleDepositEmpty = Outcome.ok none ∧
    (DepositCurrent sampleDepositEmpty).isAbort = false := by
  refine ⟨rfl, by norm_num [sampleDepositEmpty], ?_, ?_⟩
  · simp [DepositCurrent, sampleDepositEmpty]
  · simp [DepositCurrent, sampleDepositEmpty, Outcome.isAbort]

/-- C9, amended. For every call of the per-tile `DepositCurrent` with the Esirkepov or
the Vay algorithm and `relative_time ≠ -0.5`: the call never deposits; when it has
particles to deposit (`np_to_depose ≠ 0`) and `do_not_deposit` is false it is a fatal
error; when `np_to_depose = 0` or `do_not_deposit` is set, and the assertion on
`depos_lev` holds, it returns normally without depositing. -/
theorem DepositCurrent_relative_time (a : DepositCurrentCall R)
    (halgo : a.current_deposition_algo = CurrentDepositionAlgo.Esirkepov
      ∨ a.current_deposition_algo = CurrentDepositionAlgo.Vay)
    (hrel : a.relative_time ≠ -(1/2 : R)) :
    (∀ k, DepositCurrent a ≠ Outcome.ok (some k)) ∧
    (a.np_to_depose ≠ 0 → a.do_not_deposit = false → (DepositCurrent a).isAbort = true) ∧
    (a.np_to_depose = 0 ∨ a.do_not_deposit = true →
      (a.depos_lev = a.lev - 1 ∨ a.depos_lev = a.lev) →
      DepositCurrent a = Outcome.ok none) := by
  have hchk := algorithmChecks_relative_time a halgo hrel
  refine ⟨?_, fun hnp hdnd => DepositCurrent_isAbort_of_checks a hchk hnp hdnd, ?_⟩
  · intro k
    obtain ⟨msg, hmsg⟩ := hchk
    unfold DepositCurrent
    simp only [hmsg]
    split_ifs <;> simp
  · intro h hlev
    unfold DepositCurrent
    rcases h with h | h
    · simp [hlev, h]
    · simp [hlev, h]

/-- Witness of C9, amended: a tile of 5 particles, the Esirkepov algorithm and
`relative_time = 0`. -/
theorem DepositCurrent_relative_time_witness :
    ((sampleDepositEsirkepov.current_deposition_algo = CurrentDepositionAlgo.Esirkepov
        ∨ sampleDepositEsirkepov.current_deposition_algo = CurrentDepositionAlgo.Vay) ∧
      sampleDepositEsirkepov.relative_time ≠ -(1/2 : ℚ)) ∧
    ((∀ k, DepositCurrent sampleDepositEsirkepov ≠ Outcome.ok (some k)) ∧
    (sampleDepositEsirkepov.np_to_depose ≠ 0 → sampleDepositEsirkepov.do_not_deposit = false →
      (DepositCurrent sampleDepositEsirkepov).isAbort = true) ∧
    (sampleDepositEsirkepov.np_to_depose = 0 ∨ sampleDepositEsirkepov.do_not_deposit = true →
      (sampleDepositEsirkepov.depos_lev = sampleDepositEsirkepov.lev - 1
        ∨ sampleDepositEsirkepov.depos_lev = sampleDepositEsirkepov.lev) →
      DepositCurrent sampleDepositEsirkepov = Outcome.ok none)) :=
  ⟨⟨Or.inl rfl, by norm_num [sampleDepositEsirkepov, sampleDepositEmpty]⟩,
    DepositCurrent_relative_time sampleDepositEsirkepov (Or.inl rfl)
      (by norm_num [sampleDepositEsirkepov, sampleDepositEmpty])⟩

/-- C10, counterexample. A call of the per-tile `DepositCurrent` with 5 particles to
deposit, `do_not_deposit` false, the Vay algorithm and the Galilean velocity `(0, 0, 1)`
is not a fatal error when `relative_time = -0.5`: it returns after the Vay kernel. -/
theorem DepositCurrent_galilean_counterexample :
    0 < sampleDepositVayGalilean.np_to_depose ∧
    sampleDepositVayGalilean.do_not_deposit = false ∧
    sampleDepositVayGalilean.current_deposition_algo = CurrentDepositionAlgo.Vay ∧
    sampleDepositVayGalilean.m_v_galilean 2 ≠ 0 ∧
    DepositCurrent sampleDepositVayGalilean
      = Outcome.ok (some (DepositionKernel.doVayDepositionShapeN 1 1)) ∧
    (DepositCurrent sampleDepositVayGalilean).isAbort = false := by
  have h : DepositCurrent sampleDepositVayGalilean
      = Outcome.ok (some (DepositionKernel.doVayDepositionShapeN 1 1)) := by
    simp [DepositCurrent, DepositCurrent_algorithmChecks, depositionKernel,
      sampleDepositVayGalilean, sampleDepositEmpty]
  refine ⟨by decide, rfl, rfl, by simp [sampleDepositVayGalilean], h, ?_⟩
  rw [h]
  rfl

/-- C10, amended. For every call of the per-tile `DepositCurrent` that has particles to
deposit (`np_to_depose > 0`, `do_not_deposit` false) and a Galilean velocity with at
least one nonzero component: with the Esirkepov algorithm the call is a fatal error; with
the Vay algorithm the Galilean velocity is not checked, and a call that passes the two
assertions is a fatal error exactly when `relative_time ≠ -0.5`. -/
theorem DepositCurrent_galilean (a : DepositCurrentCall R)
    (hnp : 0 < a.np_to_depose) (hdnd : a.do_not_deposit = false)
    (hgal : a.m_v_galilean 0 ≠ 0 ∨ a.m_v_galilean 1 ≠ 0 ∨ a.m_v_galilean 2 ≠ 0) :
    (a.current_deposition_algo = CurrentDepositionAlgo.Esirkepov →
      (DepositCurrent a).isAbort = true) ∧
    (a.current_deposition_algo = CurrentDepositionAlgo.Vay →
      (a.depos_lev = a.lev - 1 ∨ a.depos_lev = a.lev) →
      a.numParticlesOutOfRange
        (a.ng_J - ⟨Int.tdiv a.nox 2, Int.tdiv a.noy 2, Int.tdiv a.noz 2⟩) = 0 →
      ((DepositCurrent a).isAbort = true ↔ a.relative_time ≠ -(1/2 : R))) := by
  have hnp0 : a.np_to_depose ≠ 0 := ne_of_gt hnp
  constructor
  · intro halgo
    exact DepositCurrent_isAbort_of_checks a
      (algorithmChecks_esirkepov_galilean a halgo hgal) hnp0 hdnd
  · intro halgo hlev hrange
    unfold DepositCurrent
    simp only [hlev, not_true_eq_false, if_false, hnp0, hdnd, hrange,
      algorithmChecks_vay a halgo]
    by_cases hrel : a.relative_time = -(1/2 : R)
    · simp only [hrel, ne_eq, not_true_eq_false, if_false, Outcome.isAbort]
      simp
    · simp only [hrel, ne_eq, not_false_eq_true, if_true, Outcome.isAbort]
      simp

/-- Witness of C10, amended. -/
theorem DepositCurrent_galilean_witness :
    (0 < sampleDepositEsirkepovGalilean.np_to_depose ∧
      sampleDepositEsirkepovGalilean.do_not_deposit = false ∧
      (sampleDepositEsirkepovGalilean.m_v_galilean 0 ≠ 0
        ∨ sampleDepositEsirkepovGalilean.m_v_galilean 1 ≠ 0
        ∨ sampleDepositEsirkepovGalilean.m_v_galilean 2 ≠ 0)) ∧
    ((sampleDepositEsirkepovGalilean.current_deposition_algo
        = CurrentDepositionAlgo.Esirkepov →
      (DepositCurrent sampleDepositEsirkepovGalilean).isAbort = true) ∧
    (sampleDepositEsirkepovGalilean.current_deposition_algo = CurrentDepositionAlgo.Vay →
      (sampleDepositEsirkepovGalilean.depos_lev = sampleDepositEsirkepovGalilean.lev - 1
        ∨ sampleDepositEsirkepovGalilean.depos_lev = sampleDepositEsirkepovGalilean.lev) →
      sampleDepositEsirkepovGalilean.numParticlesOutOfRange
        (sampleDepositEsirkepovGalilean.ng_J
          - ⟨Int.tdiv sampleDepositEsirkepovGalilean.nox 2,
             Int.tdiv sampleDepositEsirkepovGalilean.noy 2,
             Int.tdiv sampleDepositEsirkepovGalilean.noz 2⟩) = 0 →
      ((DepositCurrent sampleDepositEsirkepovGalilean).isAbort = true
        ↔ sampleDepositEsirkepovGalilean.relative_time ≠ -(1/2 : ℚ)))) :=
  ⟨⟨by decide, rfl, Or.inr (Or.inr (by simp [sampleDepositEsirkepovGalilean,
      sampleDepositVayGalilean]))⟩,
    DepositCurrent_galilean sampleDepositEsirkepovGalilean (by decide) rfl
      (Or.inr (Or.inr (by simp [sampleDepositEsirkepovGalilean, sampleDepositVayGalilean])))⟩

end WarpXParticleContainer

/-! ## Guard-cell allowance of the two deposit operations -/

/-- No particle is counted out of range exactly when every excursion is within range. -/
theorem numParticlesOutOfRange_eq_zero_iff (excursions : List IntVect) (range : IntVect) :
    numParticlesOutOfRange excursions range = 0
      ↔ ∀ e ∈ excursions, e.x ≤ range.x ∧ e.y ≤ range.y ∧ e.z ≤ range.z := by
  unfold numParticlesOutOfRange
  rw [Int.natCast_eq_zero, List.length_eq_zero, List.filter_eq_nil_iff]
  constructor
  · intro h e he
    have := h e he
    simp only [decide_eq_true_eq, not_or, not_lt] at this
    exact this
  · intro h e he
    have := h e he
    simp only [decide_eq_true_eq, not_or, not_lt]
    exact this

namespace WarpXParticleContainer

variable {R : Type} [LinearOrderedField R]

/-- A call of `DepositCurrent` that reaches the assertion on the particles fails it
exactly when the count of particles out of range is not zero. -/
theorem DepositCurrent_abort_range_iff (a : DepositCurrentCall R)
    (hnp : a.np_to_depose ≠ 0) (hdnd : a.do_not_deposit = false)
    (hlev : a.depos_lev = a.lev - 1 ∨ a.depos_lev = a.lev) :
    DepositCurrent a = Outcome.abort
        "Particles shape does not fit within tile (CPU) or guard cells (GPU) used for current deposition"
      ↔ ¬ (a.numParticlesOutOfRange
            (a.ng_J - ⟨Int.tdiv a.nox 2, Int.tdiv a.noy 2, Int.tdiv a.noz 2⟩) = 0) := by
  unfold DepositCurrent
  simp only [hlev, not_true_eq_false, if_false, hnp, hdnd, Bool.false_eq_true]
  by_cases h : a.numParticlesOutOfRange
      (a.ng_J - ⟨Int.tdiv a.nox 2, Int.tdiv a.noy 2, Int.tdiv a.noz 2⟩) = 0
  · simp only [h, not_true_eq_false, if_false, iff_false]
    unfold DepositCurrent_algorithmChecks
    split_ifs <;> simp
  · simp only [h, not_false_eq_true, if_true]

/-- A call of `DepositCharge` that reaches the assertion on the particles fails it
exactly when the count of particles out of range is not zero. -/
theorem DepositCharge_abort_range_iff (a : DepositChargeCall)
    (hnp : a.np_to_depose ≠ 0) (hdnd : a.do_not_deposit = false)
    (hlev : a.depos_lev = a.lev - 1 ∨ a.depos_lev = a.lev) :
    DepositCharge a = Outcome.abort
        "Particles shape does not fit within tile (CPU) or guard cells (GPU) used for charge deposition"
      ↔ ¬ (a.numParticlesOutOfRange
            (a.ng_rho
              - ⟨Int.tdiv a.nox 2 + 1, Int.tdiv a.noy 2 + 1, Int.tdiv a.noz 2 + 1⟩) = 0) := by
  unfold DepositCharge
  simp only [hlev, not_true_eq_false, if_false, hnp, hdnd, Bool.false_eq_true]
  by_cases h : a.numParticlesOutOfRange
      (a.ng_rho - ⟨Int.tdiv a.nox 2 + 1, Int.tdiv a.noy 2 + 1, Int.tdiv a.noz 2 + 1⟩) = 0
  · simp only [h, not_true_eq_false, if_false, iff_false]
    split_ifs <;> simp
  · simp only [h, not_false_eq_true, if_true]

end WarpXParticleContainer

namespace WarpXParticleContainer

variable {R : Type} [LinearOrderedField R]

/-- C11. For a call of the per-tile `DepositCurrent` with particles to deposit
(`np_to_depose > 0`, `do_not_deposit` false) that reaches the assertion on the particle
shape, on a tile whose particles have the excursions `ps` (in cells): the assertion fails,
and the call is a fatal error with its message, exactly when some particle has in some
direction an excursion of more than `ng_J - order/2`; it accepts the call exactly when
every excursion is at most `ng_J - order/2` in every direction.  Here `order/2` is the
integer quotient of the source (`static_cast<int>(WarpX::nox/2)`): 0, 1, 1 for the
orders 1, 2, 3. -/
theorem DepositCurrent_range_assertion (a : DepositCurrentCall R) (ps : List IntVect)
    (hps : a.numParticlesOutOfRange = numParticlesOutOfRange ps)
    (hnp : 0 < a.np_to_depose) (hdnd : a.do_not_deposit = false)
    (hlev : a.depos_lev = a.lev - 1 ∨ a.depos_lev = a.lev) :
    (DepositCurrent a ≠ Outcome.abort
        "Particles shape does not fit within tile (CPU) or guard cells (GPU) used for current deposition"
      ↔ ∀ e ∈ ps, e.x ≤ a.ng_J.x - Int.tdiv a.nox 2 ∧ e.y ≤ a.ng_J.y - Int.tdiv a.noy 2
          ∧ e.z ≤ a.ng_J.z - Int.tdiv a.noz 2) ∧
    ((∃ e ∈ ps, a.ng_J.x - Int.tdiv a.nox 2 < e.x ∨ a.ng_J.y - Int.tdiv a.noy 2 < e.y
          ∨ a.ng_J.z - Int.tdiv a.noz 2 < e.z) →
      (DepositCurrent a).isAbort = true) ∧
    (Int.tdiv 1 2 = 0 ∧ Int.tdiv 2 2 = 1 ∧ Int.tdiv 3 2 = 1) := by
  have hiff := DepositCurrent_abort_range_iff a (ne_of_gt hnp) hdnd hlev
  rw [hps, numParticlesOutOfRange_eq_zero_iff] at hiff
  have hacc : DepositCurrent a ≠ Outcome.abort
        "Particles shape does not fit within tile (CPU) or guard cells (GPU) used for current deposition"
      ↔ ∀ e ∈ ps, e.x ≤ a.ng_J.x - Int.tdiv a.nox 2 ∧ e.y ≤ a.ng_J.y - Int.tdiv a.noy 2
          ∧ e.z ≤ a.ng_J.z - Int.tdiv a.noz 2 := by
    rw [Ne, hiff, not_not]
    rfl
  refine ⟨hacc, ?_, by decide⟩
  rintro ⟨e, he, hout⟩
  have hnot : ¬ ∀ e ∈ ps, e.x ≤ a.ng_J.x - Int.tdiv a.nox 2
      ∧ e.y ≤ a.ng_J.y - Int.tdiv a.noy 2 ∧ e.z ≤ a.ng_J.z - Int.tdiv a.noz 2 := by
    intro h
    obtain ⟨h1, h2, h3⟩ := h e he
    omega
  have hab := not_not.mp (fun h => hnot (hacc.mp h))
  rw [hab]
  rfl

/-- Witness of C11: one particle 2 cells outside of the tile, order 1 and 2 guard cells. -/
theorem DepositCurrent_range_assertion_witness :
    (sampleDepositCurrentEdge.numParticlesOutOfRange = numParticlesOutOfRange [⟨2, 0, 0⟩] ∧
      0 < sampleDepositCurrentEdge.np_to_depose ∧
      sampleDepositCurrentEdge.do_not_deposit = false ∧
      (sampleDepositCurrentEdge.depos_lev = sampleDepositCurrentEdge.lev - 1
        ∨ sampleDepositCurrentEdge.depos_lev = sampleDepositCurrentEdge.lev)) ∧
    ((DepositCurrent sampleDepositCurrentEdge ≠ Outcome.abort
        "Particles shape does not fit within tile (CPU) or guard cells (GPU) used for current deposition"
      ↔ ∀ e ∈ [(⟨2, 0, 0⟩ : IntVect)],
          e.x ≤ sampleDepositCurrentEdge.ng_J.x - Int.tdiv sampleDepositCurrentEdge.nox 2
          ∧ e.y ≤ sampleDepositCurrentEdge.ng_J.y - Int.tdiv sampleDepositCurrentEdge.noy 2
          ∧ e.z ≤ sampleDepositCurrentEdge.ng_J.z - Int.tdiv sampleDepositCurrentEdge.noz 2) ∧
    ((∃ e ∈ [(⟨2, 0, 0⟩ : IntVect)],
          sampleDepositCurrentEdge.ng_J.x - Int.tdiv sampleDepositCurrentEdge.nox 2 < e.x
          ∨ sampleDepositCurrentEdge.ng_J.y - Int.tdiv sampleDepositCurrentEdge.noy 2 < e.y
          ∨ sampleDepositCurrentEdge.ng_J.z - Int.tdiv sampleDepositCurrentEdge.noz 2 < e.z) →
      (DepositCurrent sampleDepositCurrentEdge).isAbort = true) ∧
    (Int.tdiv 1 2 = 0 ∧ Int.tdiv 2 2 = 1 ∧ Int.tdiv 3 2 = 1)) :=
  ⟨⟨rfl, by decide, rfl, Or.inr rfl⟩,
    DepositCurrent_range_assertion sampleDepositCurrentEdge [⟨2, 0, 0⟩] rfl (by decide) rfl
      (Or.inr rfl)⟩

/-- C12, counterexample. With 2 guard cells and shape order 1 in every direction, a
particle 2 cells outside of the tile box is within `ng_rho - order/2 = 2`, and the
assertion of `DepositCurrent` accepts it (the call deposits), but the assertion of
`DepositCharge` with `ng_rho = ng_J` rejects it: the call is a fatal error. -/
theorem DepositCharge_range_counterexample :
    sampleDepositChargeEdge.ng_rho = sampleDepositCurrentEdge.ng_J ∧
    0 < sampleDepositChargeEdge.np_to_depose ∧
    sampleDepositChargeEdge.do_not_deposit = false ∧
    (∀ e ∈ [(⟨2, 0, 0⟩ : IntVect)],
      e.x ≤ sampleDepositChargeEdge.ng_rho.x - Int.tdiv sampleDepositChargeEdge.nox 2
      ∧ e.y ≤ sampleDepositChargeEdge.ng_rho.y - Int.tdiv sampleDepositChargeEdge.noy 2
      ∧ e.z ≤ sampleDepositChargeEdge.ng_rho.z - Int.tdiv sampleDepositChargeEdge.noz 2) ∧
    DepositCharge sampleDepositChargeEdge = Outcome.abort
      "Particles shape does not fit within tile (CPU) or guard cells (GPU) used for charge deposition" ∧
    DepositCurrent sampleDepositCurrentEdge
      = Outcome.ok (some (DepositionKernel.doDepositionShapeN 1 (1 * 0))) := by
  refine ⟨rfl, by decide, rfl, by decide, by decide, ?_⟩
  simp [DepositCurrent, DepositCurrent_algorithmChecks, depositionKernel,
    sampleDepositCurrentEdge, numParticlesOutOfRange]
  decide

/-- C12, amended. For a call of the per-tile `DepositCharge` with particles to deposit
(`np_to_depose > 0`, `do_not_deposit` false) that reaches the assertion on the particle
shape, on a tile whose particles have the excursions `ps`: the assertion accepts the call
exactly when every excursion is at most `ng_rho - (order/2 + 1)` in every direction
(integer quotient), one cell less than the allowance `ng_J - order/2` of `DepositCurrent`;
so with `ng_rho = ng_J` and the same orders every tile accepted by `DepositCharge` is
accepted by `DepositCurrent`. -/
theorem DepositCharge_range_assertion (a : DepositChargeCall) (ps : List IntVect)
    (hps : a.numParticlesOutOfRange = numParticlesOutOfRange ps)
    (hnp : 0 < a.np_to_depose) (hdnd : a.do_not_deposit = false)
    (hlev : a.depos_lev = a.lev - 1 ∨ a.depos_lev = a.lev) :
    (DepositCharge a ≠ Outcome.abort
        "Particles shape does not fit within tile (CPU) or guard cells (GPU) used for charge deposition"
      ↔ ∀ e ∈ ps, e.x ≤ a.ng_rho.x - (Int.tdiv a.nox 2 + 1)
          ∧ e.y ≤ a.ng_rho.y - (Int.tdiv a.noy 2 + 1)
          ∧ e.z ≤ a.ng_rho.z - (Int.tdiv a.noz 2 + 1)) ∧
    (∀ b : DepositCurrentCall R,
      b.numParticlesOutOfRange = numParticlesOutOfRange ps → b.ng_J = a.ng_rho →
      b.nox = a.nox → b.noy = a.noy → b.noz = a.noz →
      0 < b.np_to_depose → b.do_not_deposit = false →
      (b.depos_lev = b.lev - 1 ∨ b.depos_lev = b.lev) →
      DepositCharge a ≠ Outcome.abort
        "Particles shape does not fit within tile (CPU) or guard cells (GPU) used for charge deposition" →
      DepositCurrent b ≠ Outcome.abort
        "Particles shape does not fit within tile (CPU) or guard cells (GPU) used for current deposition") := by
  have hiff := DepositCharge_abort_range_iff a (ne_of_gt hnp) hdnd hlev
  rw [hps, numParticlesOutOfRange_eq_zero_iff] at hiff
  have hacc : DepositCharge a ≠ Outcome.abort
        "Particles shape does not fit within tile (CPU) or guard cells (GPU) used for charge deposition"
      ↔ ∀ e ∈ ps, e.x ≤ a.ng_rho.x - (Int.tdiv a.nox 2 + 1)
          ∧ e.y ≤ a.ng_rho.y - (Int.tdiv a.noy 2 + 1)
          ∧ e.z ≤ a.ng_rho.z - (Int.tdiv a.noz 2 + 1) := by
    rw [Ne, hiff, not_not]
    rfl
  refine ⟨hacc, ?_⟩
  intro b hb hng hx hy hz hbnp hbdnd hblev hch
  have hall := hacc.mp hch
  have hbiff := DepositCurrent_abort_range_iff b (ne_of_gt hbnp) hbdnd hblev
  rw [hb, numParticlesOutOfRange_eq_zero_iff] at hbiff
  rw [Ne, hbiff, not_not]
  intro e he
  obtain ⟨h1, h2, h3⟩ := hall e he
  rw [hng, hx, hy, hz]
  refine ⟨?_, ?_, ?_⟩
  · show e.x ≤ a.ng_rho.x - Int.tdiv a.nox 2
    omega
  · show e.y ≤ a.ng_rho.y - Int.tdiv a.noy 2
    omega
  · show e.z ≤ a.ng_rho.z - Int.tdiv a.noz 2
    omega

/-- Witness of C12, amended: one particle 1 cell outside of the tile, order 1 and
2 guard cells. -/
theorem DepositCharge_range_assertion_witness :
    (sampleDepositChargeInside.numParticlesOutOfRange = numParticlesOutOfRange [⟨1, 0, 0⟩] ∧
      0 < sampleDepositChargeInside.np_to_depose ∧
      sampleDepositChargeInside.do_not_deposit = false ∧
      (sampleDepositChargeInside.depos_lev = sampleDepositChargeInside.lev - 1
        ∨ sampleDepositChargeInside.depos_lev = sampleDepositChargeInside.lev)) ∧
    ((DepositCharge sampleDepositChargeInside ≠ Outcome.abort
        "Particles shape does not fit within tile (CPU) or guard cells (GPU) used for charge deposition"
      ↔ ∀ e ∈ [(⟨1, 0, 0⟩ : IntVect)],
          e.x ≤ sampleDepositChargeInside.ng_rho.x
                  - (Int.tdiv sampleDepositChargeInside.nox 2 + 1)
          ∧ e.y ≤ sampleDepositChargeInside.ng_rho.y
                  - (Int.tdiv sampleDepositChargeInside.noy 2 + 1)
          ∧ e.z ≤ sampleDepositChargeInside.ng_rho.z
                  - (Int.tdiv sampleDepositChargeInside.noz 2 + 1)) ∧
    (∀ b : DepositCurrentCall ℚ,
      b.numParticlesOutOfRange = numParticlesOutOfRange [⟨1, 0, 0⟩] →
      b.ng_J = sampleDepositChargeInside.ng_rho →
      b.nox = sampleDepositChargeInside.nox → b.noy = sampleDepositChargeInside.noy →
      b.noz = sampleDepositChargeInside.noz →
      0 < b.np_to_depose → b.do_not_deposit = false →
      (b.depos_lev = b.lev - 1 ∨ b.depos_lev = b.lev) →
      DepositCharge sampleDepositChargeInside ≠ Outcome.abort
        "Particles shape does not fit within tile (CPU) or guard cells (GPU) used for charge deposition" →
      DepositCurrent b ≠ Outcome.abort
        "Particles shape does not fit within tile (CPU) or guard cells (GPU) used for current deposition")) :=
  ⟨⟨rfl, by decide, rfl, Or.inr rfl⟩,
    DepositCharge_range_assertion sampleDepositChargeInside [⟨1, 0, 0⟩] rfl (by decide) rfl
      (Or.inr rfl)⟩

end WarpXParticleContainer

namespace WarpX

variable {R : Type} [LinearOrderedField R]

/-- C13, counterexample. In an iteration with the electromagnetic solver, one level
(`max_level = 0`), a Galilean velocity whose three components are zero and a moving
window that moved by one cell (`MoveWindow` returned 1), the ghost bound passed to
`RedistributeLocal` is 2 and not 1. -/
theorem Evolve_redistribute_counterexample :
    sampleWarpX.do_electrostatic = ElectrostaticSolverAlgo.None ∧
    sampleWarpX.max_level = 0 ∧
    Evolve_redistribute sampleWarpX (fun _ => 0) 1 = Redistribution.RedistributeLocal 2 ∧
    Evolve_redistribute sampleWarpX (fun _ => 0) 1 ≠ Redistribution.RedistributeLocal 1 := by
  have h : Evolve_redistribute sampleWarpX (fun _ => 0) 1
      = Redistribution.RedistributeLocal 2 := by
    simp [Evolve_redistribute, sampleWarpX]
  refine ⟨rfl, rfl, h, ?_⟩
  rw [h]
  decide

/-- C13, amended. In an iteration of `WarpX::Evolve` with the electromagnetic solver
(`do_electrostatic = None`) and `max_level = 0`, the ghost bound passed to
`RedistributeLocal` is `num_moved + 1` when the three components of the Galilean velocity
are zero and `num_moved + 2` when at least one is not zero, where `num_moved` is the value
returned by `MoveWindow` in the iteration; so it is 1, respectively 2, when the window
has not moved (`num_moved = 0`). -/
theorem Evolve_redistribute_ghost (w : WarpX R) (m_v_galilean : Fin 3 → R) (num_moved : Int)
    (hes : w.do_electrostatic = ElectrostaticSolverAlgo.None) (hlev : w.max_level = 0) :
    ((m_v_galilean 0 = 0 ∧ m_v_galilean 1 = 0 ∧ m_v_galilean 2 = 0) →
      Evolve_redistribute w m_v_galilean num_moved
        = Redistribution.RedistributeLocal (num_moved + 1)) ∧
    ((m_v_galilean 0 ≠ 0 ∨ m_v_galilean 1 ≠ 0 ∨ m_v_galilean 2 ≠ 0) →
      Evolve_redistribute w m_v_galilean num_moved
        = Redistribution.RedistributeLocal (num_moved + 2)) ∧
    ((m_v_galilean 0 = 0 ∧ m_v_galilean 1 = 0 ∧ m_v_galilean 2 = 0) →
      Evolve_redistribute w m_v_galilean 0 = Redistribution.RedistributeLocal 1) ∧
    ((m_v_galilean 0 ≠ 0 ∨ m_v_galilean 1 ≠ 0 ∨ m_v_galilean 2 ≠ 0) →
      Evolve_redistribute w m_v_galilean 0 = Redistribution.RedistributeLocal 2) := by
  have hz : ∀ n : Int, (m_v_galilean 0 = 0 ∧ m_v_galilean 1 = 0 ∧ m_v_galilean 2 = 0) →
      Evolve_redistribute w m_v_galilean n = Redistribution.RedistributeLocal (n + 1) := by
    intro n h
    have hn : ¬ (m_v_galilean 0 ≠ 0 ∨ m_v_galilean 1 ≠ 0 ∨ m_v_galilean 2 ≠ 0) := by
      rintro (h1 | h1 | h1)
      · exact h1 h.1
      · exact h1 h.2.1
      · exact h1 h.2.2
    unfold Evolve_redistribute
    simp only [hes, ne_eq, not_true_eq_false, if_false, hlev, if_true]
    rw [if_neg hn]
  have hnz : ∀ n : Int, (m_v_galilean 0 ≠ 0 ∨ m_v_galilean 1 ≠ 0 ∨ m_v_galilean 2 ≠ 0) →
      Evolve_redistribute w m_v_galilean n = Redistribution.RedistributeLocal (n + 2) := by
    intro n h
    unfold Evolve_redistribute
    simp only [hes, ne_eq, not_true_eq_false, if_false, hlev, if_true]
    rw [if_pos h]
  refine ⟨hz num_moved, hnz num_moved, ?_, ?_⟩
  · intro h
    have := hz 0 h
    simpa using this
  · intro h
    have := hnz 0 h
    simpa using this

/-- Witness of C13, amended. -/
theorem Evolve_redistribute_ghost_witness :
    (sampleWarpX.do_electrostatic = ElectrostaticSolverAlgo.None ∧ sampleWarpX.max_level = 0) ∧
    ((((fun _ => 0 : Fin 3 → ℚ) 0 = 0 ∧ (fun _ => 0 : Fin 3 → ℚ) 1 = 0
        ∧ (fun _ => 0 : Fin 3 → ℚ) 2 = 0) →
      Evolve_redistribute sampleWarpX (fun _ => 0) 3
        = Redistribution.RedistributeLocal (3 + 1)) ∧
    (((fun _ => 0 : Fin 3 → ℚ) 0 ≠ 0 ∨ (fun _ => 0 : Fin 3 → ℚ) 1 ≠ 0
        ∨ (fun _ => 0 : Fin 3 → ℚ) 2 ≠ 0) →
      Evolve_redistribute sampleWarpX (fun _ => 0) 3
        = Redistribution.RedistributeLocal (3 + 2)) ∧
    (((fun _ => 0 : Fin 3 → ℚ) 0 = 0 ∧ (fun _ => 0 : Fin 3 → ℚ) 1 = 0
        ∧ (fun _ => 0 : Fin 3 → ℚ) 2 = 0) →
      Evolve_redistribute sampleWarpX (fun _ => 0) 0 = Redistribution.RedistributeLocal 1) ∧
    (((fun _ => 0 : Fin 3 → ℚ) 0 ≠ 0 ∨ (fun _ => 0 : Fin 3 → ℚ) 1 ≠ 0
        ∨ (fun _ => 0 : Fin 3 → ℚ) 2 ≠ 0) →
      Evolve_redistribute sampleWarpX (fun _ => 0) 0 = Redistribution.RedistributeLocal 2)) :=
  ⟨⟨rfl, rfl⟩, Evolve_redistribute_ghost sampleWarpX (fun _ => 0) 3 rfl rfl⟩

/-- C15. `WarpX::OneStep_sub1` is a fatal error unless the hierarchy has exactly two
levels and the electrostatic solver is off: it ends in a fatal error exactly when
`do_electrostatic ≠ None` or `finest_level ≠ 1`; it aborts when `do_electrostatic ≠ None`,
fails its assertion when `finest_level ≠ 1` (with the electrostatic solver off), and in
both cases it has made no call before: no particle push, deposition, restriction or field
advance.  With two levels and the electrostatic solver off it is not a fatal error. -/
theorem OneStep_sub1_fatal (w : WarpX R) (curtime : R) :
    ((OneStep_sub1 w curtime).abort ≠ none
      ↔ w.do_electrostatic ≠ ElectrostaticSolverAlgo.None ∨ w.finest_level ≠ 1) ∧
    (w.do_electrostatic ≠ ElectrostaticSolverAlgo.None →
      OneStep_sub1 w curtime
        = { ops := [],
            abort := some "Electrostatic solver cannot be used with sub-cycling." }) ∧
    (w.do_electrostatic = ElectrostaticSolverAlgo.None ∧ w.finest_level ≠ 1 →
      OneStep_sub1 w curtime = { ops := [], abort := some "Must have exactly two levels" }) ∧
    ((OneStep_sub1 w curtime).abort ≠ none → (OneStep_sub1 w curtime).ops = []) := by
  by_cases hes : w.do_electrostatic = ElectrostaticSolverAlgo.None
  · by_cases hfl : w.finest_level = 1
    · unfold OneStep_sub1
      simp [hes, hfl]
    · unfold OneStep_sub1
      simp [hes, hfl]
  · unfold OneStep_sub1
    simp [hes]

end WarpX

namespace PsatdAlgorithmRZ

variable {R : Type} [LinearOrderedField R]

/-- C16, counterexample. With `J_linear_in_time = false`, the flags `dive_cleaning = true`
and `divb_cleaning = true` change nothing in the push: the result is the one of the push
without cleaning, the `F` and `G` slots keep `F_old = 1` and `G_old = i` (which are not the
values of the update of `F` and `G`), and no `S_ck * F_old` term is added to `Ep` although
that term is not zero. -/
theorem pushSpectralFields_cleaning_counterexample :
    pushSpectralFields true false true true 7 3 (1/2) 1 2 ⟨1, 2, 3, 4, 5⟩ sampleFieldsFG
      = pushSpectralFields true false false false 7 3 (1/2) 1 2 ⟨1, 2, 3, 4, 5⟩
          sampleFieldsFG ∧
    (pushSpectralFields true false true true 7 3 (1/2) 1 2 ⟨1, 2, 3, 4, 5⟩ sampleFieldsFG).F
      = sampleFieldsFG.F ∧
    (pushSpectralFields true false true true 7 3 (1/2) 1 2 ⟨1, 2, 3, 4, 5⟩ sampleFieldsFG).F
      ≠ F_update 7 3 (1/2) 1 2 ⟨1, 2, 3, 4, 5⟩ sampleFieldsFG ∧
    (pushSpectralFields true false true true 7 3 (1/2) 1 2 ⟨1, 2, 3, 4, 5⟩ sampleFieldsFG).G
      = sampleFieldsFG.G ∧
    (pushSpectralFields true false true true 7 3 (1/2) 1 2 ⟨1, 2, 3, 4, 5⟩ sampleFieldsFG).G
      ≠ G_update 1 2 ⟨1, 2, 3, 4, 5⟩ sampleFieldsFG ∧
    (-((7:ℚ)*7) * (1:ℚ) * (1/2 : ℚ) * (2:ℚ) * sampleFieldsFG.F ≠ (0 : Cx ℚ)) := by
  refine ⟨rfl, rfl, ?_, rfl, ?_, ?_⟩
  · show sampleFieldsFG.F ≠ _
    rw [Ne, Cx.eq_iff]
    norm_num [F_update, sampleFieldsFG, sampleFields]
  · show sampleFieldsFG.G ≠ _
    rw [Ne, Cx.eq_iff]
    norm_num [G_update, sampleFieldsFG, sampleFields]
  · rw [Ne, Cx.eq_iff]
    norm_num [sampleFieldsFG, sampleFields]

/-- C16, amended. The divergence-cleaning blocks of `pushSpectralFields` are inside the
block of `J_linear_in_time`.  With `J_linear_in_time = true`, for every value of the
other flags: `dive_cleaning = true` writes `F_new = C*F_old + ...` into the `F` slot and
adds the `S_ck * F_old` terms to `Ep`, `Em`, `Ez`; `divb_cleaning = true` writes
`G_new = C*G_old + i*S_ck*(k.B)` into the `G` slot and adds the `S_ck * G_old` terms to
`Bp`, `Bm`, `Bz`.  With `J_linear_in_time = false` the two flags have no effect. -/
theorem pushSpectralFields_cleaning (update_with_rho dive_cleaning divb_cleaning : Bool)
    (c ep0 dt kr kz : R) (coef : SpectralCoefficients R) (fields : SpectralFields R) :
    ((pushSpectralFields update_with_rho true true divb_cleaning
          c ep0 dt kr kz coef fields).F = F_update c ep0 dt kr kz coef fields ∧
      (pushSpectralFields update_with_rho true true divb_cleaning
          c ep0 dt kr kz coef fields).Ex
        = (pushSpectralFields update_with_rho true false divb_cleaning
            c ep0 dt kr kz coef fields).Ex
          + -(c*c) * kr * (1/2:R) * coef.S_ck * fields.F ∧
      (pushSpectralFields update_with_rho true true divb_cleaning
          c ep0 dt kr kz coef fields).Ey
        = (pushSpectralFields update_with_rho true false divb_cleaning
            c ep0 dt kr kz coef fields).Ey
          + (c*c) * kr * (1/2:R) * coef.S_ck * fields.F ∧
      (pushSpectralFields update_with_rho true true divb_cleaning
          c ep0 dt kr kz coef fields).Ez
        = (pushSpectralFields update_with_rho true false divb_cleaning
            c ep0 dt kr kz coef fields).Ez
          + (Cx.I : Cx R) * (c*c) * kz * coef.S_ck * fields.F) ∧
    ((pushSpectralFields update_with_rho true dive_cleaning true
          c ep0 dt kr kz coef fields).G = G_update kr kz coef fields ∧
      (pushSpectralFields update_with_rho true dive_cleaning true
          c ep0 dt kr kz coef fields).Bx
        = (pushSpectralFields update_with_rho true dive_cleaning false
            c ep0 dt kr kz coef fields).Bx
          + -(c*c) * kr * (1/2:R) * coef.S_ck * fields.G ∧
      (pushSpectralFields update_with_rho true dive_cleaning true
          c ep0 dt kr kz coef fields).By
        = (pushSpectralFields update_with_rho true dive_cleaning false
            c ep0 dt kr kz coef fields).By
          + (c*c) * kr * (1/2:R) * coef.S_ck * fields.G ∧
      (pushSpectralFields update_with_rho true dive_cleaning true
          c ep0 dt kr kz coef fields).Bz
        = (pushSpectralFields update_with_rho true dive_cleaning false
            c ep0 dt kr kz coef fields).Bz
          + (Cx.I : Cx R) * (c*c) * kz * coef.S_ck * fields.G) ∧
    (pushSpectralFields update_with_rho false dive_cleaning divb_cleaning
        c ep0 dt kr kz coef fields
      = pushSpectralFields update_with_rho false false false c ep0 dt kr kz coef fields) :=
  ⟨⟨rfl, rfl, rfl, rfl⟩, ⟨rfl, rfl, rfl, rfl⟩, rfl⟩

/-- Adding a multiple of a zero difference of currents changes nothing. -/
theorem add_mul_sub_self_div (z w : Cx R) (a d : R) : z + a * (w - w) / d = z := by
  rw [Cx.eq_iff]
  simp

/-- Adding a multiple of a combination of zero differences changes nothing. -/
theorem add_mul_zero_combination (z u v p q : Cx R) (a : R)
    (hp : p = u - u) (hq : q = v - v) (b e : R) :
    z + a * (b * p - (Cx.I : Cx R) * e * (1/2:R) * q) = z ∧
    z + a * (b * p + (Cx.I : Cx R) * e * (1/2:R) * q) = z ∧
    z + (Cx.I : Cx R) * a * (b * p + b * q) = z := by
  subst hp hq
  refine ⟨?_, ?_, ?_⟩ <;>
  · rw [Cx.eq_iff]
    simp

/-- C17. With both divergence-cleaning flags off, the push with `J_linear_in_time = true`
differs from the push with `J_linear_in_time = false` only by terms proportional to
`J_new - J`: the E fields by `-X1 * (J_new - J) / dt` and the B fields by combinations of
`J_new - J` weighted by `X2/c^2`, all other slots being equal; so when `Jp_new = Jp`,
`Jm_new = Jm` and `Jz_new = Jz` the six updated fields `Ep`, `Em`, `Ez`, `Bp`, `Bm`, `Bz`
are the same under both settings. -/
theorem pushSpectralFields_J_linear_in_time (update_with_rho : Bool)
    (c ep0 dt kr kz : R) (coef : SpectralCoefficients R) (fields : SpectralFields R)
    (hJp : fields.Jx_new = fields.Jx) (hJm : fields.Jy_new = fields.Jy)
    (hJz : fields.Jz_new = fields.Jz) :
    ((pushSpectralFields update_with_rho true false false c ep0 dt kr kz coef fields).Ex
        = (pushSpectralFields update_with_rho false false false c ep0 dt kr kz coef fields).Ex ∧
      (pushSpectralFields update_with_rho true false false c ep0 dt kr kz coef fields).Ey
        = (pushSpectralFields update_with_rho false false false c ep0 dt kr kz coef fields).Ey ∧
      (pushSpectralFields update_with_rho true false false c ep0 dt kr kz coef fields).Ez
        = (pushSpectralFields update_with_rho false false false c ep0 dt kr kz coef fields).Ez ∧
      (pushSpectralFields update_with_rho true false false c ep0 dt kr kz coef fields).Bx
        = (pushSpectralFields update_with_rho false false false c ep0 dt kr kz coef fields).Bx ∧
      (pushSpectralFields update_with_rho true false false c ep0 dt kr kz coef fields).By
        = (pushSpectralFields update_with_rho false false false c ep0 dt kr kz coef fields).By ∧
      (pushSpectralFields update_with_rho true false false c ep0 dt kr kz coef fields).Bz
        = (pushSpectralFields update_with_rho false false false c ep0 dt kr kz coef fields).Bz) ∧
    (∀ g : SpectralFields R,
      (pushSpectralFields update_with_rho true false false c ep0 dt kr kz coef g).Ex
        = (pushSpectralFields update_with_rho false false false c ep0 dt kr kz coef g).Ex
          + -coef.X1 * (g.Jx_new - g.Jx) / dt ∧
      (pushSpectralFields update_with_rho true false false c ep0 dt kr kz coef g).Ey
        = (pushSpectralFields update_with_rho false false false c ep0 dt kr kz coef g).Ey
          + -coef.X1 * (g.Jy_new - g.Jy) / dt ∧
      (pushSpectralFields update_with_rho true false false c ep0 dt kr kz coef g).Ez
        = (pushSpectralFields update_with_rho false false false c ep0 dt kr kz coef g).Ez
          + -coef.X1 * (g.Jz_new - g.Jz) / dt ∧
      (pushSpectralFields update_with_rho true false false c ep0 dt kr kz coef g).Bx
        = (pushSpectralFields update_with_rho false false false c ep0 dt kr kz coef g).Bx
          + coef.X2/(c*c) * (kz * (g.Jx_new - g.Jx)
              - (Cx.I : Cx R) * kr * (1/2:R) * (g.Jz_new - g.Jz)) ∧
      (pushSpectralFields update_with_rho true false false c ep0 dt kr kz coef g).By
        = (pushSpectralFields update_with_rho false false false c ep0 dt kr kz coef g).By
          + -coef.X2/(c*c) * (kz * (g.Jy_new - g.Jy)
              + (Cx.I : Cx R) * kr * (1/2:R) * (g.Jz_new - g.Jz)) ∧
      (pushSpectralFields update_with_rho true false false c ep0 dt kr kz coef g).Bz
        = (pushSpectralFields update_with_rho false false false c ep0 dt kr kz coef g).Bz
          + (Cx.I : Cx R) * coef.X2/(c*c) * (kr * (g.Jx_new - g.Jx)
              + kr * (g.Jy_new - g.Jy)) ∧
      (pushSpectralFields update_with_rho true false false c ep0 dt kr kz coef g).F = g.F ∧
      (pushSpectralFields update_with_rho true false false c ep0 dt kr kz coef g).G = g.G) := by
  have hgen : ∀ g : SpectralFields R,
      (pushSpectralFields update_with_rho true false false c ep0 dt kr kz coef g).Ex
        = (pushSpectralFields update_with_rho false false false c ep0 dt kr kz coef g).Ex
          + -coef.X1 * (g.Jx_new - g.Jx) / dt ∧
      (pushSpectralFields update_with_rho true false false c ep0 dt kr kz coef g).Ey
        = (pushSpectralFields update_with_rho false false false c ep0 dt kr kz coef g).Ey
          + -coef.X1 * (g.Jy_new - g.Jy) / dt ∧
      (pushSpectralFields update_with_rho true false false c ep0 dt kr kz coef g).Ez
        = (pushSpectralFields update_with_rho false false false c ep0 dt kr kz coef g).Ez
          + -coef.X1 * (g.Jz_new - g.Jz) / dt ∧
      (pushSpectralFields update_with_rho true false false c ep0 dt kr kz coef g).Bx
        = (pushSpectralFields update_with_rho false false false c ep0 dt kr kz coef g).Bx
          + coef.X2/(c*c) * (kz * (g.Jx_new - g.Jx)
              - (Cx.I : Cx R) * kr * (1/2:R) * (g.Jz_new - g.Jz)) ∧
      (pushSpectralFields update_with_rho true false false c ep0 dt kr kz coef g).By
        = (pushSpectralFields update_with_rho false false false c ep0 dt kr kz coef g).By
          + -coef.X2/(c*c) * (kz * (g.Jy_new - g.Jy)
              + (Cx.I : Cx R) * kr * (1/2:R) * (g.Jz_new - g.Jz)) ∧
      (pushSpectralFields update_with_rho true false false c ep0 dt kr kz coef g).Bz
        = (pushSpectralFields update_with_rho false false false c ep0 dt kr kz coef g).Bz
          + (Cx.I : Cx R) * coef.X2/(c*c) * (kr * (g.Jx_new - g.Jx)
              + kr * (g.Jy_new - g.Jy)) ∧
      (pushSpectralFields update_with_rho true false false c ep0 dt kr kz coef g).F = g.F ∧
      (pushSpectralFields update_with_rho true false false c ep0 dt kr kz coef g).G = g.G :=
    fun g => ⟨rfl, rfl, rfl, rfl, rfl, rfl, rfl, rfl⟩
  refine ⟨?_, hgen⟩
  obtain ⟨h1, h2, h3, h4, h5, h6, _, _⟩ := hgen fields
  rw [h1, h2, h3, h4, h5, h6, hJp, hJm, hJz]
  obtain ⟨k1, _, _⟩ := add_mul_zero_combination
    (pushSpectralFields update_with_rho false false false c ep0 dt kr kz coef fields).Bx
    fields.Jx fields.Jz (fields.Jx - fields.Jx) (fields.Jz - fields.Jz) (coef.X2/(c*c))
    rfl rfl kz kr
  obtain ⟨_, k2, _⟩ := add_mul_zero_combination
    (pushSpectralFields update_with_rho false false false c ep0 dt kr kz coef fields).By
    fields.Jy fields.Jz (fields.Jy - fields.Jy) (fields.Jz - fields.Jz) (-coef.X2/(c*c))
    rfl rfl kz kr
  obtain ⟨_, _, k3⟩ := add_mul_zero_combination
    (pushSpectralFields update_with_rho false false false c ep0 dt kr kz coef fields).Bz
    fields.Jx fields.Jy (fields.Jx - fields.Jx) (fields.Jy - fields.Jy) (coef.X2/(c*c))
    rfl rfl kr kr
  refine ⟨add_mul_sub_self_div _ _ _ _, add_mul_sub_self_div _ _ _ _,
    add_mul_sub_self_div _ _ _ _, k1, k2, ?_⟩
  rw [Cx.eq_iff]
  simp

/-- Witness of C17 on the rationals. -/
theorem pushSpectralFields_J_linear_in_time_witness :
    (sampleFieldsSameJ.Jx_new = sampleFieldsSameJ.Jx ∧
      sampleFieldsSameJ.Jy_new = sampleFieldsSameJ.Jy ∧
      sampleFieldsSameJ.Jz_new = sampleFieldsSameJ.Jz) ∧
    (pushSpectralFields true true false false 7 3 (1/2) 1 2 ⟨1, 2, 3, 4, 5⟩
        sampleFieldsSameJ).Ex
      = (pushSpectralFields true false false false 7 3 (1/2) 1 2 ⟨1, 2, 3, 4, 5⟩
        sampleFieldsSameJ).Ex ∧
    (pushSpectralFields true true false false 7 3 (1/2) 1 2 ⟨1, 2, 3, 4, 5⟩
        sampleFieldsSameJ).Bz
      = (pushSpectralFields true false false false 7 3 (1/2) 1 2 ⟨1, 2, 3, 4, 5⟩
        sampleFieldsSameJ).Bz :=
  ⟨⟨rfl, rfl, rfl⟩,
    (pushSpectralFields_J_linear_in_time true 7 3 (1/2) 1 2 ⟨1, 2, 3, 4, 5⟩
      sampleFieldsSameJ rfl rfl rfl).1.1,
    (pushSpectralFields_J_linear_in_time true 7 3 (1/2) 1 2 ⟨1, 2, 3, 4, 5⟩
      sampleFieldsSameJ rfl rfl rfl).1.2.2.2.2.2⟩

end PsatdAlgorithmRZ

theorem count_flatMap_range {α : Type} [DecidableEq α] (a : α) (f : Nat → List α) (m : Nat) :
    List.count a ((List.range m).flatMap f)
      = ((List.range m).map (fun i => List.count a (f i))).sum := by
  induction m with
  | zero => simp
  | succ m ih =>
    rw [List.range_succ, List.flatMap_append, List.count_append, ih, List.map_append,
      List.sum_append]
    simp

theorem sum_range_const_one (m : Nat) : ((List.range m).map (fun _ => 1)).sum = m := by
  induction m with
  | zero => simp
  | succ m ih =>
    rw [List.range_succ, List.map_append, List.sum_append, ih]
    simp

theorem sum_range_indicator (n : Int) (hn : 1 ≤ n) (m : Nat) :
    ((List.range m).map (fun i : Nat => if (i : Int) = n - 1 then 1 else 0)).sum
      = if n - 1 < (m : Int) then 1 else 0 := by
  induction m with
  | zero =>
    have : ¬ (n - 1 < ((0 : Nat) : Int)) := by omega
    rw [if_neg this]
    rfl
  | succ m ih =>
    rw [List.range_succ, List.map_append, List.sum_append, ih]
    simp only [List.map_cons, List.map_nil, List.sum_cons, List.sum_nil, add_zero]
    split_ifs <;> omega

namespace WarpX

variable {R : Type} [LinearOrderedField R]

theorem OneStep_multiJ_body_count_push (w : WarpX R) (s : WarpXStatic) (i : Int) :
    List.count MultiJOp.PSATDPushSpectralFields (OneStep_multiJ_body w s i) = 1 := by
  unfold OneStep_multiJ_body
  simp only [List.count_append]
  split_ifs <;> simp [List.count_cons]

theorem OneStep_multiJ_body_count_back (w : WarpX R) (s : WarpXStatic) (i : Int) :
    List.count MultiJOp.PSATDBackwardTransformEB (OneStep_multiJ_body w s i)
      = if i = s.do_multi_J_n_depositions - 1 then 1 else 0 := by
  unfold OneStep_multiJ_body
  simp only [List.count_append]
  split_ifs <;> simp [List.count_cons]

theorem OneStep_multiJ_body_currentTimes (w : WarpX R) (s : WarpXStatic) (i : Int) :
    depositCurrentTimes (OneStep_multiJ_body w s i) = [OneStep_multiJ_t_depose w s i] := by
  unfold OneStep_multiJ_body depositCurrentTimes
  simp only [List.filterMap_append]
  split_ifs <;> simp [List.filterMap_cons]

theorem OneStep_multiJ_body_chargeTimes (w : WarpX R) (s : WarpXStatic) (i : Int) :
    depositChargeTimes (OneStep_multiJ_body w s i)
      = if s.update_with_rho then
          [((i - s.do_multi_J_n_depositions + 1 : Int) : R) * OneStep_multiJ_sub_dt w s]
        else [] := by
  unfold OneStep_multiJ_body depositChargeTimes
  simp only [List.filterMap_append]
  split_ifs <;> simp [List.filterMap_cons]

end WarpX

namespace WarpX

variable {R : Type} [LinearOrderedField R]

theorem OneStep_multiJ_prologue_counts (w : WarpX R) (s : WarpXStatic) (cur_time : R) :
    List.count MultiJOp.PSATDPushSpectralFields (OneStep_multiJ_prologue w s cur_time) = 0 ∧
    List.count MultiJOp.PSATDBackwardTransformEB (OneStep_multiJ_prologue w s cur_time) = 0 ∧
    depositChargeTimes (OneStep_multiJ_prologue w s cur_time)
      = (if s.update_with_rho then [-w.dt 0] else []) ∧
    depositCurrentTimes (OneStep_multiJ_prologue w s cur_time)
      = (if s.J_linear_in_time then [-w.dt 0] else []) := by
  unfold OneStep_multiJ_prologue depositChargeTimes depositCurrentTimes
  simp only [List.count_append, List.filterMap_append]
  refine ⟨?_, ?_, ?_, ?_⟩ <;> split_ifs <;> simp [List.count_cons, List.filterMap_cons]

theorem OneStep_multiJ_epilogue_counts (w : WarpX R) (s : WarpXStatic) :
    List.count MultiJOp.PSATDPushSpectralFields (OneStep_multiJ_epilogue w s) = 0 ∧
    List.count MultiJOp.PSATDBackwardTransformEB (OneStep_multiJ_epilogue w s) = 0 := by
  unfold OneStep_multiJ_epilogue
  simp only [List.count_append]
  refine ⟨?_, ?_⟩ <;> split_ifs <;> simp [List.count_cons]

/-- C14, counterexample. With the PSATD solver, 3 depositions per step,
`update_with_rho = false` and `J_linear_in_time = false`, no pass of the loop of
`WarpX::OneStep_multiJ` deposits the charge, and nothing is deposited before the loop:
there is no deposition at `-dt[0]` for the offsets of the loop to continue. -/
theorem OneStep_multiJ_depositions_counterexample :
    sampleWarpXStaticNoRho.maxwell_solver_id = MaxwellSolverAlgo.PSATD ∧
    1 ≤ sampleWarpXStaticNoRho.do_multi_J_n_depositions ∧
    (OneStep_multiJ sampleWarpX sampleWarpXStaticNoRho 0).abort = none ∧
    (∀ i : Int,
      depositChargeTimes (OneStep_multiJ_body sampleWarpX sampleWarpXStaticNoRho i) = []) ∧
    depositChargeTimes (OneStep_multiJ_prologue sampleWarpX sampleWarpXStaticNoRho 0) = [] ∧
    depositCurrentTimes (OneStep_multiJ_prologue sampleWarpX sampleWarpXStaticNoRho 0) = [] := by
  refine ⟨rfl, by decide, rfl, ?_, ?_, ?_⟩
  · intro i
    rw [OneStep_multiJ_body_chargeTimes]
    rfl
  · rw [(OneStep_multiJ_prologue_counts sampleWarpX sampleWarpXStaticNoRho 0).2.2.1]
    rfl
  · rw [(OneStep_multiJ_prologue_counts sampleWarpX sampleWarpXStaticNoRho 0).2.2.2]
    rfl

/-- C14, amended. In `WarpX::OneStep_multiJ` with the PSATD solver, `n_depose =
do_multi_J_n_depositions ≥ 1` and `sub_dt = dt[0]/n_depose`: the routine is not a fatal
error; its calls are those before the loop, then the passes through the loop body for
`i = 0, ..., n_loop - 1`, then those after the loop, and the body (one
`PSATDPushSpectralFields` per pass) runs exactly `n_depose` times, `2*n_depose` times with
`fft_do_time_averaging`; in pass `i` the charge is deposited (when `update_with_rho`) at
the relative time `(i - n_depose + 1)*sub_dt` and the current once, at
`(i - n_depose + 1)*sub_dt` when `J_linear_in_time` and at `(i - n_depose + 0.5)*sub_dt`
otherwise; before the loop the charge (when `update_with_rho`) and the current (when
`J_linear_in_time`) are deposited at `-dt[0]`, the offset of pass 0 is `-dt[0] + sub_dt`
and consecutive offsets differ by `sub_dt`; the offset of pass `n_depose - 1` is 0, and
that pass is the only one that transforms E and B back. -/
theorem OneStep_multiJ_depositions (w : WarpX R) (s : WarpXStatic) (cur_time : R)
    (hpsatd : s.maxwell_solver_id = MaxwellSolverAlgo.PSATD)
    (hn : 1 ≤ s.do_multi_J_n_depositions) :
    (OneStep_multiJ w s cur_time).abort = none ∧
    (OneStep_multiJ w s cur_time).ops
      = OneStep_multiJ_prologue w s cur_time
        ++ (List.range (if s.fft_do_time_averaging then 2*s.do_multi_J_n_depositions
              else s.do_multi_J_n_depositions).toNat).flatMap
            (fun i => OneStep_multiJ_body w s (i : Int))
        ++ OneStep_multiJ_epilogue w s ∧
    ((List.count MultiJOp.PSATDPushSpectralFields (OneStep_multiJ w s cur_time).ops : Int)
      = if s.fft_do_time_averaging then 2*s.do_multi_J_n_depositions
        else s.do_multi_J_n_depositions) ∧
    (∀ i : Int, depositChargeTimes (OneStep_multiJ_body w s i)
      = if s.update_with_rho then
          [((i : R) - (s.do_multi_J_n_depositions : R) + 1)
            * (w.dt 0 / (s.do_multi_J_n_depositions : R))]
        else []) ∧
    (∀ i : Int, depositCurrentTimes (OneStep_multiJ_body w s i)
      = [if s.J_linear_in_time then
          ((i : R) - (s.do_multi_J_n_depositions : R) + 1)
            * (w.dt 0 / (s.do_multi_J_n_depositions : R))
        else
          ((i : R) - (s.do_multi_J_n_depositions : R) + 1/2)
            * (w.dt 0 / (s.do_multi_J_n_depositions : R))]) ∧
    (depositChargeTimes (OneStep_multiJ_prologue w s cur_time)
      = (if s.update_with_rho then [-w.dt 0] else [])) ∧
    (depositCurrentTimes (OneStep_multiJ_prologue w s cur_time)
      = (if s.J_linear_in_time then [-w.dt 0] else [])) ∧
    (((0 : R) - (s.do_multi_J_n_depositions : R) + 1)
        * (w.dt 0 / (s.do_multi_J_n_depositions : R)) - (-w.dt 0)
      = w.dt 0 / (s.do_multi_J_n_depositions : R)) ∧
    (∀ i : Int, (((i + 1 : Int) : R) - (s.do_multi_J_n_depositions : R) + 1)
          * (w.dt 0 / (s.do_multi_J_n_depositions : R))
        - ((i : R) - (s.do_multi_J_n_depositions : R) + 1)
          * (w.dt 0 / (s.do_multi_J_n_depositions : R))
      = w.dt 0 / (s.do_multi_J_n_depositions : R)) ∧
    ((((s.do_multi_J_n_depositions - 1 : Int) : R) - (s.do_multi_J_n_depositions : R) + 1)
        * (w.dt 0 / (s.do_multi_J_n_depositions : R)) = 0) ∧
    (∀ i : Int, MultiJOp.PSATDBackwardTransformEB ∈ OneStep_multiJ_body w s i
      ↔ i = s.do_multi_J_n_depositions - 1) ∧
    List.count MultiJOp.PSATDBackwardTransformEB (OneStep_multiJ w s cur_time).ops = 1 := by
  obtain ⟨n, hndef⟩ : ∃ n, n = s.do_multi_J_n_depositions := ⟨_, rfl⟩
  rw [← hndef] at hn ⊢
  have hnR : (n : R) ≠ 0 := by
    have : (0 : R) < (n : R) := by exact_mod_cast (by omega : (0 : Int) < n)
    exact ne_of_gt this
  have hops : (OneStep_multiJ w s cur_time).ops
      = OneStep_multiJ_prologue w s cur_time
        ++ (List.range (if s.fft_do_time_averaging then 2*n else n).toNat).flatMap
            (fun i => OneStep_multiJ_body w s (i : Int))
        ++ OneStep_multiJ_epilogue w s := by
    unfold OneStep_multiJ OneStep_multiJ_n_loop
    rw [if_pos hpsatd, hndef]
  obtain ⟨hp1, hp2, hp3, hp4⟩ := OneStep_multiJ_prologue_counts w s cur_time
  obtain ⟨he1, he2⟩ := OneStep_multiJ_epilogue_counts w s
  refine ⟨?_, hops, ?_, ?_, ?_, hp3, hp4, ?_, ?_, ?_, ?_, ?_⟩
  · unfold OneStep_multiJ
    rw [if_pos hpsatd]
  · rw [hops, List.count_append, List.count_append, hp1, he1, count_flatMap_range]
    simp only [OneStep_multiJ_body_count_push, sum_range_const_one, zero_add, add_zero]
    split_ifs <;> omega
  · intro i
    rw [OneStep_multiJ_body_chargeTimes, OneStep_multiJ_sub_dt, ← hndef]
    push_cast
    rfl
  · intro i
    rw [OneStep_multiJ_body_currentTimes, OneStep_multiJ_t_depose, OneStep_multiJ_sub_dt,
      ← hndef]
    push_cast
    split_ifs <;> rfl
  · field_simp
    ring
  · intro i
    push_cast
    field_simp
    ring
  · push_cast
    ring
  · intro i
    rw [← List.count_pos_iff, OneStep_multiJ_body_count_back, ← hndef]
    split_ifs with h
    · simp [h]
    · simp [h]
  · rw [hops, List.count_append, List.count_append, hp2, he2, count_flatMap_range]
    simp only [OneStep_multiJ_body_count_back, ← hndef, zero_add, add_zero]
    rw [sum_range_indicator n hn]
    have : n - 1 < (((if s.fft_do_time_averaging then 2*n else n).toNat : Nat) : Int) := by
      split_ifs <;> omega
    rw [if_pos this]

/-- Witness of C14, amended: three depositions with time averaging. -/
theorem OneStep_multiJ_depositions_witness :
    (sampleWarpXStatic.maxwell_solver_id = MaxwellSolverAlgo.PSATD ∧
      1 ≤ sampleWarpXStatic.do_multi_J_n_depositions) ∧
    (OneStep_multiJ sampleWarpX sampleWarpXStatic 0).abort = none ∧
    ((List.count MultiJOp.PSATDPushSpectralFields
        (OneStep_multiJ sampleWarpX sampleWarpXStatic 0).ops : Int)
      = if sampleWarpXStatic.fft_do_time_averaging
        then 2*sampleWarpXStatic.do_multi_J_n_depositions
        else sampleWarpXStatic.do_multi_J_n_depositions) ∧
    List.count MultiJOp.PSATDBackwardTransformEB
      (OneStep_multiJ sampleWarpX sampleWarpXStatic 0).ops = 1 :=
  ⟨⟨rfl, by decide⟩,
    (OneStep_multiJ_depositions sampleWarpX sampleWarpXStatic 0 rfl (by decide)).1,
    (OneStep_multiJ_depositions sampleWarpX sampleWarpXStatic 0 rfl (by decide)).2.2.1,
    (OneStep_multiJ_depositions sampleWarpX sampleWarpXStatic 0 rfl (by decide)).2.2.2.2.2.2.2.2.2.2.2⟩

end WarpX

namespace WarpX

variable {R : Type} [LinearOrderedField R]

/-- The body of the loop, when the dispatch of the main PIC operation selects a routine:
what it does to `t_new` and `istep` on the levels `0..max_level`. -/
theorem Evolve_body_levels (w : WarpX R) (numsteps_max step : Int) (cur_time : R)
    (m : MainStep) (hm : Evolve_mainStep w = Outcome.ok m) :
    ∃ w1 : WarpX R,
      Evolve_body w numsteps_max step cur_time
        = Outcome.ok (w1, cur_time + w.dt 0, m,
            decide (cur_time + w.dt 0 ≥ w.stop_time - (1/1000 : R)*w.dt 0)) ∧
      w1.max_level = w.max_level ∧ w1.dt = w.dt ∧
      (∀ lev, lev ≤ w.max_level →
        w1.t_new lev = cur_time + w.dt 0 ∧ w1.istep lev = w.istep lev + 1) ∧
      Evolve_mainStep w1 = Outcome.ok m := by
  have hdisp : ∀ (b : Bool) (f : Nat → Int) (g : Nat → R),
      Evolve_mainStep { w with is_synchronized := b, istep := f, t_new := g }
        = Evolve_mainStep w := fun _ _ _ => rfl
  unfold Evolve_body
  simp only [hm]
  refine ⟨_, rfl, rfl, rfl, ?_, ?_⟩
  · intro lev hlev
    exact ⟨if_pos hlev, if_pos hlev⟩
  · rw [hdisp, hm]

/-- The loop of `WarpX::Evolve` returns whenever the dispatch of the main PIC operation
selects a routine; the values of `cur_time`, `t_new` and `istep` along its iterations. -/
theorem Evolve_loop_levels (numsteps_max : Int) (m : MainStep) :
    ∀ (n : Nat) (step : Int) (cur_time : R) (w : WarpX R),
      (numsteps_max - step).toNat = n → Evolve_mainStep w = Outcome.ok m →
      ∃ res : EvolveResult R, Evolve_loop numsteps_max step cur_time w = Outcome.ok res ∧
        (∀ (k : Nat) (r : IterationRecord R), res.iterations[k]? = some r →
          r.cur_time = cur_time + (k : R) * w.dt 0 ∧
          ∀ lev, lev ≤ w.max_level →
            r.after.t_new lev = cur_time + ((k : R) + 1) * w.dt 0 ∧
            r.after.istep lev = w.istep lev + ((k : Int) + 1)) ∧
        res.cur_time = cur_time + (res.iterations.length : R) * w.dt 0 ∧
        (∀ lev, lev ≤ w.max_level →
          res.final.istep lev = w.istep lev + (res.iterations.length : Int) ∧
          (res.iterations ≠ [] → res.final.t_new lev = res.cur_time)) ∧
        (res.iterations = [] → res.final = w ∧ res.cur_time = cur_time) := by
  intro n
  induction n with
  | zero =>
    intro step cur_time w hn hm
    have hcond : ¬ (step < numsteps_max ∧ cur_time < w.stop_time) := fun h => by omega
    rw [Evolve_loop, dif_neg hcond]
    refine ⟨_, rfl, ?_, ?_, ?_, fun _ => ⟨rfl, rfl⟩⟩
    · intro k r hr
      simp at hr
    · simp
    · intro lev _
      simp
  | succ n ih =>
    intro step cur_time w hn hm
    by_cases hcond : step < numsteps_max ∧ cur_time < w.stop_time
    · obtain ⟨w1, hbody, hmax, hdt1, hlev1, hm1⟩ :=
        Evolve_body_levels w numsteps_max step cur_time m hm
      rw [Evolve_loop, dif_pos hcond]
      simp only [hbody]
      by_cases hbrk : cur_time + w.dt 0 ≥ w.stop_time - (1/1000 : R) * w.dt 0
      · simp only [hbrk, decide_True, if_true]
        refine ⟨_, rfl, ?_, ?_, ?_, fun h => by simp at h⟩
        · intro k r hr
          cases k with
          | zero =>
            simp only [List.getElem?_cons_zero, Option.some.injEq] at hr
            subst hr
            refine ⟨by simp, ?_⟩
            intro lev hlev
            obtain ⟨h1, h2⟩ := hlev1 lev hlev
            exact ⟨by simp [h1], by simp [h2]⟩
          | succ k =>
            simp at hr
        · simp
        · intro lev hlev
          obtain ⟨h1, h2⟩ := hlev1 lev hlev
          exact ⟨by simp [h2], fun _ => h1⟩
      · simp only [hbrk, decide_False, Bool.false_eq_true, if_false]
        have hn1 : (numsteps_max - (step + 1)).toNat = n := by omega
        obtain ⟨res, hres, hA, hB, hC, hD⟩ := ih (step + 1) (cur_time + w.dt 0) w1 hn1 hm1
        rw [hres]
        rw [hdt1] at hA hB
        rw [hmax] at hA hC
        refine ⟨_, rfl, ?_, ?_, ?_, fun h => by simp at h⟩
        · intro k r hr
          cases k with
          | zero =>
            simp only [List.getElem?_cons_zero, Option.some.injEq] at hr
            subst hr
            refine ⟨by simp, ?_⟩
            intro lev hlev
            obtain ⟨h1, h2⟩ := hlev1 lev hlev
            exact ⟨by simp [h1], by simp [h2]⟩
          | succ k =>
            simp only [List.getElem?_cons_succ] at hr
            obtain ⟨h1, h2⟩ := hA k r hr
            refine ⟨?_, ?_⟩
            · rw [h1]
              push_cast
              ring
            · intro lev hlev
              obtain ⟨h3, h4⟩ := h2 lev hlev
              refine ⟨?_, ?_⟩
              · rw [h3]
                push_cast
                ring
              · rw [h4, (hlev1 lev hlev).2]
                push_cast
                ring
        · show res.cur_time = cur_time + ((res.iterations.length + 1 : Nat) : R) * w.dt 0
          rw [hB]
          push_cast
          ring
        · intro lev hlev
          obtain ⟨h3, h4⟩ := hC lev hlev
          refine ⟨?_, ?_⟩
          · show res.final.istep lev = w.istep lev + ((res.iterations.length + 1 : Nat) : Int)
            rw [h3, (hlev1 lev hlev).2]
            push_cast
            ring
          · intro _
            show res.final.t_new lev = res.cur_time
            by_cases hnil : res.iterations = []
            · obtain ⟨h5, h6⟩ := hD hnil
              rw [h5, h6]
              exact (hlev1 lev hlev).1
            · exact h4 hnil
    · rw [Evolve_loop, dif_neg hcond]
      refine ⟨_, rfl, ?_, ?_, ?_, fun _ => ⟨rfl, rfl⟩⟩
      · intro k r hr
        simp at hr
      · simp
      · intro lev _
        simp

end WarpX

namespace WarpX

variable {R : Type} [LinearOrderedField R]

/-- C19. When the dispatch of the main PIC operation selects a routine, `WarpX::Evolve`
returns, and for the iteration of index `k` (the `k+1`-th completed one) and every level
`lev` in `0..max_level`: `t_new[lev]` at the end of the iteration equals the loop's
`cur_time` (its value at the start of the iteration plus `dt[0]`), which is the entry value
of `t_new[0]` plus `(k+1)*dt[0]`, and `istep[lev]` is its entry value plus `k+1`.  On
return `cur_time` is the entry value of `t_new[0]` plus `dt[0]` times the number of
iterations, every `istep[lev]` has increased by that number, and `t_new[lev]` equals
`cur_time` if an iteration was executed. -/
theorem Evolve_t_new_istep_levels (w : WarpX R) (numsteps : Int) (m : MainStep)
    (hm : Evolve_mainStep w = Outcome.ok m) :
    ∃ res : EvolveResult R, Evolve w numsteps = Outcome.ok res ∧
      (∀ (k : Nat) (r : IterationRecord R), res.iterations[k]? = some r →
        ∀ lev, lev ≤ w.max_level →
          r.after.t_new lev = r.cur_time + w.dt 0 ∧
          r.after.t_new lev = w.t_new 0 + ((k : R) + 1) * w.dt 0 ∧
          r.after.istep lev = w.istep lev + ((k : Int) + 1)) ∧
      res.cur_time = w.t_new 0 + (res.iterations.length : R) * w.dt 0 ∧
      (∀ lev, lev ≤ w.max_level →
        res.final.istep lev = w.istep lev + (res.iterations.length : Int) ∧
        (res.iterations ≠ [] → res.final.t_new lev = res.cur_time)) := by
  obtain ⟨res, hres, hA, hB, hC, _⟩ :=
    Evolve_loop_levels (Evolve_numsteps_max w numsteps) m _ (w.istep 0) (w.t_new 0) w rfl hm
  refine ⟨res, hres, ?_, hB, hC⟩
  intro k r hr lev hlev
  obtain ⟨h1, h2⟩ := hA k r hr
  obtain ⟨h3, h4⟩ := h2 lev hlev
  refine ⟨?_, h3, h4⟩
  rw [h3, h1]
  ring

/-- Witness of C19: the run of `sampleWarpXTwoLevels`. -/
theorem Evolve_t_new_istep_levels_witness :
    Evolve_mainStep sampleWarpXTwoLevels = Outcome.ok MainStep.OneStep_nosub ∧
    ∃ res : EvolveResult ℚ, Evolve sampleWarpXTwoLevels (-1) = Outcome.ok res ∧
      (∀ (k : Nat) (r : IterationRecord ℚ), res.iterations[k]? = some r →
        ∀ lev, lev ≤ sampleWarpXTwoLevels.max_level →
          r.after.t_new lev = r.cur_time + sampleWarpXTwoLevels.dt 0 ∧
          r.after.t_new lev
            = sampleWarpXTwoLevels.t_new 0 + ((k : ℚ) + 1) * sampleWarpXTwoLevels.dt 0 ∧
          r.after.istep lev = sampleWarpXTwoLevels.istep lev + ((k : Int) + 1)) ∧
      res.cur_time
        = sampleWarpXTwoLevels.t_new 0
          + (res.iterations.length : ℚ) * sampleWarpXTwoLevels.dt 0 ∧
      (∀ lev, lev ≤ sampleWarpXTwoLevels.max_level →
        res.final.istep lev
          = sampleWarpXTwoLevels.istep lev + (res.iterations.length : Int) ∧
        (res.iterations ≠ [] → res.final.t_new lev = res.cur_time)) :=
  ⟨rfl, Evolve_t_new_istep_levels sampleWarpXTwoLevels (-1) MainStep.OneStep_nosub rfl⟩

end WarpX

namespace WarpX

variable {R : Type} [LinearOrderedField R]

/-- With a nonzero period the loop over the entries multiplies each by `1 - 2/period`. -/
theorem Evolve_costs_level_of_ne (localPeriod : Int) (hP : localPeriod ≠ 0) (cost : List R) :
    Evolve_costs_level localPeriod cost
      = some (cost.map (fun c => c * (1 - 2 / (localPeriod : R)))) := by
  have hPR : (localPeriod : R) ≠ 0 := by exact_mod_cast hP
  induction cost with
  | nil => rfl
  | cons c cost ih =>
    simp only [Evolve_costs_level, Evolve_costs_entry,
      PsatdAlgorithmRZ.checkedDiv_of_ne _ hPR, Option.map_some', ih, List.map_cons]

/-- With a nonzero period the first `nlev` passes of the loop over the levels multiply
the entries of the levels below `nlev` when the update is by timers. -/
theorem Evolve_costs_levels_of_ne (algo : LoadBalanceCostsUpdateAlgo) (localPeriod : Int)
    (hP : localPeriod ≠ 0) (costs : Nat → Option (List R)) (nlev : Nat) :
    Evolve_costs_levels algo localPeriod costs nlev
      = some (fun lev =>
          if lev < nlev ∧ algo = LoadBalanceCostsUpdateAlgo.Timers then
            (costs lev).map (List.map (fun c => c * (1 - 2 / (localPeriod : R))))
          else costs lev) := by
  induction nlev with
  | zero =>
    simp [Evolve_costs_levels]
  | succ n ih =>
    rw [Evolve_costs_levels, ih]
    by_cases halgo : algo = LoadBalanceCostsUpdateAlgo.Timers
    · simp only [halgo, and_true, Nat.lt_irrefl, if_false, if_true]
      cases hc : costs n with
      | none =>
        simp only [Option.some.injEq]
        funext lev
        by_cases h1 : lev < n
        · simp [h1, Nat.lt_succ_of_lt h1]
        · by_cases h2 : lev = n
          · subst h2
            simp [hc]
          · have h3 : ¬ lev < n + 1 := by omega
            simp [h1, h3]
      | some cost =>
        simp only [Evolve_costs_level_of_ne localPeriod hP, Option.map_some',
          Option.some.injEq]
        funext lev
        by_cases h2 : lev = n
        · subst h2
          simp [hc]
        · by_cases h1 : lev < n
          · simp [h1, h2, Nat.lt_succ_of_lt h1]
          · have h3 : ¬ lev < n + 1 := by omega
            simp [h1, h2, h3]
    · simp only [halgo, and_false, if_false]
      cases hc : costs n <;> rfl

end WarpX

namespace WarpX

variable {R : Type} [LinearOrderedField R]

/-- C20. At the start of the iteration `step` of `WarpX::Evolve`, with
`P = load_balance_intervals.localPeriod(step+1)` nonzero, the block on the costs returns.
If level 0 has no costs, nothing is called and the costs are unchanged.  If it has, then
`LoadBalance` followed by `ResetCosts` is called exactly when `step > 0` and the intervals
contain `step+1`, and with the update by timers every entry of every level
`0..finest_level` that has costs is then multiplied by exactly `1 - 2/P`, nothing being
added to it; with another update the entries are left as they are.  For every `P ≥ 2` the
factor lies in `[0, 1)`, so that `0 ≤ c` gives `0 ≤ c*(1 - 2/P) ≤ c`. -/
theorem Evolve_costs_running_average (contains : Int → Bool) (localPeriod : Int → Int)
    (LoadBalance ResetCosts : (Nat → Option (List R)) → (Nat → Option (List R)))
    (algo : LoadBalanceCostsUpdateAlgo) (finest_level : Nat) (step : Int)
    (costs : Nat → Option (List R)) (hP : localPeriod (step + 1) ≠ 0) :
    ∃ run : CostsRun R,
      Evolve_costs contains localPeriod LoadBalance ResetCosts algo finest_level step costs
        = some run ∧
      (run.events = [CostEvent.LoadBalance, CostEvent.ResetCosts]
        ↔ (costs 0 ≠ none ∧ 0 < step ∧ contains (step + 1) = true)) ∧
      (run.events ≠ [CostEvent.LoadBalance, CostEvent.ResetCosts] → run.events = []) ∧
      (costs 0 = none → run.costs = costs) ∧
      (costs 0 ≠ none → ∀ lev, lev ≤ finest_level →
        run.costs lev
          = if algo = LoadBalanceCostsUpdateAlgo.Timers then
              ((if 0 < step ∧ contains (step + 1) = true then ResetCosts (LoadBalance costs)
                else costs) lev).map
                (List.map (fun c => c * (1 - 2 / ((localPeriod (step + 1) : Int) : R))))
            else
              (if 0 < step ∧ contains (step + 1) = true then ResetCosts (LoadBalance costs)
                else costs) lev) ∧
      (2 ≤ localPeriod (step + 1) →
        0 ≤ 1 - 2 / ((localPeriod (step + 1) : Int) : R) ∧
        1 - 2 / ((localPeriod (step + 1) : Int) : R) < 1 ∧
        ∀ c : R, 0 ≤ c →
          0 ≤ c * (1 - 2 / ((localPeriod (step + 1) : Int) : R)) ∧
          c * (1 - 2 / ((localPeriod (step + 1) : Int) : R)) ≤ c) := by
  have hnum : 2 ≤ localPeriod (step + 1) →
      0 ≤ 1 - 2 / ((localPeriod (step + 1) : Int) : R) ∧
      1 - 2 / ((localPeriod (step + 1) : Int) : R) < 1 ∧
      ∀ c : R, 0 ≤ c →
        0 ≤ c * (1 - 2 / ((localPeriod (step + 1) : Int) : R)) ∧
        c * (1 - 2 / ((localPeriod (step + 1) : Int) : R)) ≤ c := by
    intro h2
    obtain ⟨p, hp⟩ : ∃ p : R, p = ((localPeriod (step + 1) : Int) : R) := ⟨_, rfl⟩
    rw [← hp]
    have hp2 : (2 : R) ≤ p := by
      rw [hp]
      exact_mod_cast h2
    have hp0 : 0 < p := by linarith
    have hq1 : 2 / p ≤ 1 := by
      rw [div_le_one hp0]
      exact hp2
    have hq0 : 0 < 2 / p := by positivity
    refine ⟨by linarith, by linarith, ?_⟩
    intro c hc
    refine ⟨mul_nonneg hc (by linarith), ?_⟩
    have : c * (1 - 2 / p) = c - c * (2 / p) := by ring
    rw [this]
    have := mul_nonneg hc (le_of_lt hq0)
    linarith
  cases hc0 : costs 0 with
  | none =>
    refine ⟨{ costs := costs, events := [] }, ?_, ?_, ?_, ?_, ?_, hnum⟩
    · simp only [Evolve_costs, hc0]
    · simp
    · intro _
      rfl
    · intro _
      rfl
    · intro h
      exact absurd rfl h
  | some cost0 =>
    by_cases hb : 0 < step ∧ contains (step + 1) = true
    · have hbal : (decide (step > 0) && contains (step + 1)) = true := by
        simp [hb.1, hb.2]
      simp only [Evolve_costs, hc0, hbal, if_true, Evolve_costs_levels_of_ne algo _ hP,
        Option.map_some']
      refine ⟨_, rfl, ?_, ?_, ?_, ?_, hnum⟩
      · simp [hb.1, hb.2]
      · intro h
        exact absurd rfl h
      · intro h
        simp at h
      · intro _ lev hlev
        have hl : lev < finest_level + 1 := by omega
        simp only [hl, true_and, hb, and_self, if_true]
    · have hbal : (decide (step > 0) && contains (step + 1)) = false := by
        by_cases h1 : 0 < step
        · have h2 : ¬ contains (step + 1) = true := fun h => hb ⟨h1, h⟩
          simp [h2]
        · simp [h1]
      simp only [Evolve_costs, hc0, hbal, Bool.false_eq_true, if_false,
        Evolve_costs_levels_of_ne algo _ hP, Option.map_some']
      refine ⟨_, rfl, ?_, ?_, ?_, ?_, hnum⟩
      · simp [hb]
      · intro _
        rfl
      · intro h
        simp at h
      · intro _ lev hlev
        have hl : lev < finest_level + 1 := by omega
        simp only [hl, true_and, hb, if_false]

/-- Witness of C20: the iteration `step = 9` with intervals of period 10 on
`sampleCosts`. -/
theorem Evolve_costs_running_average_witness :
    sampleLocalPeriod (9 + 1) ≠ 0 ∧
    ∃ run : CostsRun ℚ,
      Evolve_costs sampleContains sampleLocalPeriod id sampleResetCosts
        LoadBalanceCostsUpdateAlgo.Timers 1 9 sampleCosts = some run ∧
      (run.events = [CostEvent.LoadBalance, CostEvent.ResetCosts]
        ↔ (sampleCosts 0 ≠ none ∧ (0 : Int) < 9 ∧ sampleContains (9 + 1) = true)) :=
  ⟨by decide,
    (Evolve_costs_running_average sampleContains sampleLocalPeriod id sampleResetCosts
      LoadBalanceCostsUpdateAlgo.Timers 1 9 sampleCosts (by decide)).imp
      (fun _ h => ⟨h.1, h.2.1⟩)⟩

end WarpX

namespace PsatdAlgorithmRZ

variable {R : Type} [LinearOrderedField R]

/-- With `c`, `ep0`, `dt` nonzero the kernel of `InitializeSpectralCoefficients` returns. -/
theorem InitializeSpectralCoefficients_isSome (sqrt cos sin : R → R) (c ep0 dt kr kz : R)
    (hc : c ≠ 0) (hep0 : ep0 ≠ 0) (hdt : dt ≠ 0) :
    ∃ v, InitializeSpectralCoefficients sqrt cos sin c ep0 dt kr kz = some v := by
  by_cases hk : sqrt (kr*kr + kz*kz) = 0
  · exact ⟨_, InitializeSpectralCoefficients_zero sqrt cos sin c ep0 dt kr kz hep0 hk⟩
  · exact ⟨_, InitializeSpectralCoefficients_general sqrt cos sin c ep0 dt kr kz hc hep0 hdt hk⟩

/-- The loops of the member `InitializeSpectralCoefficients` over the first `n` points
return, store the value of the kernel at each of these points and leave the others. -/
theorem InitializeSpectralCoefficients_points_spec (sqrt cos sin : R → R) (c ep0 : R)
    (a : Members R) (f : SpectralFieldDataRZ R)
    (hc : c ≠ 0) (hep0 : ep0 ≠ 0) (hdt : a.m_dt ≠ 0) (n : Nat) :
    ∃ coef, InitializeSpectralCoefficients_points sqrt cos sin c ep0 a f n = some coef ∧
      (∀ p, p < n →
        InitializeSpectralCoefficients sqrt cos sin c ep0 a.m_dt (f.kr p)
          (a.modified_kz_vec p) = some (coef p)) ∧
      (∀ p, n ≤ p → coef p = a.coef p) := by
  induction n with
  | zero =>
    exact ⟨a.coef, rfl, fun p hp => absurd hp (Nat.not_lt_zero p), fun _ _ => rfl⟩
  | succ n ih =>
    obtain ⟨coef, h1, h2, h3⟩ := ih
    obtain ⟨v, hv⟩ := InitializeSpectralCoefficients_isSome sqrt cos sin c ep0 a.m_dt
      (f.kr n) (a.modified_kz_vec n) hc hep0 hdt
    refine ⟨fun p => if p = n then v else coef p, ?_, ?_, ?_⟩
    · simp only [InitializeSpectralCoefficients_points, h1, hv]
    · intro p hp
      by_cases hpn : p = n
      · subst hpn
        simp only [if_true]
        exact hv
      · simp only [hpn, if_false]
        exact h2 p (by omega)
    · intro p hp
      have hpn : p ≠ n := by omega
      simp only [hpn, if_false]
      exact h3 p (by omega)

/-- The kernel of `pushSpectralFields` only reads the coefficients. -/
theorem not_mem_readEvents (n : Nat) :
    Event.InitializeSpectralCoefficients ∉ (readEvents n : List Event) := by
  simp [readEvents]

/-- A call of `pushSpectralFields` on an object whose coefficients are initialized leaves
the object as it is and only reads the coefficients. -/
theorem pushSpectralFields_member_initialized (sqrt cos sin : R → R) (c ep0 : R)
    (a : Members R) (f : SpectralFieldDataRZ R) (ha : a.coefficients_initialized = true) :
    ∃ f1, pushSpectralFields_member sqrt cos sin c ep0 a f
      = some (a, f1, readEvents f.npoints) := by
  simp only [pushSpectralFields_member, ha, Bool.not_true, Bool.false_eq_true, if_false,
    Option.map_some', List.nil_append]
  exact ⟨_, rfl⟩

/-- Successive calls of `pushSpectralFields` on an object whose coefficients are
initialized. -/
theorem pushSpectralFields_calls_initialized (sqrt cos sin : R → R) (c ep0 : R)
    (a : Members R) (ha : a.coefficients_initialized = true)
    (fs : List (SpectralFieldDataRZ R)) :
    pushSpectralFields_calls sqrt cos sin c ep0 a fs
      = some (fs.map (fun g => (a, readEvents g.npoints))) := by
  induction fs with
  | nil => rfl
  | cons f fs ih =>
    obtain ⟨f1, hf1⟩ := pushSpectralFields_member_initialized sqrt cos sin c ep0 a f ha
    simp only [pushSpectralFields_calls, hf1, ih, Option.map_some', List.map_cons]

/-- The first call of `pushSpectralFields` on an object whose coefficients are not
initialized. -/
theorem pushSpectralFields_member_first (sqrt cos sin : R → R) (c ep0 : R)
    (a : Members R) (f : SpectralFieldDataRZ R) (ha : a.coefficients_initialized = false)
    (hc : c ≠ 0) (hep0 : ep0 ≠ 0) (hdt : a.m_dt ≠ 0) :
    ∃ a1 f1, pushSpectralFields_member sqrt cos sin c ep0 a f
        = some (a1, f1, Event.InitializeSpectralCoefficients :: readEvents f.npoints) ∧
      a1.coefficients_initialized = true ∧
      (∀ p, p < f.npoints →
        InitializeSpectralCoefficients sqrt cos sin c ep0 a.m_dt (f.kr p)
          (a.modified_kz_vec p) = some (a1.coef p)) ∧
      (∀ p, f.npoints ≤ p → a1.coef p = a.coef p) := by
  obtain ⟨coef, h1, h2, h3⟩ :=
    InitializeSpectralCoefficients_points_spec sqrt cos sin c ep0 a f hc hep0 hdt f.npoints
  simp only [pushSpectralFields_member, ha, Bool.not_false, if_true,
    InitializeSpectralCoefficients_member, h1, Option.map_some', List.singleton_append]
  exact ⟨_, _, rfl, rfl, h2, h3⟩

end PsatdAlgorithmRZ

namespace PsatdAlgorithmRZ

variable {R : Type} [LinearOrderedField R]

/-- C18. On a freshly constructed `PsatdAlgorithmRZ` (with `c`, `ep0`, `dt` nonzero)
`coefficients_initialized` is false, and a sequence of `n ≥ 1` calls of
`pushSpectralFields`, with the arguments `f` and then `fs`, returns with one result for each
call such that: `InitializeSpectralCoefficients` is invoked exactly once over the whole
sequence; it is the first event of the first call, before every read of a coefficient;
the coefficients it stored at the points of `f` are the values of the kernel for the
wave numbers of `f`; after every call `coefficients_initialized` is true; and after every
later call `C`, `S_ck`, `X1`, `X2`, `X3` are what they were after the first call, the
later calls only reading them. -/
theorem pushSpectralFields_lazy_initialization (sqrt cos sin : R → R) (c ep0 dt : R)
    (alloc : Nat → SpectralCoefficients R) (modified_kz_vec : Nat → R)
    (update_with_rho J_linear_in_time dive_cleaning divb_cleaning : Bool)
    (f : SpectralFieldDataRZ R) (fs : List (SpectralFieldDataRZ R))
    (hc : c ≠ 0) (hep0 : ep0 ≠ 0) (hdt : dt ≠ 0) :
    (construct alloc modified_kz_vec dt update_with_rho J_linear_in_time dive_cleaning
      divb_cleaning).coefficients_initialized = false ∧
    ∃ (a1 : Members R) (rest : List (Members R × List Event)),
      pushSpectralFields_calls sqrt cos sin c ep0
          (construct alloc modified_kz_vec dt update_with_rho J_linear_in_time dive_cleaning
            divb_cleaning) (f :: fs)
        = some ((a1, Event.InitializeSpectralCoefficients :: readEvents f.npoints) :: rest) ∧
      rest.length = fs.length ∧
      List.count Event.InitializeSpectralCoefficients
        (((a1, Event.InitializeSpectralCoefficients :: readEvents f.npoints) :: rest).flatMap
          (fun x => x.2)) = 1 ∧
      Event.InitializeSpectralCoefficients ∉ readEvents f.npoints ∧
      (∀ p, p < f.npoints →
        InitializeSpectralCoefficients sqrt cos sin c ep0 dt (f.kr p) (modified_kz_vec p)
          = some (a1.coef p)) ∧
      a1.coefficients_initialized = true ∧
      (∀ x ∈ rest, x.1.coefficients_initialized = true ∧ x.1.coef = a1.coef ∧
        Event.InitializeSpectralCoefficients ∉ x.2) := by
  refine ⟨rfl, ?_⟩
  obtain ⟨a1, f1, h1, h2, h3, _⟩ := pushSpectralFields_member_first sqrt cos sin c ep0
    (construct alloc modified_kz_vec dt update_with_rho J_linear_in_time dive_cleaning
      divb_cleaning) f rfl hc hep0 hdt
  refine ⟨a1, fs.map (fun g => (a1, readEvents g.npoints)), ?_, ?_, ?_,
    not_mem_readEvents _, h3, h2, ?_⟩
  · simp only [pushSpectralFields_calls, h1,
      pushSpectralFields_calls_initialized sqrt cos sin c ep0 a1 h2, Option.map_some']
  · simp
  · have hrest : List.count Event.InitializeSpectralCoefficients
        ((fs.map (fun g => (a1, readEvents g.npoints))).flatMap (fun x => x.2)) = 0 := by
      rw [List.count_eq_zero]
      intro hmem
      simp only [List.mem_flatMap, List.mem_map] at hmem
      obtain ⟨x, ⟨g, _, hg⟩, hx⟩ := hmem
      subst hg
      exact not_mem_readEvents _ hx
    rw [List.flatMap_cons, List.count_append, hrest, List.count_cons_self,
      List.count_eq_zero.mpr (not_mem_readEvents _)]
  · intro x hx
    simp only [List.mem_map] at hx
    obtain ⟨g, _, hg⟩ := hx
    subst hg
    exact ⟨h2, rfl, not_mem_readEvents _⟩

/-- Witness of C18: three calls on `sampleMembers` with the identity in place of `sqrt` and
of `sin` and the constant 1 in place of `cos`, `c = 2`, `ep0 = 3`, `dt = 1/2`. -/
theorem pushSpectralFields_lazy_initialization_witness :
    ((2:ℚ) ≠ 0 ∧ (3:ℚ) ≠ 0 ∧ (1/2:ℚ) ≠ 0) ∧
    sampleMembers.coefficients_initialized = false ∧
    ∃ (a1 : Members ℚ) (rest : List (Members ℚ × List Event)),
      pushSpectralFields_calls (fun x : ℚ => x) (fun _ => 1) (fun x => x) 2 3 sampleMembers
          [sampleFieldData, sampleFieldData, sampleFieldData]
        = some ((a1, Event.InitializeSpectralCoefficients
                      :: readEvents sampleFieldData.npoints) :: rest) ∧
      rest.length = 2 :=
  ⟨⟨by norm_num, by norm_num, by norm_num⟩, rfl,
    (pushSpectralFields_lazy_initialization (fun x : ℚ => x) (fun _ => 1) (fun x => x) 2 3
      (1/2) (fun _ => { C := 0, S_ck := 0, X1 := 0, X2 := 0, X3 := 0 }) (fun _ => 0)
      true false false false sampleFieldData [sampleFieldData, sampleFieldData]
      (by norm_num) (by norm_num) (by norm_num)).2.imp
      (fun _ h => h.imp (fun _ h2 => ⟨h2.1, h2.2.1⟩))⟩

end PsatdAlgorithmRZ

namespace MacroscopicProperties

variable {R : Type} [LinearOrderedField R]

/-- C21. `face_avg_to_face` returns the value on the face itself when the nodalities of
the input and of the output coincide, `Fieldcomp(i,j,k,n)` for every `Fieldcomp`, `i`,
`j`, `k`, `n` and `iv_in = iv_out`; and for `iv_in = (0,1,0)`, `iv_out = (1,0,0)` it
returns `0.25*(F(i,j,k) + F(i,j+1,k) + F(i-1,j,k) + F(i-1,j+1,k))`. -/
theorem face_avg_to_face_documented (i j k n : Int) (iv : IntVect)
    (Fieldcomp : Int → Int → Int → Int → R) :
    face_avg_to_face i j k n iv iv Fieldcomp = Fieldcomp i j k n ∧
    face_avg_to_face i j k n ⟨0, 1, 0⟩ ⟨1, 0, 0⟩ Fieldcomp
      = (1/4 : R) * (Fieldcomp i j k n + Fieldcomp i (j+1) k n + Fieldcomp (i-1) j k n
          + Fieldcomp (i-1) (j+1) k n) := by
  constructor
  · simp only [face_avg_to_face, add_sub_cancel_right]
    ring
  · have h1 : i + 0 - 1 = i - 1 := by ring
    have h2 : j + 1 - 0 = j + 1 := by ring
    have h3 : k + 0 - 0 = k := by ring
    simp only [face_avg_to_face, h1, h2, h3]
    ring

end MacroscopicProperties

namespace MacroscopicProperties

variable {R : Type} [LinearOrderedField R]

/-- The denominator of `updateM_field` is positive. -/
theorem one_add_sq_pos (a0 a1 a2 : R) : 0 < 1 + (a0^2 + a1^2 + a2^2) := by
  have h0 := sq_nonneg a0
  have h1 := sq_nonneg a1
  have h2 := sq_nonneg a2
  linarith

/-- A solution of `N + a x N = b` is given by the closed formula, component by component. -/
theorem cross_solution_unique (a0 a1 a2 b0 b1 b2 N0 N1 N2 : R)
    (e0 : N0 + (a1 * N2 - a2 * N1) = b0)
    (e1 : N1 + (a2 * N0 - a0 * N2) = b1)
    (e2 : N2 + (a0 * N1 - a1 * N0) = b2) :
    N0 = (b0 + (a0*b0 + a1*b1 + a2*b2) * a0 - (a1*b2 - a2*b1)) / (1 + (a0^2 + a1^2 + a2^2)) ∧
    N1 = (b1 + (a0*b0 + a1*b1 + a2*b2) * a1 - (a2*b0 - a0*b2)) / (1 + (a0^2 + a1^2 + a2^2)) ∧
    N2 = (b2 + (a0*b0 + a1*b1 + a2*b2) * a2 - (a0*b1 - a1*b0)) / (1 + (a0^2 + a1^2 + a2^2)) := by
  have hd : (1 + (a0^2 + a1^2 + a2^2) : R) ≠ 0 := ne_of_gt (one_add_sq_pos a0 a1 a2)
  refine ⟨?_, ?_, ?_⟩
  · rw [eq_div_iff hd]
    linear_combination (1 + a0^2) * e0 + (a0*a1 + a2) * e1 + (a0*a2 - a1) * e2
  · rw [eq_div_iff hd]
    linear_combination (a0*a1 - a2) * e0 + (1 + a1^2) * e1 + (a1*a2 + a0) * e2
  · rw [eq_div_iff hd]
    linear_combination (a0*a2 + a1) * e0 + (a1*a2 - a0) * e1 + (1 + a2^2) * e2

/-- C27. For every pair of vectors `a`, `b` stored at `(i,j,k)`, `updateM_field` returns
for `n = 0, 1, 2` the components of a vector `M` with `M + a x M = b`; `M` is the only
solution of that equation and equals `(b + (a.b)*a - a x b)/(1 + |a|^2)`; the denominator
`1 + |a|^2` is not 0; and every `n` outside `{0, 1, 2}` is a fatal abort. -/
theorem updateM_field_solves (i j k : Int) (a b : Int → Int → Int → Int → R) :
    ∃ M0 M1 M2 : R,
      updateM_field i j k 0 a b = Outcome.ok M0 ∧
      updateM_field i j k 1 a b = Outcome.ok M1 ∧
      updateM_field i j k 2 a b = Outcome.ok M2 ∧
      (M0 + (a i j k 1 * M2 - a i j k 2 * M1) = b i j k 0 ∧
       M1 + (a i j k 2 * M0 - a i j k 0 * M2) = b i j k 1 ∧
       M2 + (a i j k 0 * M1 - a i j k 1 * M0) = b i j k 2) ∧
      (∀ N0 N1 N2 : R,
        N0 + (a i j k 1 * N2 - a i j k 2 * N1) = b i j k 0 →
        N1 + (a i j k 2 * N0 - a i j k 0 * N2) = b i j k 1 →
        N2 + (a i j k 0 * N1 - a i j k 1 * N0) = b i j k 2 →
        N0 = M0 ∧ N1 = M1 ∧ N2 = M2) ∧
      M0 = (b i j k 0
              + (a i j k 0 * b i j k 0 + a i j k 1 * b i j k 1 + a i j k 2 * b i j k 2)
                * a i j k 0
              - (a i j k 1 * b i j k 2 - a i j k 2 * b i j k 1))
            / (1 + ((a i j k 0)^2 + (a i j k 1)^2 + (a i j k 2)^2)) ∧
      M1 = (b i j k 1
              + (a i j k 0 * b i j k 0 + a i j k 1 * b i j k 1 + a i j k 2 * b i j k 2)
                * a i j k 1
              - (a i j k 2 * b i j k 0 - a i j k 0 * b i j k 2))
            / (1 + ((a i j k 0)^2 + (a i j k 1)^2 + (a i j k 2)^2)) ∧
      M2 = (b i j k 2
              + (a i j k 0 * b i j k 0 + a i j k 1 * b i j k 1 + a i j k 2 * b i j k 2)
                * a i j k 2
              - (a i j k 0 * b i j k 1 - a i j k 1 * b i j k 0))
            / (1 + ((a i j k 0)^2 + (a i j k 1)^2 + (a i j k 2)^2)) ∧
      1 + ((a i j k 0)^2 + (a i j k 1)^2 + (a i j k 2)^2) ≠ 0 ∧
      ∀ n : Int, n ≠ 0 → n ≠ 1 → n ≠ 2 →
        updateM_field i j k n a b = Outcome.abort "Wrong component n of the M_field" := by
  obtain ⟨a0, ha0⟩ : ∃ x, x = a i j k 0 := ⟨_, rfl⟩
  obtain ⟨a1, ha1⟩ : ∃ x, x = a i j k 1 := ⟨_, rfl⟩
  obtain ⟨a2, ha2⟩ : ∃ x, x = a i j k 2 := ⟨_, rfl⟩
  obtain ⟨b0, hb0⟩ : ∃ x, x = b i j k 0 := ⟨_, rfl⟩
  obtain ⟨b1, hb1⟩ : ∃ x, x = b i j k 1 := ⟨_, rfl⟩
  obtain ⟨b2, hb2⟩ : ∃ x, x = b i j k 2 := ⟨_, rfl⟩
  have hd : (1 + (a0^2 + a1^2 + a2^2) : R) ≠ 0 := ne_of_gt (one_add_sq_pos a0 a1 a2)
  refine ⟨(b0 + (a0*b0 + a1*b1 + a2*b2) * a0 - (a1*b2 - a2*b1)) / (1 + (a0^2 + a1^2 + a2^2)),
    (b1 + (a0*b0 + a1*b1 + a2*b2) * a1 - (a2*b0 - a0*b2)) / (1 + (a0^2 + a1^2 + a2^2)),
    (b2 + (a0*b0 + a1*b1 + a2*b2) * a2 - (a0*b1 - a1*b0)) / (1 + (a0^2 + a1^2 + a2^2)),
    ?_, ?_, ?_, ?_, ?_, ?_, ?_, ?_, ?_, ?_⟩
  · simp only [updateM_field, if_true, ← ha0, ← ha1, ← ha2, ← hb0, ← hb1, ← hb2, add_assoc]
  · simp only [updateM_field, ← ha0, ← ha1, ← ha2, ← hb0, ← hb1, ← hb2, add_assoc]
    rfl
  · simp only [updateM_field, ← ha0, ← ha1, ← ha2, ← hb0, ← hb1, ← hb2, add_assoc]
    rfl
  · rw [← ha0, ← ha1, ← ha2, ← hb0, ← hb1, ← hb2]
    refine ⟨?_, ?_, ?_⟩
    · field_simp
      ring
    · field_simp
      ring
    · field_simp
      ring
  · rw [← ha0, ← ha1, ← ha2, ← hb0, ← hb1, ← hb2]
    intro N0 N1 N2 e0 e1 e2
    exact cross_solution_unique a0 a1 a2 b0 b1 b2 N0 N1 N2 e0 e1 e2
  · rw [← ha0, ← ha1, ← ha2, ← hb0, ← hb1, ← hb2]
  · rw [← ha0, ← ha1, ← ha2, ← hb0, ← hb1, ← hb2]
  · rw [← ha0, ← ha1, ← ha2, ← hb0, ← hb1, ← hb2]
  · rw [← ha0, ← ha1, ← ha2]
    exact hd
  · intro n h0 h1 h2
    simp only [updateM_field, h0, h1, h2, if_false]

end MacroscopicProperties

/-- C28. For every `sigma ≥ 0`, `epsilon > 0` and `dt > 0` no division of
`LaxWendroffAlgo` or `BackwardEulerAlgo` has a zero divisor: `alpha` and `beta` return
values, with `alpha + sigma*beta = 1` for both schemes; and for `sigma = 0` both schemes
give `alpha = 1` and `beta = dt/epsilon`. -/
theorem alpha_add_sigma_mul_beta {R : Type} [LinearOrderedField R] (sigma epsilon dt : R)
    (hsigma : 0 ≤ sigma) (hepsilon : 0 < epsilon) (hdt : 0 < dt) :
    (∃ al be : R, LaxWendroffAlgo.alpha sigma epsilon dt = some al ∧
      LaxWendroffAlgo.beta sigma epsilon dt = some be ∧ al + sigma * be = 1) ∧
    (∃ al be : R, BackwardEulerAlgo.alpha sigma epsilon dt = some al ∧
      BackwardEulerAlgo.beta sigma epsilon dt = some be ∧ al + sigma * be = 1) ∧
    LaxWendroffAlgo.alpha 0 epsilon dt = some 1 ∧
    LaxWendroffAlgo.beta 0 epsilon dt = some (dt / epsilon) ∧
    BackwardEulerAlgo.alpha 0 epsilon dt = some 1 ∧
    BackwardEulerAlgo.beta 0 epsilon dt = some (dt / epsilon) := by
  have he : epsilon ≠ 0 := ne_of_gt hepsilon
  have hsd : 0 ≤ sigma * dt := mul_nonneg hsigma (le_of_lt hdt)
  have hf1 : 0 ≤ (1/2 : R) * sigma * dt / epsilon := by
    apply div_nonneg _ (le_of_lt hepsilon)
    have : (1/2 : R) * sigma * dt = (1/2) * (sigma * dt) := by ring
    rw [this]
    exact mul_nonneg (by norm_num) hsd
  have hf2 : 0 ≤ sigma * dt / epsilon := div_nonneg hsd (le_of_lt hepsilon)
  have hd1 : (1 + (1/2 : R) * sigma * dt / epsilon) ≠ 0 := by
    apply ne_of_gt
    linarith
  have hd2 : (1 + sigma * dt / epsilon) ≠ 0 := by
    apply ne_of_gt
    linarith
  have hd3 : epsilon * (1 + (1/2 : R) * sigma * dt / epsilon) ≠ 0 := mul_ne_zero he hd1
  have hd4 : epsilon * (1 + sigma * dt / epsilon) ≠ 0 := mul_ne_zero he hd2
  have h10 : ((1 : R) + 0) ≠ 0 := by norm_num
  have h1 : (1 : R) ≠ 0 := one_ne_zero
  have he0 : epsilon * ((1 : R) + 0) ≠ 0 := mul_ne_zero he h10
  refine ⟨⟨(1 - (1/2 : R) * sigma * dt / epsilon) / (1 + (1/2 : R) * sigma * dt / epsilon),
      dt / (epsilon * (1 + (1/2 : R) * sigma * dt / epsilon)), ?_, ?_, ?_⟩,
    ⟨1 / (1 + sigma * dt / epsilon), dt / (epsilon * (1 + sigma * dt / epsilon)),
      ?_, ?_, ?_⟩, ?_, ?_, ?_, ?_⟩
  · simp only [LaxWendroffAlgo.alpha, PsatdAlgorithmRZ.checkedDiv_of_ne _ he,
      PsatdAlgorithmRZ.checkedDiv_of_ne _ hd1, Option.bind_eq_bind, Option.some_bind,
      Option.pure_def]
  · simp only [LaxWendroffAlgo.beta, PsatdAlgorithmRZ.checkedDiv_of_ne _ he,
      PsatdAlgorithmRZ.checkedDiv_of_ne _ hd3, Option.bind_eq_bind, Option.some_bind,
      Option.pure_def]
  · field_simp
    ring
  · simp only [BackwardEulerAlgo.alpha, PsatdAlgorithmRZ.checkedDiv_of_ne _ he,
      PsatdAlgorithmRZ.checkedDiv_of_ne _ hd2, Option.bind_eq_bind, Option.some_bind,
      Option.pure_def]
  · simp only [BackwardEulerAlgo.beta, PsatdAlgorithmRZ.checkedDiv_of_ne _ he,
      PsatdAlgorithmRZ.checkedDiv_of_ne _ hd4, Option.bind_eq_bind, Option.some_bind,
      Option.pure_def]
  · field_simp
  · simp only [LaxWendroffAlgo.alpha, mul_zero, zero_mul, zero_div,
      PsatdAlgorithmRZ.checkedDiv_of_ne _ he, PsatdAlgorithmRZ.checkedDiv_of_ne _ h10,
      PsatdAlgorithmRZ.checkedDiv_of_ne _ h1,
      Option.bind_eq_bind, Option.some_bind, Option.pure_def, sub_zero, add_zero, div_one]
  · simp only [LaxWendroffAlgo.beta, mul_zero, zero_mul, zero_div,
      PsatdAlgorithmRZ.checkedDiv_of_ne _ he, PsatdAlgorithmRZ.checkedDiv_of_ne _ he0,
      Option.bind_eq_bind, Option.some_bind, Option.pure_def, add_zero, mul_one]
  · simp only [BackwardEulerAlgo.alpha, zero_mul, zero_div,
      PsatdAlgorithmRZ.checkedDiv_of_ne _ he, PsatdAlgorithmRZ.checkedDiv_of_ne _ h10,
      PsatdAlgorithmRZ.checkedDiv_of_ne _ h1,
      Option.bind_eq_bind, Option.some_bind, Option.pure_def, add_zero, div_one]
  · simp only [BackwardEulerAlgo.beta, zero_mul, zero_div,
      PsatdAlgorithmRZ.checkedDiv_of_ne _ he, PsatdAlgorithmRZ.checkedDiv_of_ne _ he0,
      Option.bind_eq_bind, Option.some_bind, Option.pure_def, add_zero, mul_one]

/-- Witness of C28: `sigma = 2`, `epsilon = 3`, `dt = 1/2`. -/
theorem alpha_add_sigma_mul_beta_witness :
    ((0:ℚ) ≤ 2 ∧ (0:ℚ) < 3 ∧ (0:ℚ) < 1/2) ∧
    (∃ al be : ℚ, LaxWendroffAlgo.alpha 2 3 (1/2) = some al ∧
      LaxWendroffAlgo.beta 2 3 (1/2) = some be ∧ al + 2 * be = 1) ∧
    (∃ al be : ℚ, BackwardEulerAlgo.alpha 2 3 (1/2) = some al ∧
      BackwardEulerAlgo.beta 2 3 (1/2) = some be ∧ al + 2 * be = 1) :=
  ⟨⟨by norm_num, by norm_num, by norm_num⟩,
    (alpha_add_sigma_mul_beta (2:ℚ) 3 (1/2) (by norm_num) (by norm_num) (by norm_num)).1,
    (alpha_add_sigma_mul_beta (2:ℚ) 3 (1/2) (by norm_num) (by norm_num) (by norm_num)).2.1⟩

namespace PsatdAlgorithmRZ

variable {R : Type} [LinearOrderedField R]

/-- The current correction leaves the charge densities as they are. -/
theorem CurrentCorrection_rho (dt kr kz : R) (fields : SpectralFields R) :
    (CurrentCorrection dt kr kz fields).rho_old = fields.rho_old ∧
    (CurrentCorrection dt kr kz fields).rho_new = fields.rho_new := by
  by_cases hk : kr*kr + kz*kz ≠ 0
  · simp only [CurrentCorrection, hk, ne_eq, not_false_eq_true, if_true, and_self]
  · simp only [CurrentCorrection, hk, if_false, and_self]

/-- The continuity residual of the corrected currents is 0. -/
theorem CurrentCorrection_residual (dt kr kz : R) (fields : SpectralFields R)
    (hk : kr*kr + kz*kz ≠ 0) (hdt : dt ≠ 0) :
    (fields.rho_new - fields.rho_old)/dt
      + (Cx.I : Cx R)*kz*(CurrentCorrection dt kr kz fields).Jz
      + kr*((CurrentCorrection dt kr kz fields).Jx - (CurrentCorrection dt kr kz fields).Jy)
      = 0 := by
  have hk2 : kr^2 + kz^2 ≠ 0 := by simpa [pow_two] using hk
  simp only [CurrentCorrection, hk, ne_eq, not_false_eq_true, if_true]
  rw [Cx.eq_iff]
  constructor
  · simp
    field_simp
    ring
  · simp
    field_simp
    ring

/-- Currents whose continuity residual is 0 are left as they are. -/
theorem CurrentCorrection_of_residual_zero (dt kr kz : R) (fields : SpectralFields R)
    (hres : (fields.rho_new - fields.rho_old)/dt
      + (Cx.I : Cx R)*kz*fields.Jz + kr*(fields.Jx - fields.Jy) = 0) :
    (CurrentCorrection dt kr kz fields).Jx = fields.Jx ∧
    (CurrentCorrection dt kr kz fields).Jy = fields.Jy ∧
    (CurrentCorrection dt kr kz fields).Jz = fields.Jz := by
  by_cases hk : kr*kr + kz*kz ≠ 0
  · rw [Cx.eq_iff] at hres
    obtain ⟨h1, h2⟩ := hres
    simp only [Cx.add_re, Cx.add_im, Cx.sub_re, Cx.sub_im, Cx.mul_re, Cx.mul_im, Cx.neg_re,
      Cx.neg_im, Cx.rmul_re, Cx.rmul_im, Cx.mulr_re, Cx.mulr_im, Cx.divr_re, Cx.divr_im,
      Cx.I_re, Cx.I_im, Cx.zero_re, Cx.zero_im] at h1 h2
    simp only [CurrentCorrection, hk, ne_eq, not_false_eq_true, if_true]
    refine ⟨?_, ?_, ?_⟩ <;>
    · rw [Cx.eq_iff]
      simp only [Cx.add_re, Cx.add_im, Cx.sub_re, Cx.sub_im, Cx.mul_re, Cx.mul_im, Cx.neg_re,
        Cx.neg_im, Cx.rmul_re, Cx.rmul_im, Cx.mulr_re, Cx.mulr_im, Cx.divr_re, Cx.divr_im,
        Cx.I_re, Cx.I_im, Cx.zero_re, Cx.zero_im]
      rw [h1, h2]
      simp
  · simp only [CurrentCorrection, hk, if_false, and_self]

end PsatdAlgorithmRZ

namespace PsatdAlgorithmRZ

variable {R : Type} [LinearOrderedField R]

/-- C23. The kernel of `CurrentCorrection` is a projection of the currents: for every
spectral point and all field values (with `dt ≠ 0`), applying it twice gives the same
`Jp`, `Jm`, `Jz` as applying it once; it leaves `Jp`, `Jm`, `Jz` as they are when
`kr = kz = 0` and when the residual `(rho_new - rho_old)/dt + i*kz*Jz + kr*(Jp - Jm)` is
already 0; and it never changes `Jp + Jm`. -/
theorem CurrentCorrection_projection (dt kr kz : R) (fields : SpectralFields R)
    (hdt : dt ≠ 0) :
    ((CurrentCorrection dt kr kz (CurrentCorrection dt kr kz fields)).Jx
        = (CurrentCorrection dt kr kz fields).Jx ∧
      (CurrentCorrection dt kr kz (CurrentCorrection dt kr kz fields)).Jy
        = (CurrentCorrection dt kr kz fields).Jy ∧
      (CurrentCorrection dt kr kz (CurrentCorrection dt kr kz fields)).Jz
        = (CurrentCorrection dt kr kz fields).Jz) ∧
    (kr = 0 ∧ kz = 0 →
      (CurrentCorrection dt kr kz fields).Jx = fields.Jx ∧
      (CurrentCorrection dt kr kz fields).Jy = fields.Jy ∧
      (CurrentCorrection dt kr kz fields).Jz = fields.Jz) ∧
    ((fields.rho_new - fields.rho_old)/dt
        + (Cx.I : Cx R)*kz*fields.Jz + kr*(fields.Jx - fields.Jy) = 0 →
      (CurrentCorrection dt kr kz fields).Jx = fields.Jx ∧
      (CurrentCorrection dt kr kz fields).Jy = fields.Jy ∧
      (CurrentCorrection dt kr kz fields).Jz = fields.Jz) ∧
    (CurrentCorrection dt kr kz fields).Jx + (CurrentCorrection dt kr kz fields).Jy
      = fields.Jx + fields.Jy := by
  refine ⟨?_, ?_, CurrentCorrection_of_residual_zero dt kr kz fields, ?_⟩
  · by_cases hk : kr*kr + kz*kz ≠ 0
    · apply CurrentCorrection_of_residual_zero
      rw [(CurrentCorrection_rho dt kr kz fields).1, (CurrentCorrection_rho dt kr kz fields).2]
      exact CurrentCorrection_residual dt kr kz fields hk hdt
    · simp only [CurrentCorrection, hk, if_false, and_self]
  · rintro ⟨h1, h2⟩
    have hk : ¬ (kr*kr + kz*kz ≠ 0) := by
      rw [h1, h2]
      simp
    simp only [CurrentCorrection, hk, if_false, and_self]
  · by_cases hk : kr*kr + kz*kz ≠ 0
    · simp only [CurrentCorrection, hk, ne_eq, not_false_eq_true, if_true]
      rw [Cx.eq_iff]
      simp only [Cx.add_re, Cx.add_im, Cx.sub_re, Cx.sub_im, Cx.mul_re, Cx.mul_im, Cx.neg_re,
        Cx.neg_im, Cx.rmul_re, Cx.rmul_im, Cx.mulr_re, Cx.mulr_im, Cx.divr_re, Cx.divr_im,
        Cx.I_re, Cx.I_im, Cx.zero_re, Cx.zero_im]
      constructor <;> ring
    · simp only [CurrentCorrection, hk, if_false]

/-- Witness of C23 on the rationals: `kr = 1`, `kz = 2`, `dt = 1/2` on `sampleFields`. -/
theorem CurrentCorrection_projection_witness :
    (1/2 : ℚ) ≠ 0 ∧
    ((CurrentCorrection (1/2 : ℚ) 1 2 (CurrentCorrection (1/2 : ℚ) 1 2 sampleFields)).Jx
        = (CurrentCorrection (1/2 : ℚ) 1 2 sampleFields).Jx ∧
      (CurrentCorrection (1/2 : ℚ) 1 2 (CurrentCorrection (1/2 : ℚ) 1 2 sampleFields)).Jy
        = (CurrentCorrection (1/2 : ℚ) 1 2 sampleFields).Jy ∧
      (CurrentCorrection (1/2 : ℚ) 1 2 (CurrentCorrection (1/2 : ℚ) 1 2 sampleFields)).Jz
        = (CurrentCorrection (1/2 : ℚ) 1 2 sampleFields).Jz) ∧
    (CurrentCorrection (1/2 : ℚ) 1 2 sampleFields).Jx
        + (CurrentCorrection (1/2 : ℚ) 1 2 sampleFields).Jy
      = sampleFields.Jx + sampleFields.Jy :=
  ⟨by norm_num,
    (CurrentCorrection_projection (1/2 : ℚ) 1 2 sampleFields (by norm_num)).1,
    (CurrentCorrection_projection (1/2 : ℚ) 1 2 sampleFields (by norm_num)).2.2.2⟩

end PsatdAlgorithmRZ

namespace PsatdAlgorithmRZ

variable {R : Type} [LinearOrderedField R]

/-- C26. With `divb_cleaning` off, for every spectral point, every value of the
coefficients, of `update_with_rho`, `J_linear_in_time` and `dive_cleaning` and all field
and source values, the B field after `pushSpectralFields` satisfies
`kr*(Bp_new - Bm_new) + i*kz*Bz_new = C*(kr*(Bp_old - Bm_old) + i*kz*Bz_old)`; so a B field
with zero spectral divergence keeps zero divergence whatever E, J and rho are. -/
theorem pushSpectralFields_divB (update_with_rho J_linear_in_time dive_cleaning : Bool)
    (c ep0 dt kr kz : R) (coef : SpectralCoefficients R) (fields : SpectralFields R) :
    (kr * ((pushSpectralFields update_with_rho J_linear_in_time dive_cleaning false
              c ep0 dt kr kz coef fields).Bx
            - (pushSpectralFields update_with_rho J_linear_in_time dive_cleaning false
              c ep0 dt kr kz coef fields).By)
        + (Cx.I : Cx R) * kz
          * (pushSpectralFields update_with_rho J_linear_in_time dive_cleaning false
              c ep0 dt kr kz coef fields).Bz
      = coef.C * (kr * (fields.Bx - fields.By) + (Cx.I : Cx R) * kz * fields.Bz)) ∧
    (kr * (fields.Bx - fields.By) + (Cx.I : Cx R) * kz * fields.Bz = 0 →
      kr * ((pushSpectralFields update_with_rho J_linear_in_time dive_cleaning false
              c ep0 dt kr kz coef fields).Bx
            - (pushSpectralFields update_with_rho J_linear_in_time dive_cleaning false
              c ep0 dt kr kz coef fields).By)
        + (Cx.I : Cx R) * kz
          * (pushSpectralFields update_with_rho J_linear_in_time dive_cleaning false
              c ep0 dt kr kz coef fields).Bz
      = 0) := by
  have key : kr * ((pushSpectralFields update_with_rho J_linear_in_time dive_cleaning false
              c ep0 dt kr kz coef fields).Bx
            - (pushSpectralFields update_with_rho J_linear_in_time dive_cleaning false
              c ep0 dt kr kz coef fields).By)
        + (Cx.I : Cx R) * kz
          * (pushSpectralFields update_with_rho J_linear_in_time dive_cleaning false
              c ep0 dt kr kz coef fields).Bz
      = coef.C * (kr * (fields.Bx - fields.By) + (Cx.I : Cx R) * kz * fields.Bz) := by
    cases J_linear_in_time <;> cases dive_cleaning <;>
    · rw [Cx.eq_iff]
      simp only [pushSpectralFields, if_true, if_false, Bool.false_eq_true,
        Cx.add_re, Cx.add_im, Cx.sub_re, Cx.sub_im, Cx.mul_re, Cx.mul_im, Cx.neg_re,
        Cx.neg_im, Cx.rmul_re, Cx.rmul_im, Cx.mulr_re, Cx.mulr_im, Cx.divr_re, Cx.divr_im,
        Cx.I_re, Cx.I_im, Cx.zero_re, Cx.zero_im]
      constructor <;> ring
  refine ⟨key, fun h => ?_⟩
  rw [key, h, Cx.eq_iff]
  simp only [Cx.rmul_re, Cx.rmul_im, Cx.zero_re, Cx.zero_im, mul_zero, and_self]

end PsatdAlgorithmRZ

namespace PsatdAlgorithmRZ

variable {R : Type} [LinearOrderedField R]

/-- Gauss's law after the push with `update_with_rho`, for coefficients `X2`, `X3` that
satisfy the two relations of the general branch. -/
theorem pushSpectralFields_gauss_aux (c ep0 dt kr kz : R) (coef : SpectralCoefficients R)
    (fields : SpectralFields R) (hep0 : ep0 ≠ 0)
    (hX2 : coef.X2 * (ep0 * (kr*kr + kz*kz)) = 1 - coef.S_ck / dt)
    (hX3 : coef.X3 * (ep0 * (kr*kr + kz*kz)) = coef.C - coef.S_ck / dt)
    (hgauss : ep0 * (kr * (fields.Ex - fields.Ey) + (Cx.I : Cx R) * kz * fields.Ez)
      = fields.rho_old)
    (hcont : (fields.rho_new - fields.rho_old) / dt + kr * (fields.Jx - fields.Jy)
      + (Cx.I : Cx R) * kz * fields.Jz = 0) :
    ep0 * (kr * ((pushSpectralFields true false false false c ep0 dt kr kz coef fields).Ex
                - (pushSpectralFields true false false false c ep0 dt kr kz coef fields).Ey)
          + (Cx.I : Cx R) * kz
            * (pushSpectralFields true false false false c ep0 dt kr kz coef fields).Ez)
      = fields.rho_new := by
  have hie : ep0 * (1 / ep0) = 1 := by field_simp
  rw [Cx.eq_iff] at hgauss hcont
  obtain ⟨g1, g2⟩ := hgauss
  obtain ⟨c1, c2⟩ := hcont
  simp only [Cx.add_re, Cx.add_im, Cx.sub_re, Cx.sub_im, Cx.mul_re, Cx.mul_im, Cx.neg_re,
    Cx.neg_im, Cx.rmul_re, Cx.rmul_im, Cx.mulr_re, Cx.mulr_im, Cx.divr_re, Cx.divr_im,
    Cx.I_re, Cx.I_im, Cx.zero_re, Cx.zero_im] at g1 g2 c1 c2
  rw [Cx.eq_iff]
  simp only [pushSpectralFields, rho_diff, if_true, if_false, Bool.false_eq_true,
    Cx.add_re, Cx.add_im, Cx.sub_re, Cx.sub_im, Cx.mul_re, Cx.mul_im, Cx.neg_re,
    Cx.neg_im, Cx.rmul_re, Cx.rmul_im, Cx.mulr_re, Cx.mulr_im, Cx.divr_re, Cx.divr_im,
    Cx.I_re, Cx.I_im, Cx.zero_re, Cx.zero_im]
  constructor
  · linear_combination coef.C * g1
      + (-coef.S_ck * (kr * (fields.Jx.re - fields.Jy.re) - kz * fields.Jz.im)) * hie
      - coef.S_ck * c1 + fields.rho_new.re * hX2 - fields.rho_old.re * hX3
  · linear_combination coef.C * g2
      + (-coef.S_ck * (kr * (fields.Jx.im - fields.Jy.im) + kz * fields.Jz.re)) * hie
      - coef.S_ck * c2 + fields.rho_new.im * hX2 - fields.rho_old.im * hX3

end PsatdAlgorithmRZ

namespace PsatdAlgorithmRZ

variable {R : Type} [LinearOrderedField R]

/-- C25. At a spectral point with `k_norm = sqrt (kr^2 + kz^2) ≠ 0` and
`k_norm^2 = kr^2 + kz^2`, with `c`, `ep0`, `dt` nonzero, `InitializeSpectralCoefficients`
returns the coefficients of its general branch, and the push with these coefficients,
`update_with_rho = true` and `J_linear_in_time` and both cleaning flags off preserves
Gauss's law when the sources satisfy continuity: if
`ep0*(kr*(Ep_old - Em_old) + i*kz*Ez_old) = rho_old` and
`(rho_new - rho_old)/dt + kr*(Jp - Jm) + i*kz*Jz = 0`, then
`ep0*(kr*(Ep_new - Em_new) + i*kz*Ez_new) = rho_new`. -/
theorem pushSpectralFields_gauss (sqrt cos sin : R → R) (c ep0 dt kr kz : R)
    (hc : c ≠ 0) (hep0 : ep0 ≠ 0) (hdt : dt ≠ 0)
    (hk : sqrt (kr*kr + kz*kz) ≠ 0)
    (hsq : sqrt (kr*kr + kz*kz) * sqrt (kr*kr + kz*kz) = kr*kr + kz*kz) :
    ∃ coef : SpectralCoefficients R,
      InitializeSpectralCoefficients sqrt cos sin c ep0 dt kr kz = some coef ∧
      ∀ fields : SpectralFields R,
        ep0 * (kr * (fields.Ex - fields.Ey) + (Cx.I : Cx R) * kz * fields.Ez)
          = fields.rho_old →
        (fields.rho_new - fields.rho_old) / dt + kr * (fields.Jx - fields.Jy)
          + (Cx.I : Cx R) * kz * fields.Jz = 0 →
        ep0 * (kr * ((pushSpectralFields true false false false
                        c ep0 dt kr kz coef fields).Ex
                    - (pushSpectralFields true false false false
                        c ep0 dt kr kz coef fields).Ey)
              + (Cx.I : Cx R) * kz
                * (pushSpectralFields true false false false c ep0 dt kr kz coef fields).Ez)
          = fields.rho_new := by
  refine ⟨_, InitializeSpectralCoefficients_general sqrt cos sin c ep0 dt kr kz hc hep0 hdt hk,
    ?_⟩
  intro fields hgauss hcont
  obtain ⟨k, hkdef⟩ : ∃ k, k = sqrt (kr*kr + kz*kz) := ⟨_, rfl⟩
  rw [← hkdef] at hk hsq ⊢
  obtain ⟨C, hC⟩ : ∃ C, C = cos (c * k * dt) := ⟨_, rfl⟩
  obtain ⟨S, hS⟩ : ∃ S, S = sin (c * k * dt) / (c * k) := ⟨_, rfl⟩
  rw [← hC, ← hS]
  apply pushSpectralFields_gauss_aux c ep0 dt kr kz _ fields hep0 _ _ hgauss hcont
  · show (1 - S / dt) / (ep0 * k^2) * (ep0 * (kr*kr + kz*kz)) = 1 - S / dt
    rw [← hsq]
    field_simp
    ring
  · show (C - S / dt) / (ep0 * k^2) * (ep0 * (kr*kr + kz*kz)) = C - S / dt
    rw [← hsq]
    field_simp
    ring

/-- Witness of C25 on the rationals: `kr = 3`, `kz = 4` with the constant 5 in place of
`sqrt`, `c = 2`, `ep0 = 3`, `dt = 1/2`, on `sampleFieldsGauss`. -/
theorem pushSpectralFields_gauss_witness :
    ((2:ℚ) ≠ 0 ∧ (3:ℚ) ≠ 0 ∧ (1/2:ℚ) ≠ 0 ∧
      (fun _ : ℚ => (5:ℚ)) (3*3 + 4*4) ≠ 0 ∧
      (fun _ : ℚ => (5:ℚ)) (3*3 + 4*4) * (fun _ : ℚ => (5:ℚ)) (3*3 + 4*4) = 3*3 + 4*4 ∧
      (3:ℚ) * ((3:ℚ) * (sampleFieldsGauss.Ex - sampleFieldsGauss.Ey)
          + (Cx.I : Cx ℚ) * (4:ℚ) * sampleFieldsGauss.Ez) = sampleFieldsGauss.rho_old ∧
      (sampleFieldsGauss.rho_new - sampleFieldsGauss.rho_old) / (1/2 : ℚ)
          + (3:ℚ) * (sampleFieldsGauss.Jx - sampleFieldsGauss.Jy)
          + (Cx.I : Cx ℚ) * (4:ℚ) * sampleFieldsGauss.Jz = 0) ∧
    ∃ coef : SpectralCoefficients ℚ,
      InitializeSpectralCoefficients (fun _ => 5) (fun _ => 1/2) (fun _ => 10) 2 3 (1/2) 3 4
        = some coef ∧
      (3:ℚ) * ((3:ℚ) * ((pushSpectralFields true false false false
                        2 3 (1/2) 3 4 coef sampleFieldsGauss).Ex
                    - (pushSpectralFields true false false false
                        2 3 (1/2) 3 4 coef sampleFieldsGauss).Ey)
              + (Cx.I : Cx ℚ) * (4:ℚ)
                * (pushSpectralFields true false false false
                    2 3 (1/2) 3 4 coef sampleFieldsGauss).Ez)
          = sampleFieldsGauss.rho_new :=
  ⟨⟨by norm_num, by norm_num, by norm_num, by norm_num, by norm_num,
      by norm_num [Cx.eq_iff, sampleFieldsGauss, sampleFields],
      by norm_num [Cx.eq_iff, sampleFieldsGauss, sampleFields]⟩,
    (pushSpectralFields_gauss (fun _ : ℚ => (5:ℚ)) (fun _ => 1/2) (fun _ => 10) 2 3 (1/2) 3 4
      (by norm_num) (by norm_num) (by norm_num) (by norm_num) (by norm_num)).imp
      (fun _ h => ⟨h.1, h.2 sampleFieldsGauss
        (by norm_num [Cx.eq_iff, sampleFieldsGauss, sampleFields])
        (by norm_num [Cx.eq_iff, sampleFieldsGauss, sampleFields])⟩)⟩

end PsatdAlgorithmRZ

namespace WarpXParticleContainer

/-- The range of `AddNParticles` without `uniqueparticles`, with the quotient and the
remainder of `n` by `nprocs`. -/
theorem AddNParticles_range_eq (n myproc nprocs : Int) (hn : 0 ≤ n) (hp : 1 ≤ nprocs) :
    AddNParticles_range n 0 myproc nprocs
      = if myproc < n % nprocs then
          (myproc * (n / nprocs + 1), myproc * (n / nprocs + 1) + n / nprocs + 1)
        else
          (myproc * (n / nprocs) + n % nprocs, myproc * (n / nprocs) + n % nprocs + n / nprocs) := by
  have h1 : Int.tdiv n nprocs = n / nprocs := Int.tdiv_eq_ediv hn (by omega)
  have h2 : n - n / nprocs * nprocs = n % nprocs := by
    rw [Int.emod_def]
    ring
  simp only [AddNParticles_range, ne_eq, not_true_eq_false, if_false, h1, h2]

/-- The first index of the ranges does not decrease with the process. -/
theorem ibegin_mono (a l p q : Int) (ha : 0 ≤ a) (hpq : p ≤ q) :
    (if p < l then p * (a + 1) else p * a + l) ≤ (if q < l then q * (a + 1) else q * a + l) := by
  have h := mul_le_mul_of_nonneg_right hpq ha
  split_ifs <;> linarith

end WarpXParticleContainer

namespace WarpXParticleContainer

/-- Ranges of the shape computed by `AddNParticles`, for a quotient `a ≥ 0` and a remainder
`0 ≤ l < nprocs` with `n = nprocs*a + l`: every index of `[0, n)` lies in the range of
exactly one process. -/
theorem ranges_cover (n nprocs a l : Int) (ha : 0 ≤ a) (hl0 : 0 ≤ l) (hl1 : l < nprocs)
    (hn : n = nprocs * a + l) (i : Int) (hi0 : 0 ≤ i) (hi1 : i < n) :
    ∃! p : Int, 0 ≤ p ∧ p < nprocs ∧
      (if p < l then p * (a + 1) else p * a + l) ≤ i ∧
      i < (if p < l then p * (a + 1) + a + 1 else p * a + l + a) := by
  have hEB : ∀ p : Int, (if p < l then p * (a + 1) + a + 1 else p * a + l + a)
      = (if p + 1 < l then (p + 1) * (a + 1) else (p + 1) * a + l) := by
    intro p
    by_cases h1 : p < l
    · by_cases h2 : p + 1 < l
      · rw [if_pos h1, if_pos h2]
        ring
      · have h3 : l = p + 1 := by omega
        rw [if_pos h1, if_neg h2, h3]
        ring
    · have h2 : ¬ p + 1 < l := by omega
      rw [if_neg h1, if_neg h2]
      ring
  have huniq : ∀ p q : Int, p < q →
      (if p < l then p * (a + 1) else p * a + l) ≤ i →
      i < (if p < l then p * (a + 1) + a + 1 else p * a + l + a) →
      (if q < l then q * (a + 1) else q * a + l) ≤ i →
      i < (if q < l then q * (a + 1) + a + 1 else q * a + l + a) → False := by
    intro p q hpq _ h2 h3 _
    have hm := ibegin_mono a l (p + 1) q ha (by omega)
    rw [hEB p] at h2
    omega
  have hex : ∃ p : Int, 0 ≤ p ∧ p < nprocs ∧
      (if p < l then p * (a + 1) else p * a + l) ≤ i ∧
      i < (if p < l then p * (a + 1) + a + 1 else p * a + l + a) := by
    have ha1 : 0 < a + 1 := by omega
    by_cases hcase : i < l * (a + 1)
    · have hp1 : i / (a + 1) < l := Int.ediv_lt_of_lt_mul ha1 hcase
      have hp0 : 0 ≤ i / (a + 1) := Int.ediv_nonneg hi0 (by omega)
      have hlo : i / (a + 1) * (a + 1) ≤ i := Int.ediv_mul_le i (by omega)
      have hhi : i < (i / (a + 1) + 1) * (a + 1) := Int.lt_ediv_add_one_mul_self i ha1
      refine ⟨i / (a + 1), hp0, by omega, ?_, ?_⟩
      · rw [if_pos hp1]
        exact hlo
      · rw [if_pos hp1]
        linarith
    · have hcase1 : l * a + l ≤ i := by
        have : l * (a + 1) = l * a + l := by ring
        omega
      have hapos : 0 < a := by
        rcases lt_or_ge 0 a with h | h
        · exact h
        · have ha0 : a = 0 := by omega
          rw [ha0] at hn hcase1
          simp at hn hcase1
          omega
      have hq0 : l ≤ (i - l) / a := Int.le_ediv_of_mul_le hapos (by omega)
      have hq1 : (i - l) / a < nprocs := Int.ediv_lt_of_lt_mul hapos (by omega)
      have hlo : (i - l) / a * a ≤ i - l := Int.ediv_mul_le (i - l) (by omega)
      have hhi : i - l < ((i - l) / a + 1) * a := Int.lt_ediv_add_one_mul_self (i - l) hapos
      have hnot : ¬ (i - l) / a < l := by omega
      refine ⟨(i - l) / a, by omega, hq1, ?_, ?_⟩
      · rw [if_neg hnot]
        omega
      · rw [if_neg hnot]
        linarith
  obtain ⟨p, hp0, hp1, hp2, hp3⟩ := hex
  refine ⟨p, ⟨hp0, hp1, hp2, hp3⟩, ?_⟩
  rintro q ⟨_, _, hq2, hq3⟩
  rcases Int.lt_trichotomy q p with h | h | h
  · exact absurd (huniq q p h hq2 hq3 hp2 hp3) id
  · exact h
  · exact absurd (huniq p q h hp2 hp3 hq2 hq3) id

end WarpXParticleContainer

namespace WarpXParticleContainer

/-- C30. With `uniqueparticles = 0`, `n ≥ 0` input particles and `nprocs ≥ 1` processes, the
index ranges `[ibegin(p), iend(p))` that `AddNParticles` computes for `p = 0..nprocs-1`
satisfy `ibegin(0) = 0`, `iend(p) = ibegin(p+1)` and `iend(nprocs-1) = n`; every input
index in `[0, n)` is in the range of exactly one process; the size of the range of `p`
is `n/nprocs + 1` for the first `n mod nprocs` processes and `n/nprocs` for the others,
so two sizes differ by at most 1. -/
theorem AddNParticles_partition (n nprocs : Int) (hn : 0 ≤ n) (hp : 1 ≤ nprocs) :
    (AddNParticles_range n 0 0 nprocs).1 = 0 ∧
    (∀ p : Int, 0 ≤ p → p + 1 < nprocs →
      (AddNParticles_range n 0 p nprocs).2 = (AddNParticles_range n 0 (p + 1) nprocs).1) ∧
    (AddNParticles_range n 0 (nprocs - 1) nprocs).2 = n ∧
    (∀ i : Int, 0 ≤ i → i < n →
      ∃! p : Int, 0 ≤ p ∧ p < nprocs ∧
        (AddNParticles_range n 0 p nprocs).1 ≤ i ∧ i < (AddNParticles_range n 0 p nprocs).2) ∧
    (∀ p : Int, 0 ≤ p → p < nprocs →
      (AddNParticles_range n 0 p nprocs).2 - (AddNParticles_range n 0 p nprocs).1
        = if p < n % nprocs then n / nprocs + 1 else n / nprocs) ∧
    (∀ p q : Int, 0 ≤ p → p < nprocs → 0 ≤ q → q < nprocs →
      ((AddNParticles_range n 0 p nprocs).2 - (AddNParticles_range n 0 p nprocs).1)
        - ((AddNParticles_range n 0 q nprocs).2 - (AddNParticles_range n 0 q nprocs).1)
        ≤ 1) := by
  have hnp : (0 : Int) < nprocs := by omega
  have ha : 0 ≤ n / nprocs := Int.ediv_nonneg hn (by omega)
  have hl0 : 0 ≤ n % nprocs := Int.emod_nonneg n (by omega)
  have hl1 : n % nprocs < nprocs := Int.emod_lt_of_pos n hnp
  have hnal : n = nprocs * (n / nprocs) + n % nprocs := (Int.ediv_add_emod n nprocs).symm
  obtain ⟨a, hadef⟩ : ∃ a, a = n / nprocs := ⟨_, rfl⟩
  obtain ⟨l, hldef⟩ : ∃ l, l = n % nprocs := ⟨_, rfl⟩
  rw [← hadef] at ha hnal
  rw [← hldef] at hl0 hl1 hnal
  have hB : ∀ p : Int, (AddNParticles_range n 0 p nprocs).1
      = if p < l then p * (a + 1) else p * a + l := by
    intro p
    rw [AddNParticles_range_eq n p nprocs hn hp, ← hadef, ← hldef]
    split_ifs <;> rfl
  have hE : ∀ p : Int, (AddNParticles_range n 0 p nprocs).2
      = if p < l then p * (a + 1) + a + 1 else p * a + l + a := by
    intro p
    rw [AddNParticles_range_eq n p nprocs hn hp, ← hadef, ← hldef]
    split_ifs <;> rfl
  have hsize : ∀ p : Int, (AddNParticles_range n 0 p nprocs).2
      - (AddNParticles_range n 0 p nprocs).1 = if p < l then a + 1 else a := by
    intro p
    rw [hB, hE]
    split_ifs <;> ring
  refine ⟨?_, ?_, ?_, ?_, ?_, ?_⟩
  · rw [hB]
    split_ifs <;> omega
  · intro p _ _
    rw [hB, hE]
    by_cases h1 : p < l
    · by_cases h2 : p + 1 < l
      · rw [if_pos h1, if_pos h2]
        ring
      · have h3 : l = p + 1 := by omega
        rw [if_pos h1, if_neg h2, h3]
        ring
    · have h2 : ¬ p + 1 < l := by omega
      rw [if_neg h1, if_neg h2]
      ring
  · rw [hE]
    have h1 : ¬ nprocs - 1 < l := by omega
    rw [if_neg h1, hnal]
    ring
  · intro i hi0 hi1
    have h := ranges_cover n nprocs a l ha hl0 hl1 hnal i hi0 hi1
    simp only [hB, hE]
    exact h
  · intro p _ _
    rw [← hadef, ← hldef]
    exact hsize p
  · intro p q _ _ _ _
    rw [hsize p, hsize q]
    split_ifs <;> omega

/-- Witness of C30: 7 particles on 3 processes, with the ranges `[0,3)`, `[3,5)`, `[5,7)`. -/
theorem AddNParticles_partition_witness :
    ((0 : Int) ≤ 7 ∧ (1 : Int) ≤ 3) ∧
    (AddNParticles_range 7 0 0 3).1 = 0 ∧
    (∀ p : Int, 0 ≤ p → p + 1 < 3 →
      (AddNParticles_range 7 0 p 3).2 = (AddNParticles_range 7 0 (p + 1) 3).1) ∧
    (AddNParticles_range 7 0 (3 - 1) 3).2 = 7 ∧
    AddNParticles_range 7 0 0 3 = (0, 3) ∧
    AddNParticles_range 7 0 1 3 = (3, 5) ∧
    AddNParticles_range 7 0 2 3 = (5, 7) :=
  ⟨⟨by decide, by decide⟩,
    (AddNParticles_partition 7 3 (by decide) (by decide)).1,
    (AddNParticles_partition 7 3 (by decide) (by decide)).2.1,
    (AddNParticles_partition 7 3 (by decide) (by decide)).2.2.1,
    by decide, by decide, by decide⟩

end WarpXParticleContainer

/-- Only the calls that advance in time count among the pushes of the particles. -/
theorem WarpX.pushTimes_filter {R : Type} (ops : List (Op R)) (lev : Nat) :
    pushTimes ops lev = pushTimes (ops.filter Op.isAdvance) lev := by
  unfold WarpX.pushTimes
  induction ops with
  | nil => rfl
  | cons op ops ih =>
    cases op <;> simp [List.filter_cons, List.filterMap_cons, Op.isAdvance, Op.pushTime, ih]

namespace WarpX

variable {R : Type} [LinearOrderedField R]

/-- Only the calls that advance in time count in the sum of the durations of `EvolveE`. -/
theorem advanceE_filter (ops : List (Op R)) (lev : Nat) (patch_type : PatchType) :
    advanceE ops lev patch_type = advanceE (ops.filter Op.isAdvance) lev patch_type := by
  unfold advanceE
  induction ops with
  | nil => rfl
  | cons op ops ih =>
    cases op <;> simp [List.filter_cons, Op.isAdvance, Op.durationE, ih]

/-- Only the calls that advance in time count in the sum of the durations of `EvolveB`. -/
theorem advanceB_filter (ops : List (Op R)) (lev : Nat) (patch_type : PatchType) :
    advanceB ops lev patch_type = advanceB (ops.filter Op.isAdvance) lev patch_type := by
  unfold advanceB
  induction ops with
  | nil => rfl
  | cons op ops ih =>
    cases op <;> simp [List.filter_cons, Op.isAdvance, Op.durationB, ih]

/-- Only the calls that advance in time count in the sum of the durations of `EvolveF`. -/
theorem advanceF_filter (ops : List (Op R)) (lev : Nat) (patch_type : PatchType) :
    advanceF ops lev patch_type = advanceF (ops.filter Op.isAdvance) lev patch_type := by
  unfold advanceF
  induction ops with
  | nil => rfl
  | cons op ops ih =>
    cases op <;> simp [List.filter_cons, Op.isAdvance, Op.durationF, ih]

/-- The calls of `WarpX::OneStep_sub1` that advance the fields or the particles, in order,
when it is not a fatal error. -/
theorem OneStep_sub1_advances (w : WarpX R) (curtime : R)
    (hes : w.do_electrostatic = ElectrostaticSolverAlgo.None) (hfl : w.finest_level = 1) :
    (OneStep_sub1 w curtime).ops.filter Op.isAdvance
      = [ Op.PushParticlesandDepose 1 curtime DtType.FirstHalf,
          Op.EvolveB 1 PatchType.fine ((1/2:R)*w.dt 1) DtType.FirstHalf,
          Op.EvolveF 1 PatchType.fine ((1/2:R)*w.dt 1) DtType.FirstHalf,
          Op.EvolveE 1 PatchType.fine (w.dt 1),
          Op.EvolveB 1 PatchType.fine ((1/2:R)*w.dt 1) DtType.SecondHalf,
          Op.EvolveF 1 PatchType.fine ((1/2:R)*w.dt 1) DtType.SecondHalf,
          Op.PushParticlesandDepose 0 curtime DtType.Full,
          Op.EvolveB 1 PatchType.coarse (w.dt 1) DtType.FirstHalf,
          Op.EvolveF 1 PatchType.coarse (w.dt 1) DtType.FirstHalf,
          Op.EvolveE 1 PatchType.coarse (w.dt 1),
          Op.EvolveB 0 PatchType.fine ((1/2:R)*w.dt 0) DtType.FirstHalf,
          Op.EvolveF 0 PatchType.fine ((1/2:R)*w.dt 0) DtType.FirstHalf,
          Op.EvolveE 0 PatchType.fine ((1/2:R)*w.dt 0),
          Op.PushParticlesandDepose 1 (curtime + w.dt 1) DtType.SecondHalf,
          Op.EvolveB 1 PatchType.fine ((1/2:R)*w.dt 1) DtType.FirstHalf,
          Op.EvolveF 1 PatchType.fine ((1/2:R)*w.dt 1) DtType.FirstHalf,
          Op.EvolveE 1 PatchType.fine (w.dt 1),
          Op.EvolveB 1 PatchType.fine ((1/2:R)*w.dt 1) DtType.SecondHalf,
          Op.EvolveF 1 PatchType.fine ((1/2:R)*w.dt 1) DtType.SecondHalf,
          Op.EvolveE 1 PatchType.coarse (w.dt 1),
          Op.EvolveB 1 PatchType.coarse (w.dt 1) DtType.SecondHalf,
          Op.EvolveF 1 PatchType.coarse (w.dt 1) DtType.SecondHalf,
          Op.EvolveE 0 PatchType.fine ((1/2:R)*w.dt 0),
          Op.EvolveB 0 PatchType.fine ((1/2:R)*w.dt 0) DtType.SecondHalf,
          Op.EvolveF 0 PatchType.fine ((1/2:R)*w.dt 0) DtType.SecondHalf ] := by
  have h1 : ¬ (w.do_electrostatic ≠ ElectrostaticSolverAlgo.None) := fun h => h hes
  have h2 : ¬ (w.finest_level ≠ 1) := fun h => h hfl
  cases hp : w.do_pml <;> cases hs : w.safe_guard_cells <;>
    cases hm : w.moving_window_active (w.istep 0 + 1) <;>
    simp [OneStep_sub1, h1, h2, Op.isAdvance, List.filter_cons, hp, hs, hm]

end WarpX

namespace WarpX

variable {R : Type} [LinearOrderedField R]

/-- C22. When `WarpX::OneStep_sub1` is not a fatal error (electrostatic solver off, two
levels), the durations of its field advances sum to one coarse step on every grid: the
durations of `EvolveE` sum to `2*dt[fine]` on the fine patch and on the coarse patch of
level 1 and to `dt[coarse]` on level 0, and so do those of `EvolveB` and of `EvolveF`;
the particles of the fine level are pushed exactly twice, starting at `curtime` and at
`curtime + dt[fine]`, and those of the coarse level exactly once, at `curtime`.  With
`dt[coarse] = 2*dt[fine]` every grid and the particles of both levels advance by exactly
`dt[coarse]`. -/
theorem OneStep_sub1_one_coarse_step (w : WarpX R) (curtime : R)
    (hes : w.do_electrostatic = ElectrostaticSolverAlgo.None) (hfl : w.finest_level = 1) :
    (OneStep_sub1 w curtime).abort = none ∧
    (advanceE (OneStep_sub1 w curtime).ops 1 PatchType.fine = 2 * w.dt 1 ∧
      advanceE (OneStep_sub1 w curtime).ops 1 PatchType.coarse = 2 * w.dt 1 ∧
      advanceE (OneStep_sub1 w curtime).ops 0 PatchType.fine = w.dt 0) ∧
    (advanceB (OneStep_sub1 w curtime).ops 1 PatchType.fine = 2 * w.dt 1 ∧
      advanceB (OneStep_sub1 w curtime).ops 1 PatchType.coarse = 2 * w.dt 1 ∧
      advanceB (OneStep_sub1 w curtime).ops 0 PatchType.fine = w.dt 0) ∧
    (advanceF (OneStep_sub1 w curtime).ops 1 PatchType.fine = 2 * w.dt 1 ∧
      advanceF (OneStep_sub1 w curtime).ops 1 PatchType.coarse = 2 * w.dt 1 ∧
      advanceF (OneStep_sub1 w curtime).ops 0 PatchType.fine = w.dt 0) ∧
    pushTimes (OneStep_sub1 w curtime).ops 1 = [curtime, curtime + w.dt 1] ∧
    pushTimes (OneStep_sub1 w curtime).ops 0 = [curtime] ∧
    (w.dt 0 = 2 * w.dt 1 →
      advanceE (OneStep_sub1 w curtime).ops 1 PatchType.fine = w.dt 0 ∧
      advanceE (OneStep_sub1 w curtime).ops 1 PatchType.coarse = w.dt 0 ∧
      advanceB (OneStep_sub1 w curtime).ops 1 PatchType.fine = w.dt 0 ∧
      advanceB (OneStep_sub1 w curtime).ops 1 PatchType.coarse = w.dt 0 ∧
      advanceF (OneStep_sub1 w curtime).ops 1 PatchType.fine = w.dt 0 ∧
      advanceF (OneStep_sub1 w curtime).ops 1 PatchType.coarse = w.dt 0 ∧
      advanceParticles w (OneStep_sub1 w curtime).ops 1 = w.dt 0 ∧
      advanceParticles w (OneStep_sub1 w curtime).ops 0 = w.dt 0) := by
  have h1 : ¬ (w.do_electrostatic ≠ ElectrostaticSolverAlgo.None) := fun h => h hes
  have h2 : ¬ (w.finest_level ≠ 1) := fun h => h hfl
  have hadv := OneStep_sub1_advances w curtime hes hfl
  have hE1f : advanceE (OneStep_sub1 w curtime).ops 1 PatchType.fine = 2 * w.dt 1 := by
    rw [advanceE_filter, hadv]
    simp [advanceE, Op.durationE]
    ring
  have hE1c : advanceE (OneStep_sub1 w curtime).ops 1 PatchType.coarse = 2 * w.dt 1 := by
    rw [advanceE_filter, hadv]
    simp [advanceE, Op.durationE]
    ring
  have hE0 : advanceE (OneStep_sub1 w curtime).ops 0 PatchType.fine = w.dt 0 := by
    rw [advanceE_filter, hadv]
    simp [advanceE, Op.durationE]
    ring
  have hB1f : advanceB (OneStep_sub1 w curtime).ops 1 PatchType.fine = 2 * w.dt 1 := by
    rw [advanceB_filter, hadv]
    simp [advanceB, Op.durationB]
    ring
  have hB1c : advanceB (OneStep_sub1 w curtime).ops 1 PatchType.coarse = 2 * w.dt 1 := by
    rw [advanceB_filter, hadv]
    simp [advanceB, Op.durationB]
    ring
  have hB0 : advanceB (OneStep_sub1 w curtime).ops 0 PatchType.fine = w.dt 0 := by
    rw [advanceB_filter, hadv]
    simp [advanceB, Op.durationB]
    ring
  have hF1f : advanceF (OneStep_sub1 w curtime).ops 1 PatchType.fine = 2 * w.dt 1 := by
    rw [advanceF_filter, hadv]
    simp [advanceF, Op.durationF]
    ring
  have hF1c : advanceF (OneStep_sub1 w curtime).ops 1 PatchType.coarse = 2 * w.dt 1 := by
    rw [advanceF_filter, hadv]
    simp [advanceF, Op.durationF]
    ring
  have hF0 : advanceF (OneStep_sub1 w curtime).ops 0 PatchType.fine = w.dt 0 := by
    rw [advanceF_filter, hadv]
    simp [advanceF, Op.durationF]
    ring
  have hP1 : pushTimes (OneStep_sub1 w curtime).ops 1 = [curtime, curtime + w.dt 1] := by
    rw [pushTimes_filter, hadv]
    simp [pushTimes, Op.pushTime, List.filterMap_cons]
  have hP0 : pushTimes (OneStep_sub1 w curtime).ops 0 = [curtime] := by
    rw [pushTimes_filter, hadv]
    simp [pushTimes, Op.pushTime, List.filterMap_cons]
  refine ⟨?_, ⟨hE1f, hE1c, hE0⟩, ⟨hB1f, hB1c, hB0⟩, ⟨hF1f, hF1c, hF0⟩, hP1, hP0, ?_⟩
  · simp only [OneStep_sub1, h1, h2, if_false]
  · intro hdt
    refine ⟨by rw [hE1f, hdt], by rw [hE1c, hdt], by rw [hB1f, hdt], by rw [hB1c, hdt],
      by rw [hF1f, hdt], by rw [hF1c, hdt], ?_, ?_⟩
    · rw [advanceParticles, hP1, hdt]
      simp
    · rw [advanceParticles, hP0]
      simp

/-- Witness of C22: `sampleWarpXSubcycling`, with `dt[0] = 1/2 = 2*dt[1]`. -/
theorem OneStep_sub1_one_coarse_step_witness :
    (sampleWarpXSubcycling.do_electrostatic = ElectrostaticSolverAlgo.None ∧
      sampleWarpXSubcycling.finest_level = 1) ∧
    (OneStep_sub1 sampleWarpXSubcycling 0).abort = none ∧
    (advanceE (OneStep_sub1 sampleWarpXSubcycling 0).ops 1 PatchType.fine
        = 2 * sampleWarpXSubcycling.dt 1 ∧
      advanceE (OneStep_sub1 sampleWarpXSubcycling 0).ops 1 PatchType.coarse
        = 2 * sampleWarpXSubcycling.dt 1 ∧
      advanceE (OneStep_sub1 sampleWarpXSubcycling 0).ops 0 PatchType.fine
        = sampleWarpXSubcycling.dt 0) ∧
    pushTimes (OneStep_sub1 sampleWarpXSubcycling 0).ops 1
      = [0, 0 + sampleWarpXSubcycling.dt 1] :=
  ⟨⟨rfl, rfl⟩,
    (OneStep_sub1_one_coarse_step sampleWarpXSubcycling 0 rfl rfl).1,
    (OneStep_sub1_one_coarse_step sampleWarpXSubcycling 0 rfl rfl).2.1,
    (OneStep_sub1_one_coarse_step sampleWarpXSubcycling 0 rfl rfl).2.2.2.2.1⟩

end WarpX

namespace WarpXParticleContainer

variable {R : Type} [LinearOrderedField R]

/-- On a single-level container the loop of `sumParticleCharge` makes no pass: the local
sum is 0 whatever the particles are. -/
theorem sumParticleCharge_of_finestLevel_zero (pc : ParticleLevels R) (ReduceRealSum : R → R)
    (h : pc.finestLevel = 0) : sumParticleCharge pc ReduceRealSum true = 0 := by
  simp [sumParticleCharge, h]

/-- C29. On the single-level container
`sampleParticleLevels` (`finestLevel() = 0`, charge 7, particles of weights 2 and 3 on
level 0) `sumParticleCharge(local = true)` returns 0 and not `charge*W = 35`: its loop
`lev < nLevels` with `nLevels = finestLevel()` leaves out the finest level, whereas the loop
`lev <= nLevels` of `maxParticleVelocity` reads the particles of level 0 (with the identity
in place of `sqrt` it returns 4, from the second particle). -/
theorem sumParticleCharge_single_level :
    sampleParticleLevels.finestLevel = 0 ∧
    (((sampleParticleLevels.tiles 0).flatten.map (fun p => p.w)).sum = 5 ∧
      sampleParticleLevels.charge * 5 = 35) ∧
    sumParticleCharge sampleParticleLevels (fun x => x) true = 0 ∧
    sumParticleCharge sampleParticleLevels (fun x => x) true ≠ sampleParticleLevels.charge * 5 ∧
    maxParticleVelocity (fun x => x) sampleParticleLevels (fun x => x) true = 4 := by
  have h0 : sumParticleCharge sampleParticleLevels (fun x => x) true = 0 :=
    sumParticleCharge_of_finestLevel_zero sampleParticleLevels _ rfl
  refine ⟨rfl, ⟨?_, ?_⟩, h0, ?_, ?_⟩
  · norm_num [sampleParticleLevels]
  · norm_num [sampleParticleLevels]
  · rw [h0]
    norm_num [sampleParticleLevels]
  · norm_num [maxParticleVelocity, sampleParticleLevels, List.range_succ]

end WarpXParticleContainer


/-- The value of `roundDouble` at `q`, from the exponent `e` of `q`, the floor `f` of
`q / 2^(e - 52)` and the multiple `r` chosen by the rounding. -/
theorem roundDouble_eval (q : ℚ) (e f r : Int) (hq : q ≠ 0)
    (h1 : (2 : ℚ) ^ e ≤ |q|) (h2 : |q| < (2 : ℚ) ^ (e + 1))
    (hf1 : (f : ℚ) ≤ q / (2 : ℚ) ^ (e - 52)) (hf2 : q / (2 : ℚ) ^ (e - 52) < (f : ℚ) + 1)
    (hr : r = if q / (2 : ℚ) ^ (e - 52) - f < 1/2 then f
      else if 1/2 < q / (2 : ℚ) ^ (e - 52) - f then f + 1
      else if f % 2 = 0 then f else f + 1) :
    roundDouble q = (r : ℚ) * (2 : ℚ) ^ (e - 52) := by
  have hpos : 0 < |q| := abs_pos.mpr hq
  have hb : 1 < (2 : ℕ) := by norm_num
  have hlog : Int.log 2 |q| = e := by
    apply le_antisymm
    · have := (Int.lt_zpow_iff_log_lt hb hpos).1 (by exact_mod_cast h2)
      omega
    · exact (Int.zpow_le_iff_le_log hb hpos).1 (by exact_mod_cast h1)
  have hfloor : ⌊q / (2 : ℚ) ^ (e - 52)⌋ = f := Int.floor_eq_iff.mpr ⟨hf1, hf2⟩
  rw [roundDouble, if_neg hq, hlog]
  simp only [roundAt, hfloor]
  rw [← hr]

/-- In double precision `0.9 / 3` is stored as `5404319552844595 * 2^-54`. -/
theorem roundDouble_sub_dt :
    roundDouble ((8106479329266893/9007199254740992 : ℚ) / 3)
      = 5404319552844595 / 18014398509481984 := by
  rw [roundDouble_eval _ (-2) 5404319552844595 5404319552844595 (by norm_num)
    (by norm_num [abs_of_pos]) (by norm_num [abs_of_pos]) (by norm_num) (by norm_num)
    (by norm_num)]
  norm_num

/-- In double precision `-1.5` times the stored `0.9 / 3` is a tie, stored as
`-2026619832316723 * 2^-52`. -/
theorem roundDouble_t_depose :
    roundDouble ((-(3/2) : ℚ) * (5404319552844595 / 18014398509481984))
      = -(2026619832316723 / 4503599627370496) := by
  rw [roundDouble_eval _ (-2) (-8106479329266893) (-8106479329266892) (by norm_num)
    (by norm_num [abs_of_neg]) (by norm_num [abs_of_neg]) (by norm_num) (by norm_num)
    (by norm_num)]
  norm_num

/-- In double precision the quotient of the stored `t_depose` by `0.9` is stored as
`-(2^53 - 1) * 2^-54`, the `double` next to `-0.5`. -/
theorem roundDouble_relative_time :
    roundDouble (-(2026619832316723 / 4503599627370496)
        / (8106479329266893/9007199254740992 : ℚ))
      = -(9007199254740991 / 18014398509481984) := by
  rw [roundDouble_eval _ (-2) (-9007199254740991) (-9007199254740991) (by norm_num)
    (by norm_num [abs_of_neg]) (by norm_num [abs_of_neg]) (by norm_num) (by norm_num)
    (by norm_num)]
  norm_num

/-- A rounding with relative error at most `u` keeps at least `(1 - u)` of the absolute
value. -/
theorem abs_fl_ge {R : Type} [LinearOrderedField R] (fl : R → R) (u : R)
    (hfl : ∀ x, |fl x - x| ≤ u * |x|) (x : R) : (1 - u) * |x| ≤ |fl x| := by
  have h1 := abs_sub_abs_le_abs_sub x (fl x)
  have h2 := hfl x
  rw [abs_sub_comm] at h2
  linarith

/-- With a rounding of relative error at most `1/16` and `n ≥ 2`, the computed value of
`((-n + 1/2) * (dt0 / n)) / dt0` is larger than `1/2` in absolute value. -/
theorem rounded_first_pass {R : Type} [LinearOrderedField R] (fl : R → R) (u dt0 n : R)
    (hu : u ≤ 1/16) (hfl : ∀ x, |fl x - x| ≤ u * |x|)
    (hdt : dt0 ≠ 0) (hn : 2 ≤ n) :
    1/2 < |fl (fl ((-n + 1/2) * fl (dt0 / n)) / dt0)| := by
  have hn0 : 0 < n := by linarith
  have hD : 0 < |dt0| := abs_pos.mpr hdt
  have hv0 : 0 ≤ 1 - u := by linarith
  obtain ⟨sd, hsd⟩ : ∃ sd, sd = fl (dt0 / n) := ⟨_, rfl⟩
  obtain ⟨t, ht⟩ : ∃ t, t = fl ((-n + 1/2) * sd) := ⟨_, rfl⟩
  rw [← hsd, ← ht]
  have h1 : (1 - u) * (|dt0| / n) ≤ |sd| := by
    have := abs_fl_ge fl u hfl (dt0 / n)
    rw [abs_div, abs_of_pos hn0, ← hsd] at this
    exact this
  have hc : |(-n + 1/2 : R)| = n - 1/2 := by
    rw [abs_of_neg (by linarith)]
    ring
  have h2 : (1 - u) * ((n - 1/2) * |sd|) ≤ |t| := by
    have := abs_fl_ge fl u hfl ((-n + 1/2) * sd)
    rw [abs_mul, hc, ← ht] at this
    exact this
  have h3 : (1 - u) * (|t| / |dt0|) ≤ |fl (t / dt0)| := by
    have := abs_fl_ge fl u hfl (t / dt0)
    rw [abs_div] at this
    exact this
  have hk : (3/4 : R) * n ≤ n - 1/2 := by linarith
  have h4 : (1 - u) * ((3/4) * ((1 - u) * |dt0|)) ≤ |t| := by
    have e1 : (3/4 : R) * ((1 - u) * |dt0|) ≤ (n - 1/2) * |sd| := by
      have e2 : (n - 1/2) * ((1 - u) * (|dt0| / n)) ≤ (n - 1/2) * |sd| :=
        mul_le_mul_of_nonneg_left h1 (by linarith)
      have e3 : (3/4 : R) * ((1 - u) * |dt0|) ≤ (n - 1/2) * ((1 - u) * (|dt0| / n)) := by
        have e4 : (n - 1/2) * ((1 - u) * (|dt0| / n))
            = ((n - 1/2) / n) * ((1 - u) * |dt0|) := by
          field_simp
        rw [e4]
        apply mul_le_mul_of_nonneg_right _ (mul_nonneg hv0 (le_of_lt hD))
        rw [le_div_iff₀ hn0]
        exact hk
      linarith
    have := mul_le_mul_of_nonneg_left e1 hv0
    linarith
  have h5 : (1 - u) * ((1 - u) * ((3/4) * (1 - u))) ≤ |fl (t / dt0)| := by
    have e1 : (1 - u) * ((3/4) * (1 - u)) ≤ |t| / |dt0| := by
      rw [le_div_iff₀ hD]
      linarith
    have := mul_le_mul_of_nonneg_left e1 hv0
    linarith
  have hv : (15/16 : R) ≤ 1 - u := by linarith
  have h6 : (1/2 : R) < (1 - u) * ((1 - u) * ((3/4) * (1 - u))) := by
    have a1 : (15/16 : R) * (15/16) ≤ (1 - u) * (1 - u) :=
      mul_le_mul hv hv (by norm_num) hv0
    have a2 : (15/16 : R) * (15/16) * (15/16) ≤ (1 - u) * (1 - u) * (1 - u) :=
      mul_le_mul a1 hv (by norm_num) (mul_nonneg hv0 hv0)
    have a3 : (1 - u) * ((1 - u) * ((3/4) * (1 - u)))
        = (3/4) * ((1 - u) * (1 - u) * (1 - u)) := by ring
    rw [a3]
    have a4 : (1/2 : R) < (3/4) * ((15/16 : R) * (15/16) * (15/16)) := by norm_num
    linarith
  linarith


namespace WarpXParticleContainer

variable {R : Type} [LinearOrderedField R]

/-- With `relative_time = -0.5` the checks of the algorithm pass for the Vay algorithm, and
for the Esirkepov algorithm on a staggered grid without Galilean velocity. -/
theorem algorithmChecks_none_of_neg_half (a : DepositCurrentCall R)
    (hrel : a.relative_time = -(1/2 : R))
    (halgo : a.current_deposition_algo = CurrentDepositionAlgo.Vay
      ∨ (a.current_deposition_algo = CurrentDepositionAlgo.Esirkepov ∧ a.do_nodal ≠ 1
          ∧ a.m_v_galilean 0 = 0 ∧ a.m_v_galilean 1 = 0 ∧ a.m_v_galilean 2 = 0)) :
    DepositCurrent_algorithmChecks a = none := by
  unfold DepositCurrent_algorithmChecks
  rcases halgo with h | ⟨h, h1, h2, h3, h4⟩
  · have hne : CurrentDepositionAlgo.Vay ≠ CurrentDepositionAlgo.Esirkepov := by decide
    simp only [h, hne, if_true, if_false, hrel, ne_eq, not_true_eq_false]
  · have hne : CurrentDepositionAlgo.Esirkepov ≠ CurrentDepositionAlgo.Vay := by decide
    simp only [h, hne, h1, h2, h3, h4, if_true, if_false, hrel, ne_eq, not_true_eq_false,
      or_self]

/-- A fatal error of the per-tile call for the first tile is a fatal error of the loop over
the tiles. -/
theorem DepositCurrent_levels_isAbort (fl : R → R) (dt relative_t : R)
    (tile : DepositCurrentCall R) (lev np : Int)
    (rest : List (DepositCurrentCall R × Int × Int))
    (h : (DepositCurrent (DepositCurrent_tileCall fl tile lev np dt relative_t)).isAbort
      = true) :
    (DepositCurrent_levels fl dt relative_t ((tile, lev, np) :: rest)).isAbort = true := by
  unfold DepositCurrent_levels
  cases hd : DepositCurrent (DepositCurrent_tileCall fl tile lev np dt relative_t) with
  | ok k =>
    rw [hd] at h
    exact absurd h (by simp [Outcome.isAbort])
  | abort msg => rfl

end WarpXParticleContainer

namespace WarpX

variable {R : Type} [LinearOrderedField R]

/-- In exact arithmetic the computed `t_depose` is the `t_depose` of the step. -/
theorem OneStep_multiJ_t_depose_fl_id (w : WarpX R) (s : WarpXStatic) (i : Int) :
    OneStep_multiJ_t_depose_fl id w s i = OneStep_multiJ_t_depose w s i := by
  unfold OneStep_multiJ_t_depose_fl OneStep_multiJ_t_depose OneStep_multiJ_sub_dt_fl
    OneStep_multiJ_sub_dt
  split_ifs <;> rfl

/-- What the per-tile `DepositCurrent` gets as relative time from the pass `i` of the
multi-J loop, without `J_linear_in_time`: three rounded operations. -/
theorem OneStep_multiJ_tile_relative_time (fl : R → R) (w : WarpX R) (s : WarpXStatic)
    (tile : DepositCurrentCall R) (lev np i : Int) (hJ : s.J_linear_in_time = false) :
    (WarpXParticleContainer.DepositCurrent_tileCall fl tile lev np (w.dt 0)
        (OneStep_multiJ_t_depose_fl fl w s i)).relative_time
      = fl (fl (((i : R) - (s.do_multi_J_n_depositions : R) + 1/2)
                * fl (w.dt 0 / (s.do_multi_J_n_depositions : R)))
            / w.dt 0) := by
  simp only [WarpXParticleContainer.DepositCurrent_tileCall, OneStep_multiJ_t_depose_fl,
    OneStep_multiJ_sub_dt_fl, hJ, Bool.false_eq_true, if_false]
  push_cast
  rfl

/-- In exact arithmetic the relative time handed to the per-tile `DepositCurrent` is
`(i - n_depose + 1/2)/n_depose`. -/
theorem OneStep_multiJ_tile_relative_time_exact (w : WarpX R) (s : WarpXStatic)
    (tile : DepositCurrentCall R) (lev np i : Int)
    (hn : 1 ≤ s.do_multi_J_n_depositions) (hJ : s.J_linear_in_time = false)
    (hdt : w.dt 0 ≠ 0) :
    (WarpXParticleContainer.DepositCurrent_tileCall id tile lev np (w.dt 0)
        (OneStep_multiJ_t_depose_fl id w s i)).relative_time
      = ((i : R) - (s.do_multi_J_n_depositions : R) + 1/2)
          / (s.do_multi_J_n_depositions : R) := by
  have hnR : (s.do_multi_J_n_depositions : R) ≠ 0 := by
    have : (0 : R) < (s.do_multi_J_n_depositions : R) := by
      exact_mod_cast (by omega : (0 : Int) < s.do_multi_J_n_depositions)
    exact ne_of_gt this
  rw [OneStep_multiJ_tile_relative_time id w s tile lev np i hJ]
  simp only [id]
  field_simp
  ring

/-- The fraction `(i - n + 1/2)/n` is `-1/2` exactly when `2*i + 1 = n`. -/
theorem relative_time_eq_neg_half_iff (i n : Int) (hn : 1 ≤ n) :
    (((i : R) - (n : R) + 1/2) / (n : R) = -(1/2 : R)) ↔ 2 * i + 1 = n := by
  have hnR : (n : R) ≠ 0 := by
    have : (0 : R) < (n : R) := by exact_mod_cast (by omega : (0 : Int) < n)
    exact ne_of_gt this
  rw [div_eq_iff hnR]
  constructor
  · intro h
    have h2 : ((2 * i + 1 : Int) : R) = ((n : Int) : R) := by
      push_cast
      linarith
    exact_mod_cast h2
  · intro h
    have h2 : ((2 * i + 1 : Int) : R) = ((n : Int) : R) := by rw [h]
    push_cast at h2
    linarith

end WarpX


namespace WarpX

/-- C24, counterexample. In double precision, with `dt[0] = 0.9`, 3 depositions per step
and without `J_linear_in_time`, the middle pass `i = 1 = (n_depose - 1)/2` hands the
relative time `-(2^53 - 1)/2^54 = -0.49999999999999994`, not `-0.5`, to the per-tile
`DepositCurrent`, and for a tile of 5 particles with the Esirkepov algorithm the call is a
fatal error.  And in the pass `i = 0`, for a tile that holds 5 particles of a species with
`do_not_deposit` set, the per-tile call returns without depositing whatever the rounding
is, and the deposition over the tiles is not a fatal error. -/
theorem OneStep_multiJ_relative_time_counterexample :
    (sampleWarpXStatic.J_linear_in_time = false ∧
      2 * 1 + 1 = sampleWarpXStatic.do_multi_J_n_depositions ∧
      (WarpXParticleContainer.DepositCurrent_tileCall roundDouble sampleTile 0 5
          (sampleWarpXDouble.dt 0)
          (OneStep_multiJ_t_depose_fl roundDouble sampleWarpXDouble sampleWarpXStatic 1)
        ).relative_time = -(9007199254740991 / 18014398509481984) ∧
      (WarpXParticleContainer.DepositCurrent_tileCall roundDouble sampleTile 0 5
          (sampleWarpXDouble.dt 0)
          (OneStep_multiJ_t_depose_fl roundDouble sampleWarpXDouble sampleWarpXStatic 1)
        ).relative_time ≠ -(1/2 : ℚ) ∧
      (WarpXParticleContainer.DepositCurrent
        (WarpXParticleContainer.DepositCurrent_tileCall roundDouble sampleTile 0 5
          (sampleWarpXDouble.dt 0)
          (OneStep_multiJ_t_depose_fl roundDouble sampleWarpXDouble sampleWarpXStatic 1))
        ).isAbort = true) ∧
    (2 ≤ sampleWarpXStatic.do_multi_J_n_depositions ∧
      sampleTileNoDeposit.current_deposition_algo = CurrentDepositionAlgo.Esirkepov ∧
      ∀ fl : ℚ → ℚ,
        (WarpXParticleContainer.DepositCurrent_tileCall fl sampleTileNoDeposit 0 5
            (sampleWarpX.dt 0)
            (OneStep_multiJ_t_depose_fl fl sampleWarpX sampleWarpXStatic 0)).np_to_depose = 5 ∧
        WarpXParticleContainer.DepositCurrent
          (WarpXParticleContainer.DepositCurrent_tileCall fl sampleTileNoDeposit 0 5
            (sampleWarpX.dt 0) (OneStep_multiJ_t_depose_fl fl sampleWarpX sampleWarpXStatic 0))
          = Outcome.ok none ∧
        (WarpXParticleContainer.DepositCurrent_levels fl (sampleWarpX.dt 0)
            (OneStep_multiJ_t_depose_fl fl sampleWarpX sampleWarpXStatic 0)
            [(sampleTileNoDeposit, 0, 5)]).isAbort = false) := by
  have hrel : (WarpXParticleContainer.DepositCurrent_tileCall roundDouble sampleTile 0 5
          (sampleWarpXDouble.dt 0)
          (OneStep_multiJ_t_depose_fl roundDouble sampleWarpXDouble sampleWarpXStatic 1)
        ).relative_time = -(9007199254740991 / 18014398509481984) := by
    rw [OneStep_multiJ_tile_relative_time roundDouble sampleWarpXDouble sampleWarpXStatic
      sampleTile 0 5 1 rfl]
    have h1 : sampleWarpXDouble.dt 0
          / ((sampleWarpXStatic.do_multi_J_n_depositions : Int) : ℚ)
        = (8106479329266893/9007199254740992 : ℚ) / 3 := by
      norm_num [sampleWarpXDouble, sampleWarpXStatic]
    have h2 : (((1 : Int) : ℚ) - ((sampleWarpXStatic.do_multi_J_n_depositions : Int) : ℚ)
          + 1/2) = -(3/2) := by
      norm_num [sampleWarpXStatic]
    have h3 : sampleWarpXDouble.dt 0 = (8106479329266893/9007199254740992 : ℚ) := rfl
    rw [h1, h2, roundDouble_sub_dt, roundDouble_t_depose, h3, roundDouble_relative_time]
  have hne : (WarpXParticleContainer.DepositCurrent_tileCall roundDouble sampleTile 0 5
          (sampleWarpXDouble.dt 0)
          (OneStep_multiJ_t_depose_fl roundDouble sampleWarpXDouble sampleWarpXStatic 1)
        ).relative_time ≠ -(1/2 : ℚ) := by
    rw [hrel]
    norm_num
  refine ⟨⟨rfl, by decide, hrel, hne, ?_⟩, by decide, rfl, ?_⟩
  · exact WarpXParticleContainer.DepositCurrent_isAbort_of_checks _
      (WarpXParticleContainer.algorithmChecks_relative_time _ (Or.inl rfl) hne)
      (by decide) rfl
  · intro fl
    have hcall : WarpXParticleContainer.DepositCurrent
        (WarpXParticleContainer.DepositCurrent_tileCall fl sampleTileNoDeposit 0 5
          (sampleWarpX.dt 0) (OneStep_multiJ_t_depose_fl fl sampleWarpX sampleWarpXStatic 0))
        = Outcome.ok none := by
      simp [WarpXParticleContainer.DepositCurrent,
        WarpXParticleContainer.DepositCurrent_tileCall, sampleTileNoDeposit,
        sampleDepositEmpty]
    refine ⟨rfl, hcall, ?_⟩
    simp only [WarpXParticleContainer.DepositCurrent_levels, hcall]
    rfl

end WarpX


namespace WarpX

variable {R : Type} [LinearOrderedField R]

/-- C24, amended. In `WarpX::OneStep_multiJ` without `J_linear_in_time` (`n_depose ≥ 1`,
`dt[0] ≠ 0`), when the arguments `(dt[0], t_depose)` of the pass `i` reach
`WarpXParticleContainer::DepositCurrent` unchanged, the per-tile `DepositCurrent` gets as
relative time the value of `((i - n_depose + 0.5)*sub_dt)/dt[0]` with `sub_dt =
dt[0]/n_depose`, each of the three operations rounded by the arithmetic `fl` of
`amrex::Real`.  In exact arithmetic (`fl` the identity) this value is
`(i - n_depose + 0.5)/n_depose`, which is `-0.5` exactly when `2*i + 1 = n_depose`, and
`-1 + 1/(2*n_depose)` for `i = 0`.  With `n_depose = 1` and no time averaging the loop has
one pass and, when the rounding is exact on `dt[0]`, on `-0.5*dt[0]` and on `-0.5`, its
relative time is `-0.5`, which passes the checks of the Vay algorithm and of the Esirkepov
algorithm (staggered grid, no Galilean velocity).  For every `n_depose ≥ 2` and every
rounding with a relative error of at most `1/16`, the pass `i = 0` has a relative time
other than `-0.5`, and with the Esirkepov or Vay algorithm a tile that holds particles of
a species that deposits (`do_not_deposit` false) makes the per-tile call, hence the whole
deposition, a fatal error. -/
theorem OneStep_multiJ_relative_time (fl : R → R) (w : WarpX R) (s : WarpXStatic)
    (tile : DepositCurrentCall R) (lev np : Int)
    (hn : 1 ≤ s.do_multi_J_n_depositions) (hJ : s.J_linear_in_time = false)
    (hdt : w.dt 0 ≠ 0) :
    (∀ i : Int,
      (WarpXParticleContainer.DepositCurrent_tileCall fl tile lev np (w.dt 0)
          (OneStep_multiJ_t_depose_fl fl w s i)).relative_time
        = fl (fl (((i : R) - (s.do_multi_J_n_depositions : R) + 1/2)
                  * fl (w.dt 0 / (s.do_multi_J_n_depositions : R)))
              / w.dt 0)) ∧
    (∀ i : Int,
      MultiJOp.DepositCurrent (w.dt 0) (OneStep_multiJ_t_depose_fl id w s i)
        ∈ OneStep_multiJ_body w s i ∧
      (WarpXParticleContainer.DepositCurrent_tileCall id tile lev np (w.dt 0)
          (OneStep_multiJ_t_depose_fl id w s i)).relative_time
        = ((i : R) - (s.do_multi_J_n_depositions : R) + 1/2)
            / (s.do_multi_J_n_depositions : R) ∧
      ((WarpXParticleContainer.DepositCurrent_tileCall id tile lev np (w.dt 0)
          (OneStep_multiJ_t_depose_fl id w s i)).relative_time = -(1/2 : R)
        ↔ 2 * i + 1 = s.do_multi_J_n_depositions)) ∧
    ((WarpXParticleContainer.DepositCurrent_tileCall id tile lev np (w.dt 0)
          (OneStep_multiJ_t_depose_fl id w s 0)).relative_time
        = -1 + 1 / (2 * (s.do_multi_J_n_depositions : R))) ∧
    (s.do_multi_J_n_depositions = 1 → s.fft_do_time_averaging = false →
      fl (w.dt 0) = w.dt 0 → fl (-(1/2) * w.dt 0) = -(1/2) * w.dt 0 →
      fl (-(1/2 : R)) = -(1/2 : R) →
      OneStep_multiJ_n_loop s = 1 ∧
      ∀ i : Int, 0 ≤ i → i < OneStep_multiJ_n_loop s →
        (WarpXParticleContainer.DepositCurrent_tileCall fl tile lev np (w.dt 0)
            (OneStep_multiJ_t_depose_fl fl w s i)).relative_time = -(1/2 : R) ∧
        ((tile.current_deposition_algo = CurrentDepositionAlgo.Vay
            ∨ (tile.current_deposition_algo = CurrentDepositionAlgo.Esirkepov
                ∧ tile.do_nodal ≠ 1
                ∧ tile.m_v_galilean 0 = 0 ∧ tile.m_v_galilean 1 = 0
                ∧ tile.m_v_galilean 2 = 0)) →
          WarpXParticleContainer.DepositCurrent_algorithmChecks
            (WarpXParticleContainer.DepositCurrent_tileCall fl tile lev np (w.dt 0)
              (OneStep_multiJ_t_depose_fl fl w s i)) = none)) ∧
    (2 ≤ s.do_multi_J_n_depositions →
      ∀ u : R, u ≤ 1/16 → (∀ x : R, |fl x - x| ≤ u * |x|) →
      (WarpXParticleContainer.DepositCurrent_tileCall fl tile lev np (w.dt 0)
          (OneStep_multiJ_t_depose_fl fl w s 0)).relative_time ≠ -(1/2 : R) ∧
      ((tile.current_deposition_algo = CurrentDepositionAlgo.Esirkepov
          ∨ tile.current_deposition_algo = CurrentDepositionAlgo.Vay) →
        np ≠ 0 → tile.do_not_deposit = false →
        (WarpXParticleContainer.DepositCurrent
          (WarpXParticleContainer.DepositCurrent_tileCall fl tile lev np (w.dt 0)
            (OneStep_multiJ_t_depose_fl fl w s 0))).isAbort = true ∧
        ∀ rest : List (DepositCurrentCall R × Int × Int),
          (WarpXParticleContainer.DepositCurrent_levels fl (w.dt 0)
            (OneStep_multiJ_t_depose_fl fl w s 0) ((tile, lev, np) :: rest)).isAbort
            = true)) := by
  have hrel := fun i => OneStep_multiJ_tile_relative_time fl w s tile lev np i hJ
  have hex := fun i => OneStep_multiJ_tile_relative_time_exact w s tile lev np i hn hJ hdt
  have hnR : (s.do_multi_J_n_depositions : R) ≠ 0 := by
    have : (0 : R) < (s.do_multi_J_n_depositions : R) := by
      exact_mod_cast (by omega : (0 : Int) < s.do_multi_J_n_depositions)
    exact ne_of_gt this
  refine ⟨hrel, ?_, ?_, ?_, ?_⟩
  · intro i
    refine ⟨?_, hex i, ?_⟩
    · rw [OneStep_multiJ_t_depose_fl_id]
      simp [OneStep_multiJ_body]
    · rw [hex i]
      exact relative_time_eq_neg_half_iff i _ hn
  · rw [hex 0]
    push_cast
    field_simp
    ring
  · intro h1 havg hfa hfb hfc
    have hloop : OneStep_multiJ_n_loop s = 1 := by
      simp [OneStep_multiJ_n_loop, havg, h1]
    refine ⟨hloop, ?_⟩
    intro i hi0 hi1
    have hi : i = 0 := by omega
    have hr : (WarpXParticleContainer.DepositCurrent_tileCall fl tile lev np (w.dt 0)
            (OneStep_multiJ_t_depose_fl fl w s i)).relative_time = -(1/2 : R) := by
      rw [hrel i, hi, h1]
      have e1 : w.dt 0 / ((1 : Int) : R) = w.dt 0 := by simp
      have e2 : (((0 : Int) : R) - ((1 : Int) : R) + 1/2) = -(1/2 : R) := by norm_num
      have e3 : -(1/2) * w.dt 0 / w.dt 0 = -(1/2 : R) := by
        field_simp
        ring
      rw [e1, hfa, e2, hfb, e3, hfc]
    exact ⟨hr, fun halgo =>
      WarpXParticleContainer.algorithmChecks_none_of_neg_half _ hr halgo⟩
  · intro h2 u hu hfl
    have hn2 : (2 : R) ≤ (s.do_multi_J_n_depositions : R) := by exact_mod_cast h2
    have hne : (WarpXParticleContainer.DepositCurrent_tileCall fl tile lev np (w.dt 0)
          (OneStep_multiJ_t_depose_fl fl w s 0)).relative_time ≠ -(1/2 : R) := by
      rw [hrel 0]
      have e : (((0 : Int) : R) - (s.do_multi_J_n_depositions : R) + 1/2)
          = -(s.do_multi_J_n_depositions : R) + 1/2 := by
        push_cast
        ring
      rw [e]
      intro h
      have hlt := rounded_first_pass fl u (w.dt 0) (s.do_multi_J_n_depositions : R) hu hfl
        hdt hn2
      rw [h, abs_neg, abs_of_pos (by norm_num : (0 : R) < 1/2)] at hlt
      exact lt_irrefl _ hlt
    refine ⟨hne, ?_⟩
    intro halgo hnp hdnd
    have habort := WarpXParticleContainer.DepositCurrent_isAbort_of_checks
      (WarpXParticleContainer.DepositCurrent_tileCall fl tile lev np (w.dt 0)
        (OneStep_multiJ_t_depose_fl fl w s 0))
      (WarpXParticleContainer.algorithmChecks_relative_time _ halgo hne) hnp hdnd
    exact ⟨habort, fun rest =>
      WarpXParticleContainer.DepositCurrent_levels_isAbort fl _ _ tile lev np rest habort⟩

/-- Witness of C24, amended: three depositions per step on `sampleWarpX` in exact
arithmetic, a tile of 5 particles with the Esirkepov algorithm. -/
theorem OneStep_multiJ_relative_time_witness :
    (1 ≤ sampleWarpXStatic.do_multi_J_n_depositions ∧
      sampleWarpXStatic.J_linear_in_time = false ∧ sampleWarpX.dt 0 ≠ 0) ∧
    (∀ i : Int,
      MultiJOp.DepositCurrent (sampleWarpX.dt 0)
          (OneStep_multiJ_t_depose_fl id sampleWarpX sampleWarpXStatic i)
        ∈ OneStep_multiJ_body sampleWarpX sampleWarpXStatic i ∧
      (WarpXParticleContainer.DepositCurrent_tileCall id sampleTile 0 5 (sampleWarpX.dt 0)
          (OneStep_multiJ_t_depose_fl id sampleWarpX sampleWarpXStatic i)).relative_time
        = ((i : ℚ) - (sampleWarpXStatic.do_multi_J_n_depositions : ℚ) + 1/2)
            / (sampleWarpXStatic.do_multi_J_n_depositions : ℚ) ∧
      ((WarpXParticleContainer.DepositCurrent_tileCall id sampleTile 0 5 (sampleWarpX.dt 0)
          (OneStep_multiJ_t_depose_fl id sampleWarpX sampleWarpXStatic i)).relative_time
          = -(1/2 : ℚ)
        ↔ 2 * i + 1 = sampleWarpXStatic.do_multi_J_n_depositions)) ∧
    (WarpXParticleContainer.DepositCurrent
      (WarpXParticleContainer.DepositCurrent_tileCall id sampleTile 0 5 (sampleWarpX.dt 0)
        (OneStep_multiJ_t_depose_fl id sampleWarpX sampleWarpXStatic 0))).isAbort = true :=
  ⟨⟨by decide, rfl, by norm_num [sampleWarpX]⟩,
    (OneStep_multiJ_relative_time id sampleWarpX sampleWarpXStatic sampleTile 0 5
      (by decide) rfl (by norm_num [sampleWarpX])).2.1,
    ((((OneStep_multiJ_relative_time id sampleWarpX sampleWarpXStatic sampleTile 0 5
      (by decide) rfl (by norm_num [sampleWarpX])).2.2.2.2 (by decide) 0 (by norm_num)
        (fun x => by simp)).2)
        (Or.inl rfl) (by decide) rfl).1⟩

end WarpX
